import Mathlib

/-!
pixelserv-tls: request classifier, redirect decoding, certificate keys and statistics.

A shallow embedding of the parts of `socket_handler.c` and `pixelserv.c` that decide which
canned response a request gets, how a redirect target is found in a request path, which
PEM file a TLS server name is mapped to, which messages a worker writes to the stats pipe,
how the accept loop of `main` keeps its counters, and how `read_socket` and the POST branch
count the bytes they receive.

Conventions of the embedding.

* A byte is a `Nat` below 256. A C string is the `List Nat` of the bytes that precede its
  terminating NUL, so a C string never contains 0. Where the program can put a NUL into the
  middle of a buffer (bytes received from the network, the output of `urldecode`) the list is
  cut with `cstr` before it is read as a string again.
* A `char *` that may be `NULL` is an `Option (List Nat)`. A pointer into a string is the
  suffix of the string that starts at that position.
* Undefined behaviour of the C program (a `NULL` passed to a string function, a write in
  front of a buffer or behind it, a string function reading a string that no NUL ends, a
  numeral outside the range of `int` given to `atoi`, a division by zero) is the result
  `none`; a worker that meets it ends as `worker_end.undefined`.
* The loops of `main` and `conn_handler` are fed with the list of results of their system
  calls, one entry for each pass.
-/

namespace Pixelserv

/-! ## Bytes and C strings -/

/-- The bytes of an ASCII string literal of the source. -/
def bytes (s : String) : List Nat := s.toList.map Char.toNat

/-- The C string held by a buffer: the bytes in front of the first NUL. -/
def cstr (l : List Nat) : List Nat := l.takeWhile (fun c => c != 0)

/-- The libc function `tolower`, in the C locale. -/
def tolower (c : Nat) : Nat := if 65 ≤ c ∧ c ≤ 90 then c + 32 else c

/-- The libc function `isdigit`. -/
def isdigit (c : Nat) : Bool := decide (48 ≤ c) && decide (c ≤ 57)

/-- The libc function `isspace`, in the C locale: space, and `\t \n \v \f \r`. -/
def isspace (c : Nat) : Bool := decide (c = 32) || (decide (9 ≤ c) && decide (c ≤ 13))

/-- The libc function `strchr(s, c)` for `c` other than NUL: the suffix of `s` at the first `c`. -/
def strchr : List Nat → Nat → Option (List Nat)
  | [], _ => none
  | x :: xs, c => if x = c then some (x :: xs) else strchr xs c

/-- The libc function `strrchr(s, c)` for `c` other than NUL: the suffix of `s` at the last `c`. -/
def strrchr : List Nat → Nat → Option (List Nat)
  | [], _ => none
  | x :: xs, c =>
    match strrchr xs c with
    | some r => some r
    | none => if x = c then some (x :: xs) else none

/-- The libc function `strstr(haystack, needle)`: the suffix of the haystack at the first
occurrence of the needle. -/
def strstr : List Nat → List Nat → Option (List Nat)
  | [], needle => if needle.isEmpty then some [] else none
  | x :: xs, needle =>
    if needle.isPrefixOf (x :: xs) then some (x :: xs) else strstr xs needle

/-- The glibc function `strcasestr(haystack, needle)`: as `strstr`, ignoring letter case. -/
def strcasestr : List Nat → List Nat → Option (List Nat)
  | [], needle => if needle.isEmpty then some [] else none
  | x :: xs, needle =>
    if (needle.map tolower).isPrefixOf ((x :: xs).map tolower) then some (x :: xs)
    else strcasestr xs needle

/-- The test `strcmp(a, b) == 0`. -/
def strcmp_eq (a b : List Nat) : Bool := decide (a = b)

/-- The test `strncmp(a, b, n) == 0`: the first `n` bytes agree, or both strings end before
that and agree entirely. -/
def strncmp_eq (a b : List Nat) (n : Nat) : Bool := decide (a.take n = b.take n)

/-- The test `strcasecmp(a, b) == 0`. -/
def strcasecmp_eq (a b : List Nat) : Bool := decide (a.map tolower = b.map tolower)

/-- The test `strncasecmp(a, b, n) == 0`. -/
def strncasecmp_eq (a b : List Nat) (n : Nat) : Bool :=
  decide ((a.take n).map tolower = (b.take n).map tolower)

/-- One call of `strtok(s, delim)` (or `strtok_r`) on the string `s`: leading delimiters are
skipped; if nothing is left the call returns `NULL`; otherwise the token runs up to the next
delimiter, which is overwritten with NUL. The second component is the string at the saved
position, where the next call with a `NULL` first argument resumes. -/
def strtok (s delim : List Nat) : Option (List Nat) × List Nat :=
  let s1 := s.dropWhile (fun c => decide (c ∈ delim))
  if s1.isEmpty then (none, [])
  else (some (s1.takeWhile (fun c => !decide (c ∈ delim))),
        (s1.dropWhile (fun c => !decide (c ∈ delim))).drop 1)

/-- Smallest value of a 32-bit `int`. -/
def INT_MIN : Int := -2147483648

/-- Largest value of a 32-bit `int`. -/
def INT_MAX : Int := 2147483647

/-- The digit loop of `atoi`: the value of the leading decimal digits, accumulated on `acc`. -/
def atoi_digits : List Nat → Int → Int
  | [], acc => acc
  | c :: cs, acc => if isdigit c then atoi_digits cs (acc * 10 + ((c : Int) - 48)) else acc

/-- The libc function `atoi`: white space is skipped, an optional sign is read, then the
leading decimal digits; a string without digits gives 0. The C standard leaves the result
undefined when the value does not fit an `int`; that case is `none`. -/
def atoi (s : List Nat) : Option Int :=
  let s1 := s.dropWhile isspace
  let v : Int :=
    match s1 with
    | 45 :: r => - atoi_digits r 0
    | 43 :: r => atoi_digits r 0
    | r => atoi_digits r 0
  if INT_MIN ≤ v ∧ v ≤ INT_MAX then some v else none

/-- The `%u` conversion of `asprintf` applied to an `unsigned int`. -/
def fmt_u (n : Nat) : List Nat := bytes (Nat.repr (n % 4294967296))

/-! ## Redirect utility functions (`socket_handler.c`, lines 302 to 344) -/

/-- The `while` loop of `strstr_last` (lines 315 to 320) with `strp` at offset `p` of `str1`:
the offsets `p, p-1, ..., 1` are tried in turn, offset 0 is never tried. -/
def strstr_last_loop (str1 str2 : List Nat) : Nat → Option (List Nat)
  | 0 => none
  | p + 1 =>
    if (str1.drop (p + 1)).head? = str2.head? ∧ strncmp_eq (str1.drop (p + 1)) str2 str2.length
    then some (str1.drop (p + 1))
    else strstr_last_loop str1 str2 p

/-- The function `strstr_last(str1, str2)` (lines 303 to 322). -/
def strstr_last (str1 str2 : List Nat) : Option (List Nat) :=
  if str2.length = 0 then some str1
  else if (str1.length : Int) - (str2.length : Int) ≤ 0 then none
  else strstr_last_loop str1 str2 (str1.length - str2.length)

/-- The function `from_hex(ch)` (lines 324 to 326). The result is a `char`, so the value of
the `int` expression is kept modulo 256. -/
def from_hex (ch : Nat) : Nat :=
  if isdigit ch then (ch - 48) % 256 else (tolower ch + 256 - 97 + 10) % 256

/-- The function `urldecode(decoded, encoded)` (lines 328 to 344): the bytes written to
`decoded` in front of the final NUL, for the C string `encoded`. A `%` that is followed by
two more bytes becomes the byte `from_hex(pstr[1]) << 4 | from_hex(pstr[2])` (stored in a
`char`, hence modulo 256); a `%` with fewer than two bytes after it is dropped. -/
def urldecode : List Nat → List Nat
  | [] => []
  | c :: a :: b :: rest =>
    if c = 37 then ((from_hex a * 16) ||| from_hex b) % 256 :: urldecode rest
    else c :: urldecode (a :: b :: rest)
  | c :: rest => if c = 37 then urldecode rest else c :: urldecode rest

/-- The double decode of `conn_handler` (lines 893 to 903): `urldecode(decoded, path)`
followed by `urldecode(path, decoded)`; the result is the C string then held by `path`. -/
def double_decode (path : List Nat) : List Nat :=
  cstr (urldecode (cstr (urldecode path)))


/-! ## Status codes and the pipe message -/

/-- Modelled from the spec: the declaration of `response_enum` is in `util.h`, which is not
among the sources. The enumerators are the ones `conn_handler` and the switch of `main`
(`pixelserv.c`, lines 574 to 598) use, in the order of that switch; the two control messages
come last, as `main` tests `status < ACTION_LOG_VERB` to tell them from the rest. -/
inductive response_enum
  | FAIL_GENERAL | FAIL_TIMEOUT | FAIL_CLOSED | FAIL_REPLY
  | SEND_GIF | SEND_TXT | SEND_JPG | SEND_PNG | SEND_SWF | SEND_ICO
  | SEND_BAD | SEND_STATS | SEND_STATSTEXT | SEND_204 | SEND_REDIRECT
  | SEND_NO_EXT | SEND_UNK_EXT | SEND_NO_URL | SEND_BAD_PATH
  | SEND_POST | SEND_HEAD | SEND_OPTIONS
  | ACTION_LOG_VERB | ACTION_DEC_KCC
  deriving DecidableEq

/-- The integer value of an enumerator of `response_enum`. -/
def response_enum.toNat : response_enum → Nat
  | .FAIL_GENERAL => 0 | .FAIL_TIMEOUT => 1 | .FAIL_CLOSED => 2 | .FAIL_REPLY => 3
  | .SEND_GIF => 4 | .SEND_TXT => 5 | .SEND_JPG => 6 | .SEND_PNG => 7 | .SEND_SWF => 8
  | .SEND_ICO => 9 | .SEND_BAD => 10 | .SEND_STATS => 11 | .SEND_STATSTEXT => 12
  | .SEND_204 => 13 | .SEND_REDIRECT => 14 | .SEND_NO_EXT => 15 | .SEND_UNK_EXT => 16
  | .SEND_NO_URL => 17 | .SEND_BAD_PATH => 18 | .SEND_POST => 19 | .SEND_HEAD => 20
  | .SEND_OPTIONS => 21 | .ACTION_LOG_VERB => 22 | .ACTION_DEC_KCC => 23

/-- Modelled from the spec: the declaration of `ssl_enum` is in `util.h`, which is not among
the sources. These are the five TLS outcomes the sources and §7 of the spec name. -/
inductive ssl_enum
  | SSL_HIT | SSL_HIT_CLS | SSL_MISS | SSL_ERR | SSL_UNKNOWN
  deriving DecidableEq

/-- Modelled from the spec: the declaration of `response_struct` is in `util.h`, which is not
among the sources. These are the members the sources read and write, except `run_time`, which
is a `double`. -/
structure response_struct where
  status : response_enum
  ssl : ssl_enum
  rx_total : Int
  krq : Int
  verb : Int
  deriving DecidableEq

/-! ## Canned responses (`socket_handler.c`, lines 19 to 232) -/

/-- The literal `http204` (lines 19 to 23): HTTP 204 No Content. -/
def http204 : List Nat :=
  bytes "HTTP/1.1 204 No Content\r\n"
  ++ bytes "Content-Length: 0\r\n"
  ++ bytes "Content-Type: text/html; charset=UTF-8\r\n"
  ++ bytes "\r\n"

/-- The literal `httpstats1` (lines 26 to 29): head of the HTML stats response. -/
def httpstats1 : List Nat :=
  bytes "HTTP/1.1 200 OK\r\n"
  ++ bytes "Content-type: text/html\r\n"
  ++ bytes "Content-length: "

/-- The literal `httpstats2` (lines 31 to 34): what follows the content length. -/
def httpstats2 : List Nat :=
  bytes "\r\n"
  ++ bytes "Connection: keep-alive\r\n"
  ++ bytes "\r\n"

/-- The literal `httpstats3` (lines 36 to 37): prelude of the HTML stats body. -/
def httpstats3 : List Nat :=
  bytes "<!DOCTYPE html><html><head><title>pixelserv statistics</title><style>body \x7bfont-family:monospace;\x7d table \x7bmin-width: 75%; border-collapse: collapse;\x7d th \x7b height:18px; \x7d td \x7bborder: 1px solid #e0e0e0; background-color: #f9f9f9;\x7d td:first-child \x7bwidth: 7%;\x7d td:nth-child(2) \x7bwidth: 15%; background-color: #ebebeb; border: 1px solid #f9f9f9;\x7d</style></head><body>"

/-- The literal `httpstats4` (lines 39 to 40): epilogue of the HTML stats body. -/
def httpstats4 : List Nat :=
  bytes "</body></html>\r\n"

/-- The literal `txtstats1` (lines 46 to 49): head of the text stats response. -/
def txtstats1 : List Nat :=
  bytes "HTTP/1.1 200 OK\r\n"
  ++ bytes "Content-type: text/plain\r\n"
  ++ bytes "Content-length: "

/-- The literal `txtstats2` (lines 51 to 54): what follows the content length. -/
def txtstats2 : List Nat :=
  bytes "\r\n"
  ++ bytes "Connection: keep-alive\r\n"
  ++ bytes "\r\n"

/-- The literal `txtstats3` (lines 56 to 57): end of the text stats body. -/
def txtstats3 : List Nat :=
  bytes "\r\n"

/-- The part of the format `httpredirect` (lines 59 to 64) in front of its `%s`. -/
def httpredirect_head : List Nat :=
  bytes "HTTP/1.1 307 Temporary Redirect\r\n"
  ++ bytes "Location: "

/-- The part of the format `httpredirect` (lines 59 to 64) behind its `%s`. -/
def httpredirect_tail : List Nat :=
  bytes "\r\n"
  ++ bytes "Content-type: text/plain\r\n"
  ++ bytes "Content-length: 0\r\n"
  ++ bytes "Connection: keep-alive\r\n\r\n"

/-- The literal `httpnullpixel` (lines 66 to 93): the 1x1 GIF response, `NULL_GIF` of the
spec. -/
def httpnullpixel : List Nat :=
  bytes "HTTP/1.1 200 OK\r\n"
  ++ bytes "Content-type: image/gif\r\n"
  ++ bytes "Content-length: 42\r\n"
  ++ bytes "Connection: keep-alive\r\n"
  ++ bytes "\r\n"
  ++ bytes "GIF89a"
  ++ [1, 0, 1, 0, 128, 0, 0, 1, 1, 1, 0, 0, 0, 33, 249, 4, 1, 0, 0, 0, 0]
  ++ bytes ","
  ++ [0, 0, 0, 0, 1, 0, 1, 0, 0, 2, 1]
  ++ bytes "D"
  ++ [0]
  ++ bytes ";"

/-- The literal `httpnulltext` (lines 95 to 101): the empty text response, `NULL_TEXT` of the
spec. -/
def httpnulltext : List Nat :=
  bytes "HTTP/1.1 200 OK\r\n"
  ++ bytes "Strict-Transport-Security: max-age=31536000; includeSubDomains\r\n"
  ++ bytes "Content-type: text/html\r\n"
  ++ bytes "Content-length: 0\r\n"
  ++ bytes "Connection: keep-alive\r\n"
  ++ bytes "\r\n"

/-- The literal `http501` (lines 103 to 106): `HTTP_501` of the spec. -/
def http501 : List Nat :=
  bytes "HTTP/1.1 501 Method Not Implemented\r\n"
  ++ bytes "Connection: keep-alive\r\n"
  ++ bytes "\r\n"

/-- The literal `httpnull_png` (lines 108 to 131): `NULL_PNG` of the spec. -/
def httpnull_png : List Nat :=
  bytes "HTTP/1.1 200 OK\r\n"
  ++ bytes "Content-type: image/png\r\n"
  ++ bytes "Content-length: 67\r\n"
  ++ bytes "Connection: keep-alive\r\n"
  ++ bytes "\r\n"
  ++ [137]
  ++ bytes "PNG"
  ++ bytes "\r\n"
  ++ [26, 10, 0, 0, 0, 13]
  ++ bytes "IHDR"
  ++ [0, 0, 0, 1, 0, 0, 0, 1, 8, 6, 0, 0, 0, 31, 21, 196, 137, 0, 0, 0, 10]
  ++ bytes "IDAT"
  ++ [120, 156, 99, 0, 1, 0, 0, 5, 0, 1, 13, 10, 45, 180, 0, 0, 0, 0]
  ++ bytes "IEND"
  ++ [174, 66, 96, 130]

/-- The literal `httpnull_jpg` (lines 133 to 178): `NULL_JPEG` of the spec. -/
def httpnull_jpg : List Nat :=
  bytes "HTTP/1.1 200 OK\r\n"
  ++ bytes "Content-type: image/jpeg\r\n"
  ++ bytes "Content-length: 159\r\n"
  ++ bytes "Connection: close\r\n"
  ++ bytes "\r\n"
  ++ [255, 216, 255, 224, 0, 16, 74, 70, 73, 70, 0, 1, 1, 1, 0, 72, 0, 72, 0, 0, 255, 219, 0,
      67, 0, 255, 255, 255, 255, 255, 255, 255, 255, 255, 255, 255, 255, 255, 255, 255, 255,
      255, 255, 255, 255, 255, 255, 255, 255, 255, 255, 255, 255, 255, 255, 255, 255, 255, 255,
      255, 255, 255, 255, 255, 255, 255, 255, 255, 255, 255, 255, 255, 255, 255, 255, 255, 255,
      255, 255, 255, 255, 255, 255, 255, 255, 255, 255, 255, 255, 255, 192, 0, 11, 8, 0, 1, 0,
      1, 1, 1, 17, 0, 255, 196, 0, 20, 0, 1, 0, 0, 0, 0, 0, 0, 0, 0, 0, 0, 0, 0, 0, 0, 0, 3,
      255, 196, 0, 20, 16, 1, 0, 0, 0, 0, 0, 0, 0, 0, 0, 0, 0, 0, 0, 0, 0, 0, 255, 218, 0, 8,
      1, 1, 0, 0, 63, 0, 55, 255, 217]

/-- The literal `httpnull_swf` (lines 180 to 195): `NULL_SWF` of the spec. -/
def httpnull_swf : List Nat :=
  bytes "HTTP/1.1 200 OK\r\n"
  ++ bytes "Content-type: application/x-shockwave-flash\r\n"
  ++ bytes "Content-length: 25\r\n"
  ++ bytes "Connection: keep-alive\r\n"
  ++ bytes "\r\n"
  ++ bytes "FWS"
  ++ [5, 25, 0, 0, 0, 48, 10, 0, 160, 0, 1, 1, 0, 67, 2, 0, 0, 0, 64, 0, 0, 0]

/-- The literal `httpnull_ico` (lines 197 to 223): `NULL_ICO` of the spec. -/
def httpnull_ico : List Nat :=
  bytes "HTTP/1.1 200 OK\r\n"
  ++ bytes "Content-type: image/x-icon\r\n"
  ++ bytes "Cache-Control: max-age=2592000\r\n"
  ++ bytes "Content-length: 70\r\n"
  ++ bytes "Connection: keep-alive\r\n"
  ++ bytes "\r\n"
  ++ [0, 0, 1, 0, 1, 0, 1, 1, 0, 0, 1, 0, 32, 0, 48, 0, 0, 0, 22, 0, 0, 0, 40, 0, 0, 0, 1, 0,
      0, 0, 2, 0, 0, 0, 1, 0, 32, 0, 0, 0, 0, 0, 0, 0, 0, 0, 0, 0, 0, 0, 0, 0, 0, 0, 0, 0, 0,
      0, 0, 0, 0, 0, 0, 0, 0, 0, 128, 248, 156, 65]

/-- The literal `httpoptions` (lines 225 to 232): `HTTP_OPTIONS` of the spec. -/
def httpoptions : List Nat :=
  bytes "HTTP/1.1 200 OK\r\n"
  ++ bytes "Content-type: text/html\r\n"
  ++ bytes "Content-length: 11\r\n"
  ++ bytes "Allow: GET,OPTIONS\r\n"
  ++ bytes "Connection: keep-alive\r\n"
  ++ bytes "\r\n"
  ++ bytes "GET,OPTIONS"


/-- The call `asprintf(&aspbuf, httpredirect, url)` (line 930). -/
def asprintf_redirect (url : List Nat) : List Nat :=
  httpredirect_head ++ url ++ httpredirect_tail

/-- The constant `statsbaselen` (line 43): `sizeof httpstats3 + sizeof httpstats4 - 2`, where
each `sizeof` counts the terminating NUL. -/
def statsbaselen : Nat := (httpstats3.length + 1) + (httpstats4.length + 1) - 2

/-- The HTML stats response built by `asprintf` with format `%s%u%s%s%s<br>%s%s` (lines 859
to 867). -/
def asprintf_stats (version_string stat_string : List Nat) : List Nat :=
  httpstats1 ++ fmt_u (statsbaselen + version_string.length + 4 + stat_string.length)
    ++ httpstats2 ++ httpstats3 ++ version_string ++ bytes "<br>" ++ stat_string ++ httpstats4

/-- The text stats response built by `asprintf` with format `%s%u%s%s\n%s%s` (lines 875 to
882). -/
def asprintf_statstext (version_string stat_string : List Nat) : List Nat :=
  txtstats1 ++ fmt_u (version_string.length + 1 + stat_string.length + 2)
    ++ txtstats2 ++ version_string ++ bytes "\n" ++ stat_string ++ txtstats3

/-! ## The server name callback (`socket_handler.c`, lines 414 to 507) -/

/-- The dot counting loop of `tls_servername_cb` (lines 435 to 439), started with
`pem_file`, `dot_count` and `tld` as given. The first argument bounds the number of
iterations; `none` means the bound was reached with `pem_file` still not `NULL`. -/
def dot_loop : Nat → Option (List Nat) → Nat → Option (List Nat) →
    Option (Nat × Option (List Nat))
  | _, none, dot_count, tld => some (dot_count, tld)
  | 0, some _, _, _ => none
  | fuel + 1, some pem_file, dot_count, _ =>
    dot_loop fuel (strchr (pem_file.drop 1) 46) (dot_count + 1) (some (pem_file.drop 1))

/-- The test `dot_count > 1 && !(dot_count == 3 && atoi(tld) >= 0)` (line 440), with the
short-circuit evaluation of C: `atoi` is only called when `dot_count` is 3. -/
def wildcard_test (dot_count : Nat) (tld : Option (List Nat)) : Option Bool :=
  if dot_count > 1 then
    if dot_count = 3 then
      match tld with
      | none => none
      | some t => (atoi t).map (fun v => !decide (v ≥ 0))
    else some true
  else some false

/-- The name of the PEM file that `tls_servername_cb` derives from the buffer `servername`
(lines 431 to 444): the C string at `pem_file` when line 448 is reached. When the test of
line 440 succeeds, `pem_file` is moved to the byte in front of the first dot and that byte
is overwritten with `_`; if the first dot is the first byte of the buffer, the write lands
in front of the buffer, which is undefined behaviour. -/
def pem_file_name (servername : List Nat) : Option (List Nat) :=
  match dot_loop (servername.length + 1) (strchr servername 46) 0 none with
  | none => none
  | some (dot_count, tld) =>
    match wildcard_test dot_count tld with
    | none => none
    | some true =>
      match strchr servername 46 with
      | none => none
      | some pem_file =>
        if servername.length - pem_file.length = 0 then none
        else some (95 :: pem_file)
    | some false => some servername

/-- What `tls_servername_cb` cannot decide by itself: the sizes of its two buffers, constants
of `util.h`, and the results of the system and library calls it makes. -/
structure tls_world where
  /-- The constant `PIXELSERV_MAX_SERVER_NAME`: `servername` has one byte more. -/
  PIXELSERV_MAX_SERVER_NAME : Nat
  /-- The constant `PIXELSERV_MAX_PATH`, the size of `full_pem_path`. -/
  PIXELSERV_MAX_PATH : Nat
  /-- Whether `stat(full_pem_path, &st)` returns 0. -/
  stat_ok : List Nat → Bool
  /-- Whether `open(PIXEL_CERT_PIPE, O_WRONLY)` returns a descriptor. -/
  open_ok : Bool
  /-- Whether `SSL_CTX_use_certificate_file` and `SSL_CTX_use_PrivateKey_file` both succeed. -/
  use_pem_ok : List Nat → Bool

/-- The two values `tls_servername_cb` returns. -/
inductive tlsext_err
  | SSL_TLSEXT_ERR_OK | SSL_TLSEXT_ERR_ALERT_FATAL
  deriving DecidableEq

/-- What one call of `tls_servername_cb` leaves behind. -/
structure tls_cb_result where
  /-- The return value `rv`. -/
  rv : tlsext_err
  /-- The member `tlsext_cb_arg->status` on return. -/
  status : ssl_enum
  /-- The file name passed to `stat`. -/
  full_pem_path : List Nat
  /-- The bytes passed to `write` on the miss pipe, if `write` is called. -/
  pipe_write : Option (List Nat)
  deriving DecidableEq

/-- The function `tls_servername_cb` (lines 414 to 507). `sni` is the result of
`SSL_get_servername`, `server_ip` the fallback of line 425. `strncpy` keeps at most
`PIXELSERV_MAX_SERVER_NAME` bytes of the name in `servername`, an array of
`PIXELSERV_MAX_SERVER_NAME + 1` bytes whose last byte is NUL (line 422). The three calls of
lines 448 to 450 write `pem_dir`, `/`, the key and a NUL to `full_pem_path`, an array of
`PIXELSERV_MAX_PATH` bytes; more bytes than that is undefined behaviour. The string at
`pem_file` ends where the string in `servername` ends, so that `strcat(pem_file, ":")` (line
462) writes the `:` and a NUL behind the `servername.length` bytes of the name; when the name
fills all `PIXELSERV_MAX_SERVER_NAME` bytes the NUL lands behind the array, which is
undefined behaviour. The calls of `log_msg` are left out. -/
def tls_servername_cb (w : tls_world) (pem_dir : List Nat) (sni : Option (List Nat))
    (server_ip : List Nat) : Option tls_cb_result :=
  let servername : List Nat :=
    match sni with
    | none => server_ip.take w.PIXELSERV_MAX_SERVER_NAME
    | some name => name.take w.PIXELSERV_MAX_SERVER_NAME
  match pem_file_name servername with
  | none => none
  | some pem_file =>
    let full_pem_path := pem_dir ++ bytes "/" ++ pem_file
    if full_pem_path.length + 1 > w.PIXELSERV_MAX_PATH then none
    else if !w.stat_ok full_pem_path then
      if w.open_ok then
        if servername.length + 2 > w.PIXELSERV_MAX_SERVER_NAME + 1 then none
        else
          some { rv := .SSL_TLSEXT_ERR_ALERT_FATAL, status := .SSL_MISS,
                 full_pem_path := full_pem_path, pipe_write := some (pem_file ++ bytes ":") }
      else
        some { rv := .SSL_TLSEXT_ERR_ALERT_FATAL, status := .SSL_MISS,
               full_pem_path := full_pem_path, pipe_write := none }
    else if !w.use_pem_ok full_pem_path then
      some { rv := .SSL_TLSEXT_ERR_ALERT_FATAL, status := .SSL_ERR,
             full_pem_path := full_pem_path, pipe_write := none }
    else
      some { rv := .SSL_TLSEXT_ERR_OK, status := .SSL_HIT,
             full_pem_path := full_pem_path, pipe_write := none }


/-! ## The request classifier of `conn_handler` (`socket_handler.c`, lines 686 to 1001) -/

/-- The settings `conn_handler` reads: the members of `struct Global` it copies at lines 551
to 554 and reads at lines 689 and 798, and the macros of `util.h` and `logger.h` it uses
(those headers are not among the sources, so the macros are parameters). -/
structure Global where
  /-- The member `stats_url`. -/
  stats_url : List Nat
  /-- The member `stats_text_url`. -/
  stats_text_url : List Nat
  /-- The member `do_204`. -/
  do_204 : Bool
  /-- The member `do_redirect`. -/
  do_redirect : Bool
  /-- The member `select_timeout`. -/
  select_timeout : Int
  /-- The member `http_keepalive`. -/
  http_keepalive : Int
  /-- The macro `DEFAULT_REPLY`. -/
  DEFAULT_REPLY : response_enum
  /-- The macro `LGG_DEBUG`, the highest log verbosity. -/
  LGG_DEBUG : Int
  /-- The macro `MAX_HTTP_POST_LEN`. -/
  MAX_HTTP_POST_LEN : Int
  /-- The macro `MAX_HTTP_POST_WAIT`. -/
  MAX_HTTP_POST_WAIT : Int
  /-- The macro `CHAR_BUF_SIZE`. -/
  CHAR_BUF_SIZE : Int

/-- The results of the calls `conn_handler` makes while it classifies one request. -/
structure Calls where
  /-- The string returned by `get_version(argc, argv)`. -/
  version_string : List Nat
  /-- The string returned by `get_stats(1, 0)`. -/
  stats_html : List Nat
  /-- The string returned by `get_stats(0, 1)`. -/
  stats_text : List Nat
  /-- Whether `malloc(post_buf_size + 1)` returns a buffer. -/
  malloc_ok : Bool
  /-- The values returned by the successive `recv` or `SSL_read` calls of the POST loop. -/
  recvs : List Int
  /-- Whether `log_get_verb() >= LGG_INFO` holds at line 731. -/
  log_info : Bool
  /-- Whether `req_url` points to a buffer that takes the first line of the request: the
  `malloc` of line 575 and the `realloc` of line 737, where it is called, returned one. -/
  req_url_ok : Bool

/-- What the classifier leaves behind for the rest of the loop body: the pipe message so
far, the `rsize` bytes at `response`, and `post_buf_len`. -/
structure Selection where
  /-- The variable `pipedata`. -/
  pipedata : response_struct
  /-- The `rsize` bytes at `response`. -/
  response : List Nat
  /-- The variable `post_buf_len`. -/
  post_buf_len : Int
  deriving DecidableEq

/-- The delimiter string `"\r\n"`. -/
def CRLF : List Nat := [13, 10]

/-- The header loop of lines 914 to 922, entered with `url` not `NULL`: the header lines left
at `bufptr` are taken one by one with `strtok_r(NULL, "\r\n", &bufptr)`, split with
`strtok(tok, ":")` and `strtok(NULL, "\r\n")`, and `url` is set to `NULL` at the first line
whose key contains `Referer` and whose value contains `url`. The result is the final `url`.
`strstr` on a `NULL` key or value is undefined behaviour (`none`). The first argument bounds
the number of iterations; reaching the bound is `none` as well. -/
def referer_loop (url : List Nat) : Nat → List Nat → Option (Option (List Nat))
  | 0, _ => none
  | fuel + 1, bufptr =>
    match strtok bufptr CRLF with
    | (none, _) => some (some url)
    | (some tok, bufptr1) =>
      match strtok tok [58] with
      | (none, _) => none
      | (some hkey, save) =>
        if (strstr hkey (bytes "Referer")).isSome then
          match (strtok save CRLF).1 with
          | none => none
          | some hvalue =>
            if (strstr hvalue url).isSome then some none
            else referer_loop url fuel bufptr1
        else referer_loop url fuel bufptr1

/-- The search of lines 904 to 907 in the decoded path: the last `http://`, and only when
there is none, the last `https://`. -/
def find_url (path : List Nat) : Option (List Nat) :=
  match strstr_last path (bytes "http://") with
  | some url => some url
  | none => strstr_last path (bytes "https://")

/-- The test of line 892 that starts redirect decoding. -/
def wants_decode (g : Global) (path : List Nat) : Bool :=
  g.do_redirect && (strcasestr path (bytes "=http")).isSome

/-- The C string at `path` once lines 892 to 927 are done: decoded twice in place when the
test of line 892 succeeds, untouched otherwise. -/
def path_after_decode (g : Global) (path : List Nat) : List Nat :=
  if wants_decode g path then double_decode path else path

/-- The variable `url` once lines 892 to 927 are done (it is `NULL` at line 892, being reset
on every path that sets it). `bufptr` is the C string at `bufptr`, `none` when no NUL ends it
within the bytes received (see `host_log`). The outer `none` of the result is undefined
behaviour in the header loop, which reads the string at `bufptr` to its end. -/
def url_after_scan (g : Global) (path : List Nat) (bufptr : Option (List Nat)) :
    Option (Option (List Nat)) :=
  if wants_decode g path then
    match find_url (double_decode path) with
    | none => some none
    | some url =>
      match bufptr with
      | none => none
      | some bufptr => referer_loop url (bufptr.length + 1) bufptr
  else some none

/-- The extension classifier of lines 935 to 983 for the C string at `path`: the status and
the response it selects (`response` is `httpnulltext` when the classifier is entered).
`strtok` returns `NULL` when `path` has no byte other than `?#;=`, and `strrchr(NULL, '/')`
is undefined behaviour. -/
def ext_classifier (path : List Nat) : Option (response_enum × List Nat) :=
  match (strtok path (bytes "?#;=")).1 with
  | none => none
  | some seg =>
    match strrchr seg 47 with
    | none => some (.SEND_BAD_PATH, httpnulltext)
    | some file =>
      match strrchr file 46 with
      | none => some (.SEND_NO_EXT, httpnulltext)
      | some ext =>
        if strcasecmp_eq ext (bytes ".gif") then some (.SEND_GIF, httpnullpixel)
        else if strcasecmp_eq ext (bytes ".png") then some (.SEND_PNG, httpnull_png)
        else if strncasecmp_eq ext (bytes ".jp") 3 then some (.SEND_JPG, httpnull_jpg)
        else if strcasecmp_eq ext (bytes ".swf") then some (.SEND_SWF, httpnull_swf)
        else if strcasecmp_eq ext (bytes ".ico") then some (.SEND_ICO, httpnull_ico)
        else if strncasecmp_eq ext (bytes ".js") 3 then some (.SEND_TXT, httpnulltext)
        else some (.SEND_UNK_EXT, httpnulltext)

/-- The rules of the GET branch that come before redirect decoding (lines 847 to 889),
as a test on the path: `/log=`, the two stats URLs, and `/generate_204`. -/
def earlier_rule (g : Global) (path : List Nat) : Bool :=
  strncmp_eq path (bytes "/log=") 5 || strcmp_eq path g.stats_url
    || strcmp_eq path g.stats_text_url
    || (g.do_204 && strcasecmp_eq path (bytes "/generate_204"))

/-- The GET branch of `conn_handler` (lines 839 to 986). `path` is the result of
`strtok(NULL, " ")`, `bufptr` the rest of the request behind its first line as the block of
lines 731 to 754 left it (`none` when no NUL ends it within the bytes received). -/
def conn_handler_get (g : Global) (c : Calls) (pd : response_struct) (path : Option (List Nat))
    (bufptr : Option (List Nat)) : Option Selection :=
  let pd := { pd with status := g.DEFAULT_REPLY }
  match path with
  | none => some ⟨{ pd with status := .SEND_NO_URL }, httpnulltext, 0⟩
  | some path =>
    if strncmp_eq path (bytes "/log=") 5 then
      match atoi (path.drop 5) with
      | none => none
      | some v =>
        if v > g.LGG_DEBUG ∨ v < 0 then some ⟨{ pd with status := .SEND_BAD }, httpnulltext, 0⟩
        else some ⟨{ pd with status := .ACTION_LOG_VERB, verb := v }, httpnulltext, 0⟩
    else if strcmp_eq path g.stats_url then
      some ⟨{ pd with status := .SEND_STATS },
            asprintf_stats c.version_string c.stats_html, 0⟩
    else if strcmp_eq path g.stats_text_url then
      some ⟨{ pd with status := .SEND_STATSTEXT },
            asprintf_statstext c.version_string c.stats_text, 0⟩
    else if g.do_204 && strcasecmp_eq path (bytes "/generate_204") then
      some ⟨{ pd with status := .SEND_204 }, http204, 0⟩
    else
      match url_after_scan g path bufptr with
      | none => none
      | some (some url) =>
        some ⟨{ pd with status := .SEND_REDIRECT }, asprintf_redirect url, 0⟩
      | some none =>
        match ext_classifier (path_after_decode g path) with
        | none => none
        | some (status, response) => some ⟨{ pd with status := status }, response, 0⟩

/-- The variables of the POST loop (lines 766 to 769), with `pipedata.rx_total`. -/
structure post_state where
  /-- The variable `recv_len`. -/
  recv_len : Int
  /-- The variable `length`. -/
  length : Int
  /-- The variable `post_buf_size`. -/
  post_buf_size : Int
  /-- The variable `wait_cnt` of the POST branch. -/
  wait_cnt : Int
  /-- The member `pipedata.rx_total`. -/
  rx_total : Int
  deriving DecidableEq

/-- One pass through the body of the POST loop (lines 803 to 831) when the receive call
returns `rv`. -/
def post_step (g : Global) (s : post_state) (rv : Int) : post_state :=
  if rv > 0 then
    let length := s.length - rv
    if s.recv_len + rv < g.MAX_HTTP_POST_LEN then
      { s with rx_total := s.rx_total + rv, length := length,
               recv_len := s.recv_len + rv, post_buf_size := s.post_buf_size - rv }
    else if length > g.CHAR_BUF_SIZE then
      { s with rx_total := s.rx_total + rv, length := length,
               recv_len := s.recv_len + (rv - g.CHAR_BUF_SIZE),
               post_buf_size := g.CHAR_BUF_SIZE }
    else
      { s with rx_total := s.rx_total + rv, length := length,
               recv_len := s.recv_len + (rv - length), post_buf_size := length }
  else { s with wait_cnt := s.wait_cnt - 1 }

/-- The POST loop `for (; length > 0 && wait_cnt > 0;)` (lines 802 to 832), fed with the
results of its receive calls. The result is `none` when the list of results ends while the
loop is still running. -/
def post_loop (g : Global) : List Int → post_state → Option post_state
  | [], s => if s.length > 0 ∧ s.wait_cnt > 0 then none else some s
  | rv :: rest, s =>
    if s.length > 0 ∧ s.wait_cnt > 0 then post_loop g rest (post_step g s rv) else some s

/-- The POST branch of `conn_handler` (lines 765 to 838). `body_len` is the variable of line
729, with `body` not `NULL` exactly when `has_body`. A missing `Content-Length: ` header makes
`h` an invalid pointer, and a header without value makes `strtok` return `NULL`; both are
undefined behaviour, as is the division by a zero `select_timeout`. The bounds of `post_buf`
are not tracked. -/
def conn_handler_post (g : Global) (c : Calls) (pd : response_struct) (bufptr : List Nat)
    (has_body : Bool) (body_len : Int) : Option Selection :=
  match strstr bufptr (bytes "Content-Length: ") with
  | none => none
  | some h =>
    match (strtok (h.drop 16) CRLF).1 with
    | none => none
    | some tok =>
      match atoi tok with
      | none => none
      | some length =>
        let post_buf_size := if length < g.MAX_HTTP_POST_LEN then length else g.MAX_HTTP_POST_LEN
        if !c.malloc_ok then
          some ⟨{ pd with status := .SEND_POST }, http204, 0⟩
        else
          let s0 : post_state :=
            if has_body ∧ body_len > 4 then
              ⟨body_len - 4, length - (body_len - 4), post_buf_size - (body_len - 4), 0,
                pd.rx_total⟩
            else ⟨0, length, post_buf_size, 0, pd.rx_total⟩
          if g.select_timeout = 0 then none
          else
            let wait_cnt := Int.tdiv g.MAX_HTTP_POST_WAIT g.select_timeout
            let s1 := { s0 with wait_cnt := if wait_cnt < 1 then 1 else wait_cnt }
            match post_loop g c.recvs s1 with
            | none => none
            | some s =>
              some ⟨{ pd with status := .SEND_POST, rx_total := s.rx_total }, http204,
                    s.recv_len⟩

/-- The POST branch up to its receive loop (lines 770 to 799) when `malloc` succeeds: the
value of `post_buf_size` at the call `malloc(post_buf_size + 1)` of line 781, and the loop
variables when line 802 is reached. `memcpy` at line 791 copies `recv_len = body_len - 4`
bytes of the first read into `post_buf`. The result is `none` in the cases of undefined
behaviour listed at `conn_handler_post`. -/
def post_setup (g : Global) (pd : response_struct) (bufptr : List Nat)
    (has_body : Bool) (body_len : Int) : Option (Int × post_state) :=
  match strstr bufptr (bytes "Content-Length: ") with
  | none => none
  | some h =>
    match (strtok (h.drop 16) CRLF).1 with
    | none => none
    | some tok =>
      match atoi tok with
      | none => none
      | some length =>
        let post_buf_size := if length < g.MAX_HTTP_POST_LEN then length else g.MAX_HTTP_POST_LEN
        let s0 : post_state :=
          if has_body ∧ body_len > 4 then
            ⟨body_len - 4, length - (body_len - 4), post_buf_size - (body_len - 4), 0,
              pd.rx_total⟩
          else ⟨0, length, post_buf_size, 0, pd.rx_total⟩
        if g.select_timeout = 0 then none
        else
          let wait_cnt := Int.tdiv g.MAX_HTTP_POST_WAIT g.select_timeout
          some (post_buf_size, { s0 with wait_cnt := if wait_cnt < 1 then 1 else wait_cnt })

/-- The results of the receive calls that the POST loop (lines 802 to 832) makes when it is
fed with the given list of results: the loop takes one result for each pass. -/
def post_loop_calls (g : Global) : List Int → post_state → List Int
  | [], _ => []
  | rv :: rest, s =>
    if s.length > 0 ∧ s.wait_cnt > 0 then rv :: post_loop_calls g rest (post_step g s rv)
    else []

/-- The first line of the request and the rest behind it: the call
`strtok_r(buf, "\r\n", &bufptr)` of line 730 on the received bytes. -/
def request_line (buf : List Nat) : Option (List Nat) × List Nat :=
  strtok (cstr buf) CRLF

/-- The method token: the call `strtok(req, " ")` of line 755. -/
def request_method (buf : List Nat) : Option (List Nat) :=
  match request_line buf with
  | (none, _) => none
  | (some req, _) => (strtok req [32]).1

/-- The path token of a request with a method: the call `strtok(NULL, " ")` of line 843. -/
def request_path (buf : List Nat) : Option (List Nat) :=
  match request_line buf with
  | (none, _) => none
  | (some req, _) => (strtok (strtok req [32]).2 [32]).1

/-- The bytes of `buf` behind the NUL that ends its C string, when that NUL is one of the
`rv` bytes received; `none` when the C string is ended by `buf[rv]`, the NUL of line 721. -/
def behind_nul (buf : List Nat) : Option (List Nat) :=
  if (cstr buf).length < buf.length then some (buf.drop ((cstr buf).length + 1)) else none

/-- The search for the host name in the access-log block (lines 741 to 752) of a request
with a first line: `bufptr` is the C string behind the first line, `behind` what
`behind_nul` gives for `buf`. The result is the C string at `bufptr` afterwards.

Without `Host: ` in the string nothing is written. Otherwise `strtok` (line 745) looks for a
token behind `Host: `; when only CR and LF bytes are left it returns `NULL`, and
`strlen(NULL)` (line 747) is undefined behaviour, the outer `none`. Line 751 writes `\r` to
the byte behind the token. When the token was ended by a CR or LF (which `strtok` has
replaced by NUL), that byte becomes `\r`. When the token runs to the end of the string, the
`\r` replaces the NUL that ends the string: the string then goes on with the bytes received
behind that NUL, if it was one of them; if it was `buf[rv]`, no NUL ends the string within
the bytes received, the inner `none`. The copies to `host` (lines 747 to 750) stay within its
`HOST_LEN_MAX` bytes. -/
def host_log (bufptr : List Nat) (behind : Option (List Nat)) : Option (Option (List Nat)) :=
  match strstr bufptr (bytes "Host: ") with
  | none => some (some bufptr)
  | some h =>
    match (strtok (h.drop 6) CRLF).1 with
    | none => none
    | some tmpHost =>
      let tail := ((h.drop 6).dropWhile (fun c => decide (c ∈ CRLF))).drop tmpHost.length
      match tail with
      | _ :: rest => some (some (bufptr.take (bufptr.length - tail.length) ++ 13 :: rest))
      | [] =>
        match behind with
        | some b => some (some (bufptr ++ 13 :: cstr b))
        | none => some none

/-- The access-log block of lines 731 to 754 for a request with a first line (`req` is not
`NULL`): it runs at log verbosity `LGG_INFO` and above, copies the first line to `req_url`
(undefined behaviour, `none`, when `req_url` is no buffer for it) and searches the host name
with `host_log`. The result is the C string at `bufptr` when line 755 is reached. -/
def access_log (c : Calls) (buf bufptr : List Nat) : Option (Option (List Nat)) :=
  if c.log_info then
    if c.req_url_ok then host_log bufptr (behind_nul buf) else none
  else some (some bufptr)

/-- The classification of one request by `conn_handler` (lines 719 to 1001): `buf` holds the
`rv > 0` bytes returned by `read_socket`, `pd` is `pipedata` as the previous requests of the
connection left it. When the request has no first line, `strtok(req, " ")` is a call with a
`NULL` first argument, which resumes from whatever an earlier `strtok` call saved; that case
is `none`. The POST branch starts with `strstr(bufptr, ...)`, which is undefined behaviour
when no NUL ends the string at `bufptr`. -/
def conn_handler_classify (g : Global) (c : Calls) (pd : response_struct) (buf : List Nat) :
    Option Selection :=
  let rv : Int := buf.length
  let body := strstr (cstr buf) (bytes "\r\n\r\n")
  let body_len : Int :=
    match body with
    | some b => rv - ((cstr buf).length - b.length : Nat)
    | none => 0
  let pd := { pd with rx_total := rv }
  match request_line buf with
  | (none, _) => none
  | (some req, bufptr) =>
    match access_log c buf bufptr with
    | none => none
    | some bufptr =>
      match strtok req [32] with
      | (none, _) => some ⟨pd, httpnulltext, 0⟩
      | (some method, save) =>
        if strcmp_eq method (bytes "OPTIONS") then
          some ⟨{ pd with status := .SEND_OPTIONS }, httpoptions, 0⟩
        else if strcmp_eq method (bytes "POST") then
          match bufptr with
          | none => none
          | some bufptr => conn_handler_post g c pd bufptr body.isSome body_len
        else if strcmp_eq method (bytes "GET") then
          conn_handler_get g c pd (strtok save [32]).1 bufptr
        else if strcmp_eq method (bytes "HEAD") then
          some ⟨{ pd with status := .SEND_HEAD }, http501, 0⟩
        else
          some ⟨{ pd with status := .SEND_BAD }, http501, 0⟩

/-! ## The reply step of `conn_handler` (`socket_handler.c`, lines 1011 to 1035) -/

/-- The outcome of the `SSL_write` or `send` call of lines 1017 to 1021. -/
inductive send_outcome
  /-- The call returned `rv`, which is not negative. -/
  | sent (rv : Int)
  /-- The call failed with `errno` set to `EPIPE` or `ECONNRESET`. -/
  | peer_gone
  /-- The call failed with another `errno`. -/
  | failed
  deriving DecidableEq

/-- The reply step of `conn_handler` (lines 1011 to 1035): the selected response is written
unless the status is `FAIL_GENERAL`, `FAIL_TIMEOUT` or `FAIL_CLOSED`, and a failed write
replaces the status. The result is `pipedata` as line 1074 writes it to the stats pipe. -/
def conn_handler_reply (pd : response_struct) (o : send_outcome) : response_struct :=
  if pd.status = .FAIL_GENERAL then pd
  else if pd.status ≠ .FAIL_TIMEOUT ∧ pd.status ≠ .FAIL_CLOSED then
    match o with
    | .sent _ => pd
    | .peer_gone => { pd with status := .FAIL_REPLY }
    | .failed => { pd with status := .FAIL_GENERAL }
  else pd

/-! ## The stats collector of `main` (`pixelserv.c`, lines 574 to 639) -/

/-- The integer counters of the dispatcher that a pipe message can change, and the log
verbosity. The moving averages `avg`, `tav`, `kvg` and the maximum `tmx` are computed in
floating point and are left out. -/
structure Stats where
  err : Int
  tmo : Int
  cls : Int
  cly : Int
  gif : Int
  txt : Int
  jpg : Int
  png : Int
  swf : Int
  ico : Int
  bad : Int
  sta : Int
  stt : Int
  noc : Int
  rdr : Int
  nfe : Int
  ufe : Int
  nou : Int
  pth : Int
  pst : Int
  hed : Int
  opt : Int
  slh : Int
  slc : Int
  count : Int
  kcc : Int
  rmx : Int
  krq : Int
  log_verb : Int
  deriving DecidableEq

/-- The first switch of the collector (lines 574 to 601), on `pipedata.status`. -/
def count_status (st : Stats) (pd : response_struct) : Stats :=
  match pd.status with
  | .FAIL_GENERAL => { st with err := st.err + 1 }
  | .FAIL_TIMEOUT => { st with tmo := st.tmo + 1 }
  | .FAIL_CLOSED => { st with cls := st.cls + 1 }
  | .FAIL_REPLY => { st with cly := st.cly + 1 }
  | .SEND_GIF => { st with gif := st.gif + 1 }
  | .SEND_TXT => { st with txt := st.txt + 1 }
  | .SEND_JPG => { st with jpg := st.jpg + 1 }
  | .SEND_PNG => { st with png := st.png + 1 }
  | .SEND_SWF => { st with swf := st.swf + 1 }
  | .SEND_ICO => { st with ico := st.ico + 1 }
  | .SEND_BAD => { st with bad := st.bad + 1 }
  | .SEND_STATS => { st with sta := st.sta + 1 }
  | .SEND_STATSTEXT => { st with stt := st.stt + 1 }
  | .SEND_204 => { st with noc := st.noc + 1 }
  | .SEND_REDIRECT => { st with rdr := st.rdr + 1 }
  | .SEND_NO_EXT => { st with nfe := st.nfe + 1 }
  | .SEND_UNK_EXT => { st with ufe := st.ufe + 1 }
  | .SEND_NO_URL => { st with nou := st.nou + 1 }
  | .SEND_BAD_PATH => { st with pth := st.pth + 1 }
  | .SEND_POST => { st with pst := st.pst + 1 }
  | .SEND_HEAD => { st with hed := st.hed + 1 }
  | .SEND_OPTIONS => { st with opt := st.opt + 1 }
  | .ACTION_LOG_VERB => { st with log_verb := pd.verb }
  | .ACTION_DEC_KCC => { st with kcc := st.kcc - 1 }

/-- The second switch of the collector (lines 602 to 606), on `pipedata.ssl`. -/
def count_ssl (st : Stats) (pd : response_struct) : Stats :=
  match pd.ssl with
  | .SSL_HIT => { st with slh := st.slh + 1 }
  | .SSL_HIT_CLS => { st with slc := st.slc + 1 }
  | _ => st

/-- The rest of the collector (lines 607 to 638), without its floating point part. -/
def count_totals (st : Stats) (pd : response_struct) : Stats :=
  if pd.status.toNat < response_enum.ACTION_LOG_VERB.toNat then
    let st := { st with count := st.count + 1 }
    if pd.rx_total ≤ 0 then st
    else if pd.rx_total > st.rmx then { st with rmx := pd.rx_total } else st
  else if pd.status = .ACTION_DEC_KCC then
    if pd.krq > st.krq then { st with krq := pd.krq } else st
  else st

/-- The processing of one complete pipe message by `main` (lines 574 to 638). -/
def main_collect (st : Stats) (pd : response_struct) : Stats :=
  count_totals (count_ssl (count_status st pd) pd) pd

/-! ## The accept loop of `main` (`pixelserv.c`, lines 528 to 771) -/

/-- The counters of the dispatcher: those a pipe message can change, and those that only the
accept path changes. -/
structure Dispatcher where
  /-- The counters of the collector, `kcc` among them. -/
  stats : Stats
  /-- The counter `kmx`. -/
  kmx : Int
  /-- The counter `clt`. -/
  clt : Int
  /-- The counter `slm`. -/
  slm : Int
  /-- The counter `sle`. -/
  sle : Int
  /-- The counter `slu`. -/
  slu : Int
  deriving DecidableEq

/-- The result of the single `read` from the pipe at line 565. -/
inductive pipe_read
  /-- The call returned a negative value. -/
  | error
  /-- The call returned zero. -/
  | zero
  /-- The call returned fewer bytes than `sizeof(pipedata)`. -/
  | short
  /-- The call filled `pipedata` with a whole message. -/
  | complete (pd : response_struct)
  deriving DecidableEq

/-- What a pass of the loop meets on a listening socket (lines 660 to 759). -/
inductive accept_result
  /-- The call `accept` returned a negative value; `again` tells whether `errno` is `EAGAIN`
  or `EWOULDBLOCK`. -/
  | refused (again : Bool)
  /-- The call `accept` returned a connection. `handshake` is `none` when `is_ssl_conn` is
  false, and otherwise tells whether `SSL_accept` returned 1 and the value of `t->status`
  after it. `created` tells whether the worker came into being: `pthread_create` returned
  zero, or `fork` did not fail. Both are consulted only when the pass gets that far. -/
  | connection (handshake : Option (Bool × ssl_enum)) (created : Bool)
  deriving DecidableEq

/-- What one pass of the loop of `main` services after `select`. -/
inductive wakeup
  /-- Nothing: `select` returned zero, or no descriptor of interest is ready. -/
  | idle
  /-- The pipe of the workers (lines 563 to 647). -/
  | pipe (r : pipe_read)
  /-- A listening socket (lines 658 to 762). -/
  | listener (a : accept_result)
  deriving DecidableEq

/-- The counter updates after a failed handshake (lines 692 to 699). -/
def count_handshake (d : Dispatcher) (status : ssl_enum) : Dispatcher :=
  let d := { d with stats := { d.stats with count := d.stats.count + 1 } }
  match status with
  | .SSL_MISS => { d with slm := d.slm + 1 }
  | .SSL_ERR => { d with sle := d.sle + 1 }
  | .SSL_UNKNOWN => { d with slu := d.slu + 1 }
  | _ => d

/-- The statement `if (++kcc > kmx) kmx = kcc;` of lines 761 and 762. -/
def count_worker (d : Dispatcher) : Dispatcher :=
  let kcc := d.stats.kcc + 1
  { d with stats := { d.stats with kcc := kcc }, kmx := if kcc > d.kmx then kcc else d.kmx }

/-- One pass of the loop of `main` (lines 528 to 771) on the counters. `USE_PTHREAD` tells
which of the two builds is described, `max_num_threads` is the variable of line 131. The
second component tells whether the pass created a worker. With `USE_PTHREAD` a failed
`pthread_create` leaves the pass by `continue` (line 734); without it the result of `fork`
is only compared with zero, so that after a failed `fork` the parent goes on to line 761. -/
def main_step (USE_PTHREAD : Bool) (max_num_threads : Int) (d : Dispatcher) (w : wakeup) :
    Dispatcher × Bool :=
  match w with
  | .idle => (d, false)
  | .pipe (.complete pd) => ({ d with stats := main_collect d.stats pd }, false)
  | .pipe _ => (d, false)
  | .listener (.refused again) =>
    if again then ({ d with stats := { d.stats with cls := d.stats.cls + 1 } }, false)
    else (d, false)
  | .listener (.connection handshake created) =>
    if d.stats.kcc ≥ max_num_threads then ({ d with clt := d.clt + 1 }, false)
    else
      match handshake with
      | some (false, status) => (count_handshake d status, false)
      | _ =>
        if created then (count_worker d, true)
        else if USE_PTHREAD then (d, false)
        else (count_worker d, false)

/-- The loop of `main` over the passes of a list, on the counters. -/
def main_loop (USE_PTHREAD : Bool) (max_num_threads : Int) :
    Dispatcher → List wakeup → Dispatcher
  | d, [] => d
  | d, w :: ws =>
    main_loop USE_PTHREAD max_num_threads (main_step USE_PTHREAD max_num_threads d w).1 ws

/-! ## The event loop of `conn_handler` (`socket_handler.c`, lines 562 to 1113) -/

/-- One call of `read_socket` in the keepalive loop (line 694), with what the pass through
the loop body meets after it. -/
inductive read_result
  /-- The call returned the length of `buf`; `c` holds the results of the calls made while
  the request is classified, `o` is the outcome of the reply. -/
  | data (buf : List Nat) (c : Calls) (o : send_outcome)
  /-- The call returned zero. -/
  | zero
  /-- The call returned a negative value; `gone` tells whether `errno` is `ECONNRESET` or
  `ETIMEDOUT`. -/
  | error (gone : Bool)

/-- How far a worker got. -/
inductive worker_end
  /-- The worker reached the end of `conn_handler`. -/
  | done
  /-- The worker waits in `read_socket`: the list of read results is used up. -/
  | reading
  /-- The worker met undefined behaviour. -/
  | undefined
  deriving DecidableEq

/-- The run of a worker: the messages it wrote to the stats pipe, in order, and how far it
got. -/
structure worker_run where
  /-- The values of `pipedata` at the `write` calls of lines 1073 and 1113. -/
  messages : List response_struct
  /-- How far the worker got. -/
  ending : worker_end
  deriving DecidableEq

/-- The value of `pipedata` after `= {0}` (line 562) and after the `memset` of line 1110:
every member is zero. The status with value zero is `FAIL_GENERAL`; `ssl_zero` is the
enumerator of `ssl_enum` with value zero, a parameter because `util.h`, which declares the
type, is not among the sources. -/
def zero_pipedata (ssl_zero : ssl_enum) : response_struct :=
  { status := .FAIL_GENERAL, ssl := ssl_zero, rx_total := 0, krq := 0, verb := 0 }

/-- The message written at the label `done_with_this_thread` (lines 1110 to 1113):
`pipedata` is cleared with `memset`, whatever it held, then `status` and `krq` are set. -/
def done_with_this_thread (ssl_zero : ssl_enum) (_pipedata : response_struct) (num_req : Int) :
    response_struct :=
  { zero_pipedata ssl_zero with status := .ACTION_DEC_KCC, krq := num_req }

/-- The value of `wait_cnt` at the start of a pass through the event loop (lines 689 and
690); the division by a zero `select_timeout` is undefined behaviour. -/
def keepalive_wait (g : Global) : Option Int :=
  if g.select_timeout = 0 then none
  else
    let wait_cnt := Int.tdiv g.http_keepalive g.select_timeout
    some (if wait_cnt < 1 then 1 else wait_cnt)

/-- The event loop of `conn_handler` (lines 686 to 1113), fed with the results of its
`read_socket` calls: `ssl` is the variable of line 573, `wait` the value `keepalive_wait`
gives, and the last three arguments are `wait_cnt`, `pipedata` and `num_req`. The inner loop
of lines 692 to 705 is left either by `break` with `rv > 0` or by the `goto` of line 702
(`wait_cnt` is decremented only when it is not 1), so that the branch `rv <= 0` of lines 708
to 718 is never entered. A request is classified, `num_req` is incremented, the reply is
sent and `pipedata` is written to the pipe (line 1073); then the loop starts over with a
fresh `wait_cnt`. -/
def event_loop (g : Global) (ssl : Bool) (ssl_zero : ssl_enum) (wait : Int) :
    List read_result → Int → response_struct → Int → worker_run
  | [], _, _, _ => ⟨[], .reading⟩
  | .data buf c o :: rest, _, pipedata, num_req =>
    if buf.length = 0 then
      let pipedata := if ssl then { pipedata with ssl := .SSL_HIT_CLS } else pipedata
      ⟨[done_with_this_thread ssl_zero pipedata num_req], .done⟩
    else
      match conn_handler_classify g c pipedata buf with
      | none => ⟨[], .undefined⟩
      | some sel =>
        let pipedata := conn_handler_reply sel.pipedata o
        let r := event_loop g ssl ssl_zero wait rest wait pipedata (num_req + 1)
        ⟨pipedata :: r.messages, r.ending⟩
  | .zero :: _, _, pipedata, num_req =>
    let pipedata := if ssl then { pipedata with ssl := .SSL_HIT_CLS } else pipedata
    ⟨[done_with_this_thread ssl_zero pipedata num_req], .done⟩
  | .error gone :: rest, wait_cnt, pipedata, num_req =>
    if gone ∨ wait_cnt = 1 then ⟨[done_with_this_thread ssl_zero pipedata num_req], .done⟩
    else event_loop g ssl ssl_zero wait rest (wait_cnt - 1) pipedata num_req

/-- The worker `conn_handler` on the stats pipe (lines 562 to 1113). `tls` is `none` when
the local port is not a TLS port (`ssl` is 0), and otherwise the value of
`tlsext_cb_arg.status` after `SSL_accept` (line 677); the event loop is entered whether the
handshake succeeded or not. -/
def conn_handler (g : Global) (ssl_zero : ssl_enum) (tls : Option ssl_enum)
    (reads : List read_result) : worker_run :=
  let pipedata := zero_pipedata ssl_zero
  let pipedata :=
    match tls with
    | some status => { pipedata with ssl := status }
    | none => pipedata
  match keepalive_wait g with
  | none => ⟨[], .undefined⟩
  | some wait => event_loop g tls.isSome ssl_zero wait reads wait pipedata 0

/-! ## The function `read_socket` (`socket_handler.c`, lines 509 to 543) -/

/-- The loop of `read_socket` (lines 522 to 541), fed with the results of its receive calls
(`recv` or `SSL_read`, each asked for `CHAR_BUF_SIZE` bytes): the arguments are the results
still to come and the variables `i` and `msg_len`. `MAX_CHAR_BUF_LOTS` is a macro of `util.h`,
`realloc_ok i` tells whether the `realloc` to `CHAR_BUF_SIZE * i + 1` bytes succeeds. The
result is the value returned and the results of the receive calls made; it is `none` when
the list of results ends while the loop is still running. -/
def read_socket_loop (CHAR_BUF_SIZE MAX_CHAR_BUF_LOTS : Int) (realloc_ok : Int → Bool) :
    List Int → Int → Int → Option (Int × List Int)
  | [], i, msg_len => if i ≤ MAX_CHAR_BUF_LOTS then none else some (msg_len, [])
  | rv :: rest, i, msg_len =>
    if i ≤ MAX_CHAR_BUF_LOTS then
      let msg_len := msg_len + rv
      if rv < CHAR_BUF_SIZE then some (msg_len, [rv])
      else if realloc_ok (i + 1) then
        (read_socket_loop CHAR_BUF_SIZE MAX_CHAR_BUF_LOTS realloc_ok rest (i + 1) msg_len).map
          (fun r => (r.1, rv :: r.2))
      else some (-1, [rv])
    else some (msg_len, [])

/-- The function `read_socket` (lines 509 to 543): `malloc_ok` tells whether the first
allocation of lines 510 to 513 succeeds. -/
def read_socket (CHAR_BUF_SIZE MAX_CHAR_BUF_LOTS : Int) (malloc_ok : Bool)
    (realloc_ok : Int → Bool) (recvs : List Int) : Option (Int × List Int) :=
  if !malloc_ok then some (-1, [])
  else read_socket_loop CHAR_BUF_SIZE MAX_CHAR_BUF_LOTS realloc_ok recvs 1 0

/-! ## Notions used in the statements

The settings and call results of the examples, the requests the statements quantify over,
and the notions of the specification (percent-encoding, the extension of a path, the last
protocol marker) written after its words. -/

/-- The settings of the examples: the default stats URLs and timeouts of §6 of the spec,
`/generate_204` and redirect decoding enabled, verbosity 5 for `LGG_DEBUG` (the usage text
of `main`), 4 KiB for `CHAR_BUF_SIZE` (the comment at line 522), and values chosen here for
the other macros. -/
def default_global : Global :=
  { stats_url := bytes "/servstats", stats_text_url := bytes "/servstats.txt",
    do_204 := true, do_redirect := true, select_timeout := 10, http_keepalive := 60,
    DEFAULT_REPLY := .SEND_TXT, LGG_DEBUG := 5, MAX_HTTP_POST_LEN := 262144,
    MAX_HTTP_POST_WAIT := 20, CHAR_BUF_SIZE := 4096 }

/-- The call results of the examples: empty version and stats strings, no POST data, a
verbosity below `LGG_INFO`. -/
def no_calls : Calls :=
  { version_string := [], stats_html := [], stats_text := [], malloc_ok := true, recvs := [],
    log_info := false, req_url_ok := true }

/-- The call results of the examples at verbosity `LGG_INFO` or above. -/
def info_calls : Calls := { no_calls with log_info := true }

/-- The pipe message the examples start from: the status `FAIL_GENERAL`, which is the zero
that `pipedata = {0}` gives, and a TLS outcome that the collector does not count. -/
def fresh_pipedata : response_struct :=
  { status := .FAIL_GENERAL, ssl := .SSL_UNKNOWN, rx_total := 0, krq := 0, verb := 0 }

/-- A collector whose counters are all zero. -/
def zero_stats : Stats :=
  { err := 0, tmo := 0, cls := 0, cly := 0, gif := 0, txt := 0, jpg := 0, png := 0, swf := 0,
    ico := 0, bad := 0, sta := 0, stt := 0, noc := 0, rdr := 0, nfe := 0, ufe := 0, nou := 0,
    pth := 0, pst := 0, hed := 0, opt := 0, slh := 0, slc := 0, count := 0, kcc := 0, rmx := 0,
    krq := 0, log_verb := 1 }

/-- A world for the examples: names of up to 255 bytes, paths of up to 1023 bytes, an empty
PEM directory, a miss pipe that can be opened or not. -/
def empty_store (open_ok : Bool) : tls_world :=
  { PIXELSERV_MAX_SERVER_NAME := 255, PIXELSERV_MAX_PATH := 1024, stat_ok := fun _ => false,
    open_ok := open_ok, use_pem_ok := fun _ => true }

/-- What follows the last `c` of a string (the whole string when it has no `c`). -/
def after_last (c : Nat) : List Nat → List Nat
  | [] => []
  | x :: xs => if c ∈ xs then after_last c xs else if x = c then xs else x :: xs

/-- The hexadecimal digit for a value below 16, in upper or in lower case. -/
def hex_digit (upper : Bool) (n : Nat) : Nat :=
  if n < 10 then 48 + n else (if upper then 65 else 97) + (n - 10)

/-- Standard percent-encoding of a byte string: every byte of the set `reserved` is written
as `%` and two hexadecimal digits, every other byte is left as it is. -/
def pct_encode (upper : Bool) (reserved : Nat → Bool) : List Nat → List Nat
  | [] => []
  | b :: bs =>
    if reserved b then
      37 :: hex_digit upper (b / 16) :: hex_digit upper (b % 16) :: pct_encode upper reserved bs
    else b :: pct_encode upper reserved bs

/-- Percent-encoding applied two times. -/
def encode_twice (upper : Bool) (reserved : Nat → Bool) (u : List Nat) : List Nat :=
  pct_encode upper reserved (pct_encode upper reserved u)

/-- The bytes that are encoded in the examples: everything but letters, digits and `-._~`. -/
def url_reserved (b : Nat) : Bool :=
  !((decide (48 ≤ b) && decide (b ≤ 57)) || (decide (65 ≤ b) && decide (b ≤ 90))
    || (decide (97 ≤ b) && decide (b ≤ 122)) || decide (b = 45) || decide (b = 46)
    || decide (b = 95) || decide (b = 126))

/-- The path cut at the first of the characters `? # ; =`. -/
def cut_path (p : List Nat) : List Nat := p.takeWhile (fun c => !decide (c ∈ bytes "?#;="))

/-- The extension of a cut path: the part from the last `.` that follows the last `/`, if
the cut path has a `/` and a `.` behind its last `/`. -/
def extension (seg : List Nat) : Option (List Nat) :=
  if 47 ∈ seg then
    if 46 ∈ after_last 47 seg then some (46 :: after_last 46 (after_last 47 seg)) else none
  else none

/-- The segment the classifier works on: the first run of characters of the path that are
not among `? # ; =`, that is, the path with leading characters of that set skipped and then
cut at the next one. -/
def first_segment (p : List Nat) : List Nat :=
  cut_path (p.dropWhile (fun c => decide (c ∈ bytes "?#;=")))

/-- Whether an extension matches one of the six rules of the classifier, letter case
ignored. -/
def known_extension (ext : List Nat) : Prop :=
  ext.map tolower = bytes ".gif" ∨ ext.map tolower = bytes ".png" ∨
  (ext.take 3).map tolower = bytes ".jp" ∨ ext.map tolower = bytes ".swf" ∨
  ext.map tolower = bytes ".ico" ∨ (ext.take 3).map tolower = bytes ".js"

/-- The position `i` is the last position of `s` at which `t` begins, and it lies behind the
first byte of `s`. -/
def last_inner_occurrence (t s : List Nat) (i : Nat) : Prop :=
  1 ≤ i ∧ t <+: s.drop i ∧ ∀ k, i < k → ¬ t <+: s.drop k

/-- The claim of the spec for the redirect URL: the suffix of the decoded path at the last
position where `http://` or `https://` begins, whichever marker it is. -/
def last_marker_suffix : List Nat → Option (List Nat)
  | [] => none
  | c :: cs =>
    match last_marker_suffix cs with
    | some r => some r
    | none =>
      if (bytes "http://").isPrefixOf (c :: cs) || (bytes "https://").isPrefixOf (c :: cs)
      then some (c :: cs) else none

/-- The header lines of a request: each header is written as name, `:`, value, CR LF. -/
def render_headers : List (List Nat × List Nat) → List Nat
  | [] => []
  | h :: hs => h.1 ++ 58 :: h.2 ++ CRLF ++ render_headers hs

/-- The bytes of the request `GET <path> HTTP/1.1` with the given headers. -/
def http_get (path : List Nat) (headers : List (List Nat × List Nat)) : List Nat :=
  bytes "GET " ++ path ++ bytes " HTTP/1.1\r\n" ++ render_headers headers ++ bytes "\r\n"

/-- A request path as it can stand in a request line: not empty, without space, CR, LF and
NUL. -/
def path_ok (path : List Nat) : Prop :=
  path ≠ [] ∧ ∀ c ∈ path, c ≠ 32 ∧ c ≠ 13 ∧ c ≠ 10 ∧ c ≠ 0

/-- A header as it can stand in a request: the name is not empty and has no `:`, neither
name nor value contains CR, LF or NUL, and the value of a header whose name contains
`Referer` is not empty. -/
def header_ok (h : List Nat × List Nat) : Prop :=
  h.1 ≠ [] ∧ (∀ c ∈ h.1, c ≠ 58 ∧ c ≠ 13 ∧ c ≠ 10 ∧ c ≠ 0) ∧
  (∀ c ∈ h.2, c ≠ 13 ∧ c ≠ 10 ∧ c ≠ 0) ∧ (bytes "Referer" <:+: h.1 → h.2 ≠ [])

/-- The marker occurs in `u` only at its start: neither `http://` nor `https://` begins at a
position of `u` behind the first byte. -/
def single_marker (u : List Nat) : Prop :=
  ∀ j, 1 ≤ j → ¬ bytes "http://" <+: u.drop j ∧ ¬ bytes "https://" <+: u.drop j

/-- The request path `/r?u=` followed by the twice-encoded URL `u`. -/
def redirect_path (upper : Bool) (reserved : Nat → Bool) (u : List Nat) : List Nat :=
  bytes "/r?u=" ++ encode_twice upper reserved u

/-- The counter that the spec assigns to a status: one for each status below
`ACTION_LOG_VERB`. The two action codes have no counter; their value here is zero. -/
def status_counter (st : Stats) : response_enum → Int
  | .FAIL_GENERAL => st.err
  | .FAIL_TIMEOUT => st.tmo
  | .FAIL_CLOSED => st.cls
  | .FAIL_REPLY => st.cly
  | .SEND_GIF => st.gif
  | .SEND_TXT => st.txt
  | .SEND_JPG => st.jpg
  | .SEND_PNG => st.png
  | .SEND_SWF => st.swf
  | .SEND_ICO => st.ico
  | .SEND_BAD => st.bad
  | .SEND_STATS => st.sta
  | .SEND_STATSTEXT => st.stt
  | .SEND_204 => st.noc
  | .SEND_REDIRECT => st.rdr
  | .SEND_NO_EXT => st.nfe
  | .SEND_UNK_EXT => st.ufe
  | .SEND_NO_URL => st.nou
  | .SEND_BAD_PATH => st.pth
  | .SEND_POST => st.pst
  | .SEND_HEAD => st.hed
  | .SEND_OPTIONS => st.opt
  | .ACTION_LOG_VERB => 0
  | .ACTION_DEC_KCC => 0

/-- A dispatcher whose counters are all zero. -/
def zero_dispatcher : Dispatcher :=
  { stats := zero_stats, kmx := 0, clt := 0, slm := 0, sle := 0, slu := 0 }

/-- The payload of a canned response: the bytes behind the first `\r\n\r\n`. -/
def payload (response : List Nat) : Option (List Nat) :=
  (strstr response (bytes "\r\n\r\n")).map (fun b => b.drop 4)

/-- The number in the `Content-length` header of a canned response. -/
def content_length (response : List Nat) : Option Int :=
  match strstr response (bytes "Content-length: ") with
  | some h => atoi (h.drop 16)
  | none => none

/-- The bytes of a request made of the given request line and an empty header section. -/
def bare_request (line : String) : List Nat := bytes line ++ bytes "\r\n\r\n"

/-- The statuses of the messages of a run, in order. -/
def statuses (r : worker_run) : List response_enum := r.messages.map (fun m => m.status)

/-- The statuses a request can be reported with: every status but `FAIL_TIMEOUT`,
`FAIL_CLOSED` and `ACTION_DEC_KCC`. -/
def request_status (s : response_enum) : Bool :=
  s != .FAIL_TIMEOUT && s != .FAIL_CLOSED && s != .ACTION_DEC_KCC

/-- Whether a read result is a request: a read that returned more than zero bytes. -/
def is_request : read_result → Bool
  | .data buf _ _ => decide (buf.length ≠ 0)
  | _ => false

/-- The final message of a worker that served `n` requests: `ACTION_DEC_KCC` with `krq = n`
and every other member zero. -/
def last_message (ssl_zero : ssl_enum) (n : Int) : response_struct :=
  { status := .ACTION_DEC_KCC, ssl := ssl_zero, rx_total := 0, krq := n, verb := 0 }

/-- The number of passes of a run of the dispatcher loop that created a worker. -/
def workers_created (USE_PTHREAD : Bool) (max_num_threads : Int) :
    Dispatcher → List wakeup → Int
  | _, [] => 0
  | d, w :: ws =>
    (if (main_step USE_PTHREAD max_num_threads d w).2 then 1 else 0)
      + workers_created USE_PTHREAD max_num_threads
          (main_step USE_PTHREAD max_num_threads d w).1 ws

/-- Whether a pass processes a complete `ACTION_DEC_KCC` message. -/
def is_dec_kcc : wakeup → Bool
  | .pipe (.complete pd) => decide (pd.status = .ACTION_DEC_KCC)
  | _ => false

/-- The highest value `kcc` has during a run of the dispatcher loop, its start included. -/
def kcc_peak (USE_PTHREAD : Bool) (max_num_threads : Int) : Dispatcher → List wakeup → Int
  | d, [] => d.stats.kcc
  | d, w :: ws =>
    max d.stats.kcc
      (kcc_peak USE_PTHREAD max_num_threads (main_step USE_PTHREAD max_num_threads d w).1 ws)

/-- Whether a response contains the header line `line`: the line between two line ends. -/
def has_header_line (response line : List Nat) : Bool :=
  (strstr response (CRLF ++ line ++ CRLF)).isSome

/-- The number of bytes that receive calls with the given results stored: a call that
returns `rv > 0` stored `rv` bytes, any other call stored none. -/
def stored_bytes : List Int → Int
  | [] => 0
  | rv :: rest => (if rv > 0 then rv else 0) + stored_bytes rest

/-- The value of a string of decimal digits read after the value `acc`. -/
def digits_value : List Nat → Int → Int
  | [], acc => acc
  | c :: cs, acc => digits_value cs (acc * 10 + ((c : Int) - 48))

/-! ## Lemmas

Facts about the string functions, the tokenizer, `strstr_last`, `urldecode`, the header loop,
the way of a request through `conn_handler_classify`, the collector, the accept loop, the
event loop of the worker, the receive loops, the decimal numbers of `asprintf` and the key
derivation, shared by the theorems that follow. -/

theorem strchr_append (first rest : List Nat) (c : Nat) (h : c ∉ first) :
    strchr (first ++ c :: rest) c = some (c :: rest) := by
  induction first with
  | nil => simp [strchr]
  | cons x xs ih =>
    have hx : x ≠ c := fun e => h (by simp [e])
    have hxs : c ∉ xs := fun e => h (by simp [e])
    simp [strchr, hx, ih hxs]

theorem dot_loop_spec (s : List Nat) :
    ∀ (fuel n : Nat) (tld : Option (List Nat)), s.length < fuel →
      dot_loop fuel (strchr s 46) n tld
        = some (n + s.count 46, if 46 ∈ s then some (after_last 46 s) else tld) := by
  induction s with
  | nil => intro fuel n tld _; cases fuel <;> simp [strchr, dot_loop]
  | cons x xs ih =>
    intro fuel n tld hf
    cases fuel with
    | zero => simp at hf
    | succ fuel =>
      have hf2 : xs.length < fuel := by simpa using hf
      by_cases hx : x = 46
      · subst hx
        simp only [strchr, if_true, dot_loop, List.drop_one, List.tail_cons]
        rw [ih fuel (n + 1) (some xs) hf2]
        by_cases hm : 46 ∈ xs
        · simp [after_last, hm]; omega
        · simp [after_last, hm]; omega
      · have hx2 : ¬ (46 = x) := fun e => hx e.symm
        simp only [strchr, if_neg hx]
        rw [ih (fuel + 1) n tld (by omega)]
        by_cases hm : 46 ∈ xs
        · simp [after_last, hm, hx, List.count_cons, hx2]
        · simp [after_last, hm, hx, List.count_cons, hx2]

theorem urldecode_cons_of_ne (c : Nat) (l : List Nat) (h : c ≠ 37) :
    urldecode (c :: l) = c :: urldecode l := by
  match l with
  | [] => simp [urldecode, h]
  | [a] => simp [urldecode, h]
  | a :: b :: rest => simp [urldecode, h]

theorem urldecode_escape (a b : Nat) (l : List Nat) :
    urldecode (37 :: a :: b :: l) = ((from_hex a * 16) ||| from_hex b) % 256 :: urldecode l := by
  simp [urldecode]

theorem from_hex_hex_digit (upper : Bool) :
    ∀ b, b < 256 →
      ((from_hex (hex_digit upper (b / 16)) * 16) ||| from_hex (hex_digit upper (b % 16))) % 256
        = b := by
  set_option maxRecDepth 100000 in
  cases upper <;> decide

theorem urldecode_pct_encode (upper : Bool) (reserved : Nat → Bool) (hpct : reserved 37 = true)
    (u : List Nat) (hbytes : ∀ b ∈ u, b < 256) :
    urldecode (pct_encode upper reserved u) = u := by
  induction u with
  | nil => simp [pct_encode, urldecode]
  | cons b bs ih =>
    have hb : b < 256 := hbytes b (by simp)
    have hbs : ∀ x ∈ bs, x < 256 := fun x hx => hbytes x (by simp [hx])
    by_cases hr : reserved b = true
    · simp only [pct_encode, hr, if_true, urldecode_escape, from_hex_hex_digit upper b hb,
        ih hbs]
    · have hne : b ≠ 37 := fun e => hr (e ▸ hpct)
      have hr2 : reserved b = false := by simpa using hr
      simp only [pct_encode, hr2, Bool.false_eq_true, if_false, urldecode_cons_of_ne b _ hne,
        ih hbs]

theorem hex_digit_lt (upper : Bool) (n : Nat) (h : n < 16) : hex_digit upper n < 256 := by
  unfold hex_digit
  cases upper <;> simp <;> split <;> omega

theorem hex_digit_pos (upper : Bool) (n : Nat) : 0 < hex_digit upper n := by
  unfold hex_digit
  cases upper <;> simp <;> split <;> omega

theorem pct_encode_bytes (upper : Bool) (reserved : Nat → Bool) (u : List Nat)
    (hbytes : ∀ b ∈ u, b < 256) : ∀ b ∈ pct_encode upper reserved u, b < 256 := by
  induction u with
  | nil => simp [pct_encode]
  | cons x xs ih =>
    have hx : x < 256 := hbytes x (by simp)
    have hxs : ∀ y ∈ xs, y < 256 := fun y hy => hbytes y (by simp [hy])
    intro b hb
    by_cases hr : reserved x = true
    · simp only [pct_encode, hr, if_true, List.mem_cons] at hb
      rcases hb with h | h | h | h
      · omega
      · rw [h]; exact hex_digit_lt upper _ (by omega)
      · rw [h]; exact hex_digit_lt upper _ (by omega)
      · exact ih hxs b h
    · have hr2 : reserved x = false := by simpa using hr
      simp only [pct_encode, hr2, Bool.false_eq_true, if_false, List.mem_cons] at hb
      rcases hb with h | h
      · omega
      · exact ih hxs b h

theorem pct_encode_nonzero (upper : Bool) (reserved : Nat → Bool) (u : List Nat)
    (hnul : ∀ b ∈ u, b ≠ 0) : ∀ b ∈ pct_encode upper reserved u, b ≠ 0 := by
  induction u with
  | nil => simp [pct_encode]
  | cons x xs ih =>
    have hx : x ≠ 0 := hnul x (by simp)
    have hxs : ∀ y ∈ xs, y ≠ 0 := fun y hy => hnul y (by simp [hy])
    intro b hb
    by_cases hr : reserved x = true
    · simp only [pct_encode, hr, if_true, List.mem_cons] at hb
      rcases hb with h | h | h | h
      · omega
      · rw [h]; exact Nat.pos_iff_ne_zero.mp (hex_digit_pos upper _)
      · rw [h]; exact Nat.pos_iff_ne_zero.mp (hex_digit_pos upper _)
      · exact ih hxs b h
    · have hr2 : reserved x = false := by simpa using hr
      simp only [pct_encode, hr2, Bool.false_eq_true, if_false, List.mem_cons] at hb
      rcases hb with h | h
      · omega
      · exact ih hxs b h

theorem cstr_of_nonzero (l : List Nat) (h : ∀ b ∈ l, b ≠ 0) : cstr l = l := by
  unfold cstr
  rw [List.takeWhile_eq_self_iff]
  intro b hb
  simpa using h b hb

theorem round_trip (upper : Bool) (reserved : Nat → Bool)
    (hpct : reserved 37 = true) (u : List Nat) (hbytes : ∀ b ∈ u, b < 256)
    (hnul : ∀ b ∈ u, b ≠ 0) :
    urldecode (urldecode (encode_twice upper reserved u)) = u ∧
      double_decode (encode_twice upper reserved u) = u := by
  have h1 : urldecode (encode_twice upper reserved u) = pct_encode upper reserved u :=
    urldecode_pct_encode upper reserved hpct _ (pct_encode_bytes upper reserved u hbytes)
  have h2 : urldecode (pct_encode upper reserved u) = u :=
    urldecode_pct_encode upper reserved hpct u hbytes
  refine ⟨by rw [h1, h2], ?_⟩
  unfold double_decode
  rw [h1, cstr_of_nonzero _ (pct_encode_nonzero upper reserved u hnul), h2,
    cstr_of_nonzero _ hnul]

theorem prefix_iff_take (t a : List Nat) : t <+: a ↔ a.take t.length = t := by
  constructor
  · intro h; exact (List.prefix_iff_eq_take.mp h).symm
  · intro h; rw [← h]; exact List.take_prefix _ _

theorem strstr_last_test (t a : List Nat) (ht : t ≠ []) :
    (a.head? = t.head? ∧ strncmp_eq a t t.length = true) ↔ t <+: a := by
  have htake : t.take t.length = t := List.take_length t
  constructor
  · rintro ⟨_, h⟩
    simp only [strncmp_eq, htake, decide_eq_true_eq] at h
    exact (prefix_iff_take t a).mpr h
  · intro h
    refine ⟨?_, ?_⟩
    · obtain ⟨r, rfl⟩ := h
      cases t with
      | nil => exact absurd rfl ht
      | cons x xs => simp
    · simp only [strncmp_eq, htake, decide_eq_true_eq]
      exact (prefix_iff_take t a).mp h

theorem strstr_last_loop_spec (s t : List Nat) (ht : t ≠ []) :
    ∀ p, (∀ k, p < k → ¬ t <+: s.drop k) →
      (strstr_last_loop s t p = none ∧ ∀ j, 1 ≤ j → ¬ t <+: s.drop j) ∨
      (∃ i, 1 ≤ i ∧ strstr_last_loop s t p = some (s.drop i) ∧ t <+: s.drop i ∧
        ∀ k, i < k → ¬ t <+: s.drop k) := by
  intro p
  induction p with
  | zero =>
    intro h
    exact Or.inl ⟨rfl, fun j hj => h j (by omega)⟩
  | succ p ih =>
    intro h
    by_cases hocc : t <+: s.drop (p + 1)
    · refine Or.inr ⟨p + 1, by omega, ?_, hocc, h⟩
      have := (strstr_last_test t (s.drop (p + 1)) ht).mpr hocc
      simp only [strstr_last_loop, this, and_self, if_true]
    · have hno : ¬ ((s.drop (p + 1)).head? = t.head? ∧
          strncmp_eq (s.drop (p + 1)) t t.length = true) :=
        fun hc => hocc ((strstr_last_test t _ ht).mp hc)
      have hstep : strstr_last_loop s t (p + 1) = strstr_last_loop s t p := by
        simp only [strstr_last_loop, hno, if_false]
      rw [hstep]
      apply ih
      intro k hk
      by_cases hk2 : k = p + 1
      · rw [hk2]; exact hocc
      · exact h k (by omega)

theorem no_prefix_of_short (s t : List Nat) (k : Nat) (ht : 0 < t.length)
    (h : s.length < k + t.length) : ¬ t <+: s.drop k := by
  intro hp
  have := hp.length_le
  simp only [List.length_drop] at this
  omega

/-- The function `strstr_last` with a needle that is not empty: either no occurrence of the
needle begins behind the first byte of the string and the result is `NULL`, or the result
is the suffix at the last position behind the first byte where the needle begins. -/
theorem strstr_last_spec (s t : List Nat) (ht : t ≠ []) :
    (strstr_last s t = none ∧ ∀ j, 1 ≤ j → ¬ t <+: s.drop j) ∨
    (∃ i, 1 ≤ i ∧ strstr_last s t = some (s.drop i) ∧ t <+: s.drop i ∧
      ∀ k, i < k → ¬ t <+: s.drop k) := by
  have hlen : 0 < t.length := List.length_pos.mpr ht
  unfold strstr_last
  rw [if_neg (by omega)]
  by_cases hshort : (s.length : Int) - (t.length : Int) ≤ 0
  · rw [if_pos hshort]
    exact Or.inl ⟨rfl, fun j hj => no_prefix_of_short s t j hlen (by omega)⟩
  · rw [if_neg hshort]
    exact strstr_last_loop_spec s t ht _ (fun k hk => no_prefix_of_short s t k hlen (by omega))

theorem after_last_append (c : Nat) (pre tl : List Nat) (h : c ∉ tl) :
    after_last c (pre ++ c :: tl) = tl := by
  induction pre with
  | nil => simp [after_last, h]
  | cons x xs ih => simp [after_last, ih]

theorem strrchr_spec (s : List Nat) (c : Nat) :
    strrchr s c = if c ∈ s then some (c :: after_last c s) else none := by
  induction s with
  | nil => simp [strrchr]
  | cons x xs ih =>
    by_cases hm : c ∈ xs
    · simp [strrchr, ih, hm, after_last]
    · by_cases hx : x = c
      · subst hx; simp [strrchr, ih, hm, after_last]
      · have hx2 : ¬ c = x := fun e => hx e.symm
        simp [strrchr, ih, hm, hx, hx2]

theorem strtok_of_head (s delim : List Nat) (c : Nat) (hc : c ∉ delim) :
    strtok (c :: s) delim
      = (some ((c :: s).takeWhile (fun x => !decide (x ∈ delim))),
         ((c :: s).dropWhile (fun x => !decide (x ∈ delim))).drop 1) := by
  simp [strtok, hc]

theorem strtok_skip (s delim : List Nat) (d : Nat) (hd : d ∈ delim) :
    strtok (d :: s) delim = strtok s delim := by
  simp [strtok, hd]

theorem strtok_split (tok rest delim : List Nat) (d : Nat) (hne : tok ≠ [])
    (htok : ∀ c ∈ tok, c ∉ delim) (hd : d ∈ delim) :
    strtok (tok ++ d :: rest) delim = (some tok, rest) := by
  cases tok with
  | nil => exact absurd rfl hne
  | cons x xs =>
    have hx : x ∉ delim := htok x (by simp)
    have hall : ∀ a ∈ x :: xs, (fun c => !decide (c ∈ delim)) a = true := by
      intro a ha; simpa using htok a ha
    rw [List.cons_append, strtok_of_head _ _ _ hx, ← List.cons_append,
      List.takeWhile_append_of_pos hall, List.dropWhile_append_of_pos hall]
    simp [hd]

theorem strtok_whole (tok delim : List Nat) (hne : tok ≠ [])
    (htok : ∀ c ∈ tok, c ∉ delim) :
    strtok tok delim = (some tok, []) := by
  cases tok with
  | nil => exact absurd rfl hne
  | cons x xs =>
    have hx : x ∉ delim := htok x (by simp)
    have hall : ∀ a ∈ x :: xs, (fun c => !decide (c ∈ delim)) a = true := by
      intro a ha; simpa using htok a ha
    rw [strtok_of_head _ _ _ hx, List.takeWhile_eq_self_iff.mpr hall,
      List.dropWhile_eq_nil_iff.mpr hall]
    rfl

theorem classify_get (g : Global) (c : Calls) (pd : response_struct) (buf path : List Nat)
    (bufptr : Option (List Nat))
    (hmethod : request_method buf = some (bytes "GET"))
    (hpath : request_path buf = some path)
    (hlog : access_log c buf (request_line buf).2 = some bufptr) :
    conn_handler_classify g c pd buf
      = conn_handler_get g c { pd with rx_total := buf.length } (some path) bufptr := by
  unfold request_method at hmethod
  unfold request_path at hpath
  unfold conn_handler_classify
  rcases hline : request_line buf with ⟨req, bufptr0⟩
  rw [hline] at hmethod hpath hlog
  cases req with
  | none => simp at hmethod
  | some req =>
    simp only at hmethod hpath hlog
    simp only [hlog]
    rcases htok : strtok req [32] with ⟨tok, save⟩
    rw [htok] at hmethod hpath
    simp only at hmethod hpath
    subst hmethod
    have h1 : strcmp_eq (bytes "GET") (bytes "OPTIONS") = false := by decide
    have h2 : strcmp_eq (bytes "GET") (bytes "POST") = false := by decide
    have h3 : strcmp_eq (bytes "GET") (bytes "GET") = true := by decide
    simp [htok, h1, h2, h3, hpath]

theorem get_branch_ext (g : Global) (c : Calls) (pd : response_struct)
    (path : List Nat) (bufptr : Option (List Nat)) (hrule : earlier_rule g path = false)
    (hurl : url_after_scan g path bufptr = some none) :
    conn_handler_get g c pd (some path) bufptr
      = (ext_classifier (path_after_decode g path)).map
          (fun r => ⟨{ pd with status := r.1 }, r.2, 0⟩) := by
  simp only [earlier_rule, Bool.or_eq_false_iff] at hrule
  obtain ⟨⟨⟨h1, h2⟩, h3⟩, h4⟩ := hrule
  simp only [conn_handler_get, h1, h2, h3, h4, hurl, Bool.false_eq_true, if_false]
  cases ext_classifier (path_after_decode g path) <;> rfl

theorem get_branch_redirect (g : Global) (c : Calls) (pd : response_struct)
    (path : List Nat) (bufptr : Option (List Nat)) (url : List Nat) (hrule : earlier_rule g path = false)
    (hurl : url_after_scan g path bufptr = some (some url)) :
    conn_handler_get g c pd (some path) bufptr
      = some ⟨{ pd with status := .SEND_REDIRECT }, asprintf_redirect url, 0⟩ := by
  simp only [earlier_rule, Bool.or_eq_false_iff] at hrule
  obtain ⟨⟨⟨h1, h2⟩, h3⟩, h4⟩ := hrule
  simp only [conn_handler_get, h1, h2, h3, h4, hurl, Bool.false_eq_true, if_false]

theorem ext_classifier_segment (p : List Nat) (hseg : first_segment p ≠ []) :
    ext_classifier p
      = match strrchr (first_segment p) 47 with
        | none => some (.SEND_BAD_PATH, httpnulltext)
        | some file =>
          match strrchr file 46 with
          | none => some (.SEND_NO_EXT, httpnulltext)
          | some ext =>
            if strcasecmp_eq ext (bytes ".gif") then some (.SEND_GIF, httpnullpixel)
            else if strcasecmp_eq ext (bytes ".png") then some (.SEND_PNG, httpnull_png)
            else if strncasecmp_eq ext (bytes ".jp") 3 then some (.SEND_JPG, httpnull_jpg)
            else if strcasecmp_eq ext (bytes ".swf") then some (.SEND_SWF, httpnull_swf)
            else if strcasecmp_eq ext (bytes ".ico") then some (.SEND_ICO, httpnull_ico)
            else if strncasecmp_eq ext (bytes ".js") 3 then some (.SEND_TXT, httpnulltext)
            else some (.SEND_UNK_EXT, httpnulltext) := by
  unfold ext_classifier
  have h : (strtok p (bytes "?#;=")).1 = some (first_segment p) := by
    unfold first_segment cut_path at *
    unfold strtok
    generalize p.dropWhile (fun c => decide (c ∈ bytes "?#;=")) = q at *
    cases q with
    | nil => simp at hseg
    | cons x xs => simp
  rw [h]

theorem first_segment_of_cut (p : List Nat) (h : cut_path p ≠ []) :
    first_segment p = cut_path p := by
  unfold first_segment
  cases p with
  | nil => rfl
  | cons x xs =>
    by_cases hx : x ∈ bytes "?#;="
    · simp [cut_path, hx] at h
    · simp [List.dropWhile, hx]

theorem strrchr_ext (seg ext : List Nat) (hext : extension seg = some ext) :
    ∃ file, strrchr seg 47 = some file ∧ strrchr file 46 = some ext := by
  unfold extension at hext
  by_cases h1 : 47 ∈ seg
  · rw [if_pos h1] at hext
    by_cases h2 : 46 ∈ after_last 47 seg
    · rw [if_pos h2] at hext
      refine ⟨47 :: after_last 47 seg, by rw [strrchr_spec, if_pos h1], ?_⟩
      rw [strrchr_spec, if_pos (by simp [h2])]
      simp only [after_last, h2, if_true]
      exact hext
    · rw [if_neg h2] at hext; exact absurd hext (by simp)
  · rw [if_neg h1] at hext; exact absurd hext (by simp)

theorem map_tolower_take (ext : List Nat) (n : Nat) :
    (ext.take n).map tolower = (ext.map tolower).take n := by
  rw [List.map_take]

theorem ext_chain (ext : List Nat) :
    (if strcasecmp_eq ext (bytes ".gif") then some (response_enum.SEND_GIF, httpnullpixel)
     else if strcasecmp_eq ext (bytes ".png") then some (.SEND_PNG, httpnull_png)
     else if strncasecmp_eq ext (bytes ".jp") 3 then some (.SEND_JPG, httpnull_jpg)
     else if strcasecmp_eq ext (bytes ".swf") then some (.SEND_SWF, httpnull_swf)
     else if strcasecmp_eq ext (bytes ".ico") then some (.SEND_ICO, httpnull_ico)
     else if strncasecmp_eq ext (bytes ".js") 3 then some (.SEND_TXT, httpnulltext)
     else some (.SEND_UNK_EXT, httpnulltext))
    = (if ext.map tolower = bytes ".gif" then some (response_enum.SEND_GIF, httpnullpixel)
       else if ext.map tolower = bytes ".png" then some (.SEND_PNG, httpnull_png)
       else if (ext.map tolower).take 3 = bytes ".jp" then some (.SEND_JPG, httpnull_jpg)
       else if ext.map tolower = bytes ".swf" then some (.SEND_SWF, httpnull_swf)
       else if ext.map tolower = bytes ".ico" then some (.SEND_ICO, httpnull_ico)
       else if (ext.map tolower).take 3 = bytes ".js" then some (.SEND_TXT, httpnulltext)
       else some (.SEND_UNK_EXT, httpnulltext)) := by
  have e1 : (bytes ".gif").map tolower = bytes ".gif" := by decide
  have e2 : (bytes ".png").map tolower = bytes ".png" := by decide
  have e3 : ((bytes ".jp").take 3).map tolower = bytes ".jp" := by decide
  have e4 : (bytes ".swf").map tolower = bytes ".swf" := by decide
  have e5 : (bytes ".ico").map tolower = bytes ".ico" := by decide
  have e6 : ((bytes ".js").take 3).map tolower = bytes ".js" := by decide
  simp only [strcasecmp_eq, strncasecmp_eq, e1, e2, e3, e4, e5, e6, map_tolower_take,
    decide_eq_true_eq]

theorem classify_ext (g : Global) (c : Calls) (pd : response_struct) (buf path : List Nat)
    (bufptr : Option (List Nat))
    (hmethod : request_method buf = some (bytes "GET"))
    (hpath : request_path buf = some path)
    (hlog : access_log c buf (request_line buf).2 = some bufptr)
    (hrule : earlier_rule g path = false)
    (hurl : url_after_scan g path bufptr = some none) :
    conn_handler_classify g c pd buf
      = (ext_classifier (path_after_decode g path)).map
          (fun r => ⟨{ pd with rx_total := buf.length, status := r.1 }, r.2, 0⟩) := by
  rw [classify_get g c pd buf path bufptr hmethod hpath hlog,
    get_branch_ext g c _ path _ hrule hurl]

theorem ext_classifier_ext (p ext : List Nat) (hext : extension (first_segment p) = some ext) :
    ext_classifier p
      = (if ext.map tolower = bytes ".gif" then some (response_enum.SEND_GIF, httpnullpixel)
         else if ext.map tolower = bytes ".png" then some (.SEND_PNG, httpnull_png)
         else if (ext.map tolower).take 3 = bytes ".jp" then some (.SEND_JPG, httpnull_jpg)
         else if ext.map tolower = bytes ".swf" then some (.SEND_SWF, httpnull_swf)
         else if ext.map tolower = bytes ".ico" then some (.SEND_ICO, httpnull_ico)
         else if (ext.map tolower).take 3 = bytes ".js" then some (.SEND_TXT, httpnulltext)
         else some (.SEND_UNK_EXT, httpnulltext)) := by
  have hseg : first_segment p ≠ [] := by
    intro h; rw [h] at hext; simp [extension] at hext
  obtain ⟨file, hfile, hdot⟩ := strrchr_ext _ ext hext
  rw [ext_classifier_segment p hseg, hfile]
  simp only [hdot]
  exact ext_chain ext

theorem strstr_isSome_iff (h n : List Nat) : (strstr h n).isSome = true ↔ n <:+: h := by
  induction h with
  | nil =>
    cases n with
    | nil => simp [strstr]
    | cons x xs => simp [strstr]
  | cons x xs ih =>
    rw [List.infix_cons_iff]
    by_cases hp : n.isPrefixOf (x :: xs) = true
    · have hp2 : n <+: x :: xs := List.isPrefixOf_iff_prefix.mp hp
      simp [strstr, hp, hp2]
    · have hp2 : ¬ n <+: x :: xs := fun h => hp (List.isPrefixOf_iff_prefix.mpr h)
      have hp3 : n.isPrefixOf (x :: xs) = false := Bool.eq_false_iff.mpr hp
      simp only [strstr, hp3, Bool.false_eq_true, if_false, ih, hp2, false_or]

theorem render_headers_nonzero (hs : List (List Nat × List Nat))
    (hok : ∀ h ∈ hs, header_ok h) : ∀ b ∈ render_headers hs, b ≠ 0 := by
  induction hs with
  | nil => simp [render_headers]
  | cons h hs ih =>
    obtain ⟨_, hk, hv, _⟩ := hok h (by simp)
    intro b hb
    simp only [render_headers, CRLF, List.mem_append, List.mem_cons] at hb
    rcases hb with ((hb | hb | hb) | hb) | hb
    · exact (hk b hb).2.2.2
    · omega
    · exact (hv b hb).2.2
    · simp at hb; omega
    · exact ih (fun x hx => hok x (by simp [hx])) b hb

theorem http_get_parse (path : List Nat) (hs : List (List Nat × List Nat))
    (hpath : path_ok path) (hok : ∀ h ∈ hs, header_ok h) :
    request_line (http_get path hs)
      = (some (bytes "GET " ++ path ++ bytes " HTTP/1.1"),
         10 :: (render_headers hs ++ CRLF)) ∧
    request_method (http_get path hs) = some (bytes "GET") ∧
    request_path (http_get path hs) = some path := by
  obtain ⟨hne, hp⟩ := hpath
  have hnz : ∀ b ∈ http_get path hs, b ≠ 0 := by
    intro b hb
    simp only [http_get, List.mem_append] at hb
    rcases hb with (((hb | hb) | hb) | hb) | hb
    · revert b; decide
    · exact (hp b hb).2.2.2
    · revert b; decide
    · exact render_headers_nonzero hs hok b hb
    · revert b; decide
  have hline : request_line (http_get path hs)
      = (some (bytes "GET " ++ path ++ bytes " HTTP/1.1"),
         10 :: (render_headers hs ++ CRLF)) := by
    unfold request_line
    rw [cstr_of_nonzero _ hnz]
    have hsplit : http_get path hs
        = (bytes "GET " ++ path ++ bytes " HTTP/1.1") ++ 13 :: (10 :: (render_headers hs ++ CRLF)) := by
      simp [http_get, bytes, CRLF]
    rw [hsplit]
    apply strtok_split
    · simp [bytes]
    · intro c hc
      simp only [List.mem_append] at hc
      rcases hc with (hc | hc) | hc
      · revert c; decide
      · have := hp c hc; simp [CRLF]; omega
      · revert c; decide
    · simp [CRLF]
  have hreq : strtok (bytes "GET " ++ path ++ bytes " HTTP/1.1") [32]
      = (some (bytes "GET"), path ++ bytes " HTTP/1.1") := by
    have : bytes "GET " ++ path ++ bytes " HTTP/1.1"
        = bytes "GET" ++ 32 :: (path ++ bytes " HTTP/1.1") := by simp [bytes]
    rw [this]
    exact strtok_split _ _ _ 32 (by decide) (by decide) (by simp)
  have hsave : strtok (path ++ bytes " HTTP/1.1") [32] = (some path, bytes "HTTP/1.1") := by
    have : path ++ bytes " HTTP/1.1" = path ++ 32 :: bytes "HTTP/1.1" := by simp [bytes]
    rw [this]
    exact strtok_split _ _ _ 32 hne (fun c hc => by have := hp c hc; simp; omega) (by simp)
  refine ⟨hline, ?_, ?_⟩
  · simp only [request_method, hline, hreq]
  · simp only [request_path, hline, hreq, hsave]

theorem header_line_tok (h : List Nat × List Nat) (rest : List Nat) (hok : header_ok h) :
    strtok (10 :: (h.1 ++ 58 :: h.2 ++ CRLF ++ rest)) CRLF
        = (some (h.1 ++ 58 :: h.2), 10 :: rest) ∧
      strtok (h.1 ++ 58 :: h.2) [58] = (some h.1, h.2) := by
  obtain ⟨hne, hk, hv, _⟩ := hok
  constructor
  · rw [strtok_skip _ _ 10 (by simp [CRLF])]
    have : h.1 ++ 58 :: h.2 ++ CRLF ++ rest = (h.1 ++ 58 :: h.2) ++ 13 :: (10 :: rest) := by
      simp [CRLF]
    rw [this]
    apply strtok_split
    · simp
    · intro c hc
      simp only [List.mem_append, List.mem_cons] at hc
      rcases hc with hc | hc | hc
      · have := hk c hc; simp [CRLF]; omega
      · simp [CRLF]; omega
      · have := hv c hc; simp [CRLF]; omega
    · simp [CRLF]
  · exact strtok_split _ _ _ 58 hne (fun c hc => by have := hk c hc; simp; omega) (by simp)

theorem referer_loop_headers (url : List Nat) (hs : List (List Nat × List Nat))
    (hok : ∀ h ∈ hs, header_ok h) :
    ∀ fuel, hs.length < fuel →
      referer_loop url fuel (10 :: (render_headers hs ++ CRLF))
        = if ∃ h ∈ hs, bytes "Referer" <:+: h.1 ∧ url <:+: h.2 then some none
          else some (some url) := by
  induction hs with
  | nil =>
    intro fuel hf
    cases fuel with
    | zero => simp at hf
    | succ fuel => simp [referer_loop, render_headers, strtok, CRLF]
  | cons h hs ih =>
    intro fuel hf
    cases fuel with
    | zero => simp at hf
    | succ fuel =>
      have hokh : header_ok h := hok h (by simp)
      have hoks : ∀ x ∈ hs, header_ok x := fun x hx => hok x (by simp [hx])
      obtain ⟨h1, h2⟩ := header_line_tok h (render_headers hs ++ CRLF) hokh
      have hrender : render_headers (h :: hs) ++ CRLF
          = h.1 ++ 58 :: h.2 ++ CRLF ++ (render_headers hs ++ CRLF) := by
        simp [render_headers]
      have hrec := ih hoks fuel (by simpa using hf)
      rw [hrender]
      simp only [referer_loop, h1, h2]
      by_cases hkey : bytes "Referer" <:+: h.1
      · have hkey2 : (strstr h.1 (bytes "Referer")).isSome = true :=
          (strstr_isSome_iff _ _).mpr hkey
        have hvne : h.2 ≠ [] := hokh.2.2.2 hkey
        have hval : strtok h.2 CRLF = (some h.2, []) :=
          strtok_whole _ _ hvne (fun c hc => by
            have := hokh.2.2.1 c hc; simp [CRLF]; omega)
        simp only [hkey2, if_true, hval]
        by_cases hv : url <:+: h.2
        · have hv2 : (strstr h.2 url).isSome = true := (strstr_isSome_iff _ _).mpr hv
          have hex : ∃ x ∈ h :: hs, bytes "Referer" <:+: x.1 ∧ url <:+: x.2 :=
            ⟨h, by simp, hkey, hv⟩
          simp only [hv2, if_true, if_pos hex]
        · have hv2 : ¬ (strstr h.2 url).isSome = true :=
            fun hc => hv ((strstr_isSome_iff _ _).mp hc)
          have hiff : (∃ x ∈ h :: hs, bytes "Referer" <:+: x.1 ∧ url <:+: x.2)
              ↔ ∃ x ∈ hs, bytes "Referer" <:+: x.1 ∧ url <:+: x.2 := by
            simp [hv]
          simp only [hv2, Bool.false_eq_true, if_false, hrec, hiff]
      · have hkey2 : ¬ (strstr h.1 (bytes "Referer")).isSome = true :=
          fun hc => hkey ((strstr_isSome_iff _ _).mp hc)
        have hiff : (∃ x ∈ h :: hs, bytes "Referer" <:+: x.1 ∧ url <:+: x.2)
            ↔ ∃ x ∈ hs, bytes "Referer" <:+: x.1 ∧ url <:+: x.2 := by
          simp [hkey]
        simp only [hkey2, Bool.false_eq_true, if_false, hrec, hiff]

theorem cstr_cons (c : Nat) (l : List Nat) (h : c ≠ 0) : cstr (c :: l) = c :: cstr l := by
  simp [cstr, h]

theorem double_decode_cons (c : Nat) (l : List Nat) (h1 : c ≠ 37) (h2 : c ≠ 0) :
    double_decode (c :: l) = c :: double_decode l := by
  simp only [double_decode, urldecode_cons_of_ne c _ h1, cstr_cons c _ h2]

theorem double_decode_r (e : List Nat) :
    double_decode (bytes "/r?u=" ++ e) = bytes "/r?u=" ++ double_decode e := by
  have hs : ∀ x : List Nat, bytes "/r?u=" ++ x = 47 :: 114 :: 63 :: 117 :: 61 :: x :=
    fun _ => rfl
  rw [hs, hs]
  rw [double_decode_cons _ _ (by decide) (by decide),
    double_decode_cons _ _ (by decide) (by decide),
    double_decode_cons _ _ (by decide) (by decide),
    double_decode_cons _ _ (by decide) (by decide),
    double_decode_cons _ _ (by decide) (by decide)]

theorem earlier_rule_r (g : Global) (e : List Nat)
    (hstats : g.stats_url ≠ bytes "/r?u=" ++ e)
    (hstats2 : g.stats_text_url ≠ bytes "/r?u=" ++ e) :
    earlier_rule g (bytes "/r?u=" ++ e) = false := by
  have hs : bytes "/r?u=" ++ e = 47 :: 114 :: 63 :: 117 :: 61 :: e := rfl
  have h1 : strncmp_eq (bytes "/r?u=" ++ e) (bytes "/log=") 5 = false := by
    rw [hs]; simp [strncmp_eq, bytes]
  have h2 : strcmp_eq (bytes "/r?u=" ++ e) g.stats_url = false := by
    simp only [strcmp_eq, decide_eq_false_iff_not]; exact fun h => hstats h.symm
  have h3 : strcmp_eq (bytes "/r?u=" ++ e) g.stats_text_url = false := by
    simp only [strcmp_eq, decide_eq_false_iff_not]; exact fun h => hstats2 h.symm
  have h4 : strcasecmp_eq (bytes "/r?u=" ++ e) (bytes "/generate_204") = false := by
    rw [hs]; simp [strcasecmp_eq, bytes, tolower]
  simp [earlier_rule, h1, h2, h3, h4]

theorem ext_classifier_r (x : List Nat) :
    ext_classifier (bytes "/r?u=" ++ x) = some (.SEND_NO_EXT, httpnulltext) := by
  have hs : bytes "/r?u=" ++ x = bytes "/r" ++ 63 :: (117 :: 61 :: x) := rfl
  have htok : strtok (bytes "/r?u=" ++ x) (bytes "?#;=") = (some (bytes "/r"), 117 :: 61 :: x) := by
    rw [hs]
    exact strtok_split _ _ _ 63 (by decide) (by decide) (by decide)
  unfold ext_classifier
  rw [htok]
  have h1 : strrchr (bytes "/r") 47 = some (bytes "/r") := by decide
  have h2 : strrchr (bytes "/r") 46 = none := by decide
  simp only [h1, h2]

theorem drop_r (u : List Nat) (k : Nat) : (bytes "/r?u=" ++ u).drop (5 + k) = u.drop k := by
  have hs : bytes "/r?u=" ++ u = 47 :: 114 :: 63 :: 117 :: 61 :: u := rfl
  rw [hs, Nat.add_comm]
  rfl

theorem no_marker_in_r (u t : List Nat) (i : Nat) (h1 : 1 ≤ i) (h4 : i ≤ 4)
    (ht : t.head? = some 104) : ¬ t <+: (bytes "/r?u=" ++ u).drop i := by
  have hs : bytes "/r?u=" ++ u = 47 :: 114 :: 63 :: 117 :: 61 :: u := rfl
  rw [hs]
  cases t with
  | nil => simp at ht
  | cons a as =>
    simp only [List.head?_cons, Option.some.injEq] at ht
    subst ht
    interval_cases i <;> simp [List.cons_prefix_cons]

theorem strstr_last_r (u t : List Nat) (ht : t.head? = some 104) (hocc : t <+: u)
    (hsingle : ∀ j, 1 ≤ j → ¬ t <+: u.drop j) :
    strstr_last (bytes "/r?u=" ++ u) t = some u := by
  have htne : t ≠ [] := by intro h; rw [h] at ht; simp at ht
  have h5 : (bytes "/r?u=" ++ u).drop 5 = u := drop_r u 0
  rcases strstr_last_spec (bytes "/r?u=" ++ u) t htne with ⟨_, hnone⟩ | ⟨i, hi, hres, hp, hlast⟩
  · exact absurd (h5 ▸ hocc) (hnone 5 (by omega))
  · have hi5 : i = 5 := by
      by_contra hne
      rcases Nat.lt_or_gt_of_ne hne with hlt | hgt
      · exact hlast 5 hlt (h5 ▸ hocc)
      · obtain ⟨k, rfl⟩ : ∃ k, i = 5 + k := ⟨i - 5, by omega⟩
        rw [drop_r] at hp
        exact hsingle k (by omega) hp
    rw [hres, hi5, h5]

theorem strstr_last_r_none (u t : List Nat) (ht : t.head? = some 104) (hocc : ¬ t <+: u)
    (hsingle : ∀ j, 1 ≤ j → ¬ t <+: u.drop j) :
    strstr_last (bytes "/r?u=" ++ u) t = none := by
  have htne : t ≠ [] := by intro h; rw [h] at ht; simp at ht
  rcases strstr_last_spec (bytes "/r?u=" ++ u) t htne with ⟨hnone, _⟩ | ⟨i, hi, _, hp, _⟩
  · exact hnone
  · exfalso
    by_cases h4 : i ≤ 4
    · exact no_marker_in_r u t i hi h4 ht hp
    · obtain ⟨k, rfl⟩ : ∃ k, i = 5 + k := ⟨i - 5, by omega⟩
      rw [drop_r] at hp
      by_cases hk : k = 0
      · subst hk; exact hocc (by simpa using hp)
      · exact hsingle k (by omega) hp

theorem find_url_r (u : List Nat)
    (hmarker : bytes "http://" <+: u ∨ bytes "https://" <+: u)
    (hsingle : single_marker u) :
    find_url (bytes "/r?u=" ++ u) = some u := by
  unfold find_url
  by_cases hH : bytes "http://" <+: u
  · rw [strstr_last_r u _ (by decide) hH (fun j hj => (hsingle j hj).1)]
  · have hS : bytes "https://" <+: u := hmarker.resolve_left hH
    rw [strstr_last_r_none u _ (by decide) hH (fun j hj => (hsingle j hj).1),
      strstr_last_r u _ (by decide) hS (fun j hj => (hsingle j hj).2)]

theorem pct_encode_cons_plain (upper : Bool) (reserved : Nat → Bool) (b : Nat)
    (bs : List Nat) (h : reserved b = false) :
    pct_encode upper reserved (b :: bs) = b :: pct_encode upper reserved bs := by
  simp [pct_encode, h]

theorem hex_digit_ge (upper : Bool) (n : Nat) : 48 ≤ hex_digit upper n := by
  unfold hex_digit
  cases upper <;> simp <;> split <;> omega

theorem mem_pct_encode (upper : Bool) (reserved : Nat → Bool) (u : List Nat) :
    ∀ b ∈ pct_encode upper reserved u, 37 ≤ b ∨ b ∈ u := by
  induction u with
  | nil => simp [pct_encode]
  | cons x xs ih =>
    intro b hb
    by_cases hr : reserved x = true
    · simp only [pct_encode, hr, if_true, List.mem_cons] at hb
      rcases hb with h | h | h | h
      · left; omega
      · left; rw [h]; have := hex_digit_ge upper (x / 16); omega
      · left; rw [h]; have := hex_digit_ge upper (x % 16); omega
      · rcases ih b h with h' | h'
        · exact Or.inl h'
        · exact Or.inr (by simp [h'])
    · have hr2 : reserved x = false := by simpa using hr
      simp only [pct_encode, hr2, Bool.false_eq_true, if_false, List.mem_cons] at hb
      rcases hb with h | h
      · right; simp [h]
      · rcases ih b h with h' | h'
        · exact Or.inl h'
        · exact Or.inr (by simp [h'])

theorem render_headers_length (hs : List (List Nat × List Nat)) :
    hs.length ≤ (render_headers hs).length := by
  induction hs with
  | nil => simp
  | cons h hs ih => simp only [render_headers, List.length_append, List.length_cons]; omega

theorem single_marker_of_check (u : List Nat)
    (h : ∀ j, j < u.length → 1 ≤ j →
      ¬ bytes "http://" <+: u.drop j ∧ ¬ bytes "https://" <+: u.drop j) :
    single_marker u := by
  intro j hj
  by_cases hlt : j < u.length
  · exact h j hlt hj
  · have : u.drop j = [] := List.drop_eq_nil_of_le (by omega)
    rw [this]
    constructor <;> decide

theorem redirect_path_facts (g : Global) (upper : Bool) (reserved : Nat → Bool) (u : List Nat)
    (hdo : g.do_redirect = true)
    (hpct : reserved 37 = true)
    (halnum : ∀ b, (48 ≤ b ∧ b ≤ 57) ∨ (65 ≤ b ∧ b ≤ 90) ∨ (97 ≤ b ∧ b ≤ 122) →
      reserved b = false)
    (hbytes : ∀ b ∈ u, b < 256)
    (hclean : ∀ b ∈ u, b ≠ 32 ∧ b ≠ 13 ∧ b ≠ 10 ∧ b ≠ 0)
    (hmarker : bytes "http://" <+: u ∨ bytes "https://" <+: u) :
    path_ok (redirect_path upper reserved u) ∧
    wants_decode g (redirect_path upper reserved u) = true ∧
    double_decode (redirect_path upper reserved u) = bytes "/r?u=" ++ u := by
  refine ⟨⟨by simp [redirect_path, bytes], ?_⟩, ?_, ?_⟩
  · intro c hc
    simp only [redirect_path, List.mem_append] at hc
    rcases hc with hc | hc
    · revert c; decide
    · rcases mem_pct_encode upper reserved _ c hc with h | h
      · omega
      · rcases mem_pct_encode upper reserved _ c h with h' | h'
        · omega
        · exact hclean c h'
  · have hu : ∃ rest, u = 104 :: 116 :: 116 :: 112 :: rest := by
      rcases hmarker with ⟨r, hr⟩ | ⟨r, hr⟩
      · exact ⟨58 :: 47 :: 47 :: r, by rw [← hr]; rfl⟩
      · exact ⟨115 :: 58 :: 47 :: 47 :: r, by rw [← hr]; rfl⟩
    obtain ⟨rest, rfl⟩ := hu
    have h104 : reserved 104 = false := halnum 104 (by omega)
    have h116 : reserved 116 = false := halnum 116 (by omega)
    have h112 : reserved 112 = false := halnum 112 (by omega)
    have henc : encode_twice upper reserved (104 :: 116 :: 116 :: 112 :: rest)
        = 104 :: 116 :: 116 :: 112 :: encode_twice upper reserved rest := by
      simp only [encode_twice, pct_encode_cons_plain, h104, h116, h112]
    have hs : ∀ x : List Nat, bytes "/r?u=" ++ x = 47 :: 114 :: 63 :: 117 :: 61 :: x :=
      fun _ => rfl
    simp [wants_decode, hdo, redirect_path, henc, hs, strcasestr, bytes, tolower]
  · rw [redirect_path, double_decode_r,
      (round_trip upper reserved hpct u hbytes (fun b hb => (hclean b hb).2.2.2)).2]

theorem strstr_suffix (s n h : List Nat) (hs : strstr s n = some h) : h <:+ s := by
  induction s with
  | nil =>
    simp only [strstr] at hs
    split_ifs at hs
    simp only [Option.some.injEq] at hs
    subst hs; exact List.suffix_refl _
  | cons x xs ih =>
    simp only [strstr] at hs
    split_ifs at hs
    · simp only [Option.some.injEq] at hs
      subst hs; exact List.suffix_refl _
    · exact (ih hs).trans (List.suffix_cons x xs)

theorem dropWhile_line (a l : List Nat) (ha : ∀ c ∈ a, c ≠ 13 ∧ c ≠ 10) :
    (a ++ 13 :: l).dropWhile (fun c => !decide (c ∈ CRLF)) = 13 :: l := by
  induction a with
  | nil => simp [CRLF]
  | cons x xs ih =>
    have hx := ha x (by simp)
    have : (!decide (x ∈ CRLF)) = true := by simp [CRLF, hx.1, hx.2]
    rw [List.cons_append, List.dropWhile_cons]
    simp only [this, if_true]
    exact ih (fun c hc => ha c (by simp [hc]))

theorem drop_length_takeWhile (p : Nat → Bool) (l : List Nat) :
    l.drop (l.takeWhile p).length = l.dropWhile p := by
  induction l with
  | nil => rfl
  | cons x xs ih =>
    by_cases hp : p x = true
    · simp [List.takeWhile_cons, List.dropWhile_cons, hp, ih]
    · simp [List.takeWhile_cons, List.dropWhile_cons, hp]

theorem line_tail_step (a l : List Nat) (ha : ∀ c ∈ a, c ≠ 13 ∧ c ≠ 10)
    (hl : ∀ t, t <:+ l → ∀ x r, t = x :: r → x ∉ CRLF →
      ∃ rest, t.dropWhile (fun c => !decide (c ∈ CRLF)) = 13 :: rest) :
    ∀ t, t <:+ a ++ 13 :: 10 :: l → ∀ x r, t = x :: r → x ∉ CRLF →
      ∃ rest, t.dropWhile (fun c => !decide (c ∈ CRLF)) = 13 :: rest := by
  induction a with
  | nil =>
    intro t ht x r hx hnd
    rw [List.nil_append, List.suffix_cons_iff] at ht
    rcases ht with ht | ht
    · rw [ht] at hx; injection hx with h1 _; subst h1; simp [CRLF] at hnd
    · rw [List.suffix_cons_iff] at ht
      rcases ht with ht | ht
      · rw [ht] at hx; injection hx with h1 _; subst h1; simp [CRLF] at hnd
      · exact hl t ht x r hx hnd
  | cons y ys ih =>
    intro t ht x r hx hnd
    rw [List.cons_append, List.suffix_cons_iff] at ht
    rcases ht with ht | ht
    · refine ⟨10 :: l, ?_⟩
      rw [ht, ← List.cons_append]
      exact dropWhile_line (y :: ys) (10 :: l) ha
    · exact ih (fun c hc => ha c (by simp [hc])) t ht x r hx hnd

theorem line_tail_headers (hs : List (List Nat × List Nat)) (hok : ∀ h ∈ hs, header_ok h) :
    ∀ t, t <:+ render_headers hs ++ CRLF → ∀ x r, t = x :: r → x ∉ CRLF →
      ∃ rest, t.dropWhile (fun c => !decide (c ∈ CRLF)) = 13 :: rest := by
  induction hs with
  | nil =>
    have := line_tail_step [] [] (by simp) (by
      intro t ht x r hx _
      rw [List.suffix_nil] at ht
      rw [ht] at hx; exact absurd hx (by simp))
    simpa [render_headers, CRLF] using this
  | cons h hs ih =>
    obtain ⟨_, h1, h2, _⟩ := hok h (by simp)
    have hrest := ih (fun k hk => hok k (by simp [hk]))
    have := line_tail_step (h.1 ++ 58 :: h.2) (render_headers hs ++ CRLF) (by
      intro c hc
      simp only [List.mem_append, List.mem_cons] at hc
      rcases hc with hc | hc | hc
      · exact ⟨(h1 c hc).2.1, (h1 c hc).2.2.1⟩
      · subst hc; decide
      · exact ⟨(h2 c hc).1, (h2 c hc).2.1⟩) hrest
    simpa [render_headers, CRLF, List.append_assoc] using this

theorem host_log_headers (hs : List (List Nat × List Nat)) (hok : ∀ h ∈ hs, header_ok h)
    (behind : Option (List Nat)) (r : Option (List Nat))
    (h : host_log (10 :: (render_headers hs ++ CRLF)) behind = some r) :
    r = some (10 :: (render_headers hs ++ CRLF)) := by
  unfold host_log at h
  cases hh : strstr (10 :: (render_headers hs ++ CRLF)) (bytes "Host: ") with
  | none => rw [hh] at h; simpa using h.symm
  | some k =>
    rw [hh] at h
    simp only at h
    have hk : k <:+ 10 :: (render_headers hs ++ CRLF) := strstr_suffix _ _ _ hh
    have hs1 : (k.drop 6).dropWhile (fun c => decide (c ∈ CRLF))
        <:+ 10 :: (render_headers hs ++ CRLF) :=
      ((List.dropWhile_suffix _).trans (List.drop_suffix _ _)).trans hk
    generalize hg : (k.drop 6).dropWhile (fun c => decide (c ∈ CRLF)) = s1 at hs1 h
    cases s1 with
    | nil => simp [strtok, hg] at h
    | cons x xs =>
      have hx : x ∉ CRLF := by
        have := List.head_dropWhile_not (fun c => decide (c ∈ CRLF)) (k.drop 6)
          (by rw [hg]; simp)
        simp only [hg, List.head_cons] at this
        simpa using this
      have hsuf : (x :: xs) <:+ render_headers hs ++ CRLF := by
        rw [List.suffix_cons_iff] at hs1
        rcases hs1 with h1 | h1
        · injection h1 with h1 _; subst h1; simp [CRLF] at hx
        · exact h1
      obtain ⟨rest, hrest⟩ := line_tail_headers hs hok _ hsuf x xs rfl hx
      have htail : (x :: xs).drop ((x :: xs).takeWhile (fun c => !decide (c ∈ CRLF))).length
          = 13 :: rest := by
        rw [← hrest]
        exact drop_length_takeWhile _ _
      simp only [strtok, hg, List.isEmpty_cons, Bool.false_eq_true, if_false, htail] at h
      have hB : 13 :: rest <:+ 10 :: (render_headers hs ++ CRLF) := by
        rw [← htail]
        exact (List.drop_suffix _ _).trans hs1
      obtain ⟨front, hfront⟩ := hB
      simp only [Option.some.injEq] at h
      rw [← h, ← hfront]
      simp

theorem access_log_headers (c : Calls) (buf : List Nat) (hs : List (List Nat × List Nat))
    (hok : ∀ h ∈ hs, header_ok h) (r : Option (List Nat))
    (h : access_log c buf (10 :: (render_headers hs ++ CRLF)) = some r) :
    r = some (10 :: (render_headers hs ++ CRLF)) := by
  unfold access_log at h
  split_ifs at h
  · exact host_log_headers hs hok _ r h
  · simpa using h.symm

theorem classify_log_undefined (g : Global) (c : Calls) (pd : response_struct)
    (buf : List Nat) (h : access_log c buf (request_line buf).2 = none) :
    conn_handler_classify g c pd buf = none := by
  unfold conn_handler_classify
  rcases hline : request_line buf with ⟨req, bufptr⟩
  rw [hline] at h
  cases req with
  | none => rfl
  | some req => simp only at h; simp only [h]

theorem classify_method (g : Global) (c : Calls) (pd : response_struct)
    (buf method : List Nat) (bufptr : Option (List Nat))
    (hmethod : request_method buf = some method)
    (hlog : access_log c buf (request_line buf).2 = some bufptr) :
    (method = bytes "OPTIONS" →
      conn_handler_classify g c pd buf
        = some ⟨{ pd with rx_total := buf.length, status := .SEND_OPTIONS }, httpoptions, 0⟩) ∧
    (method = bytes "HEAD" →
      conn_handler_classify g c pd buf
        = some ⟨{ pd with rx_total := buf.length, status := .SEND_HEAD }, http501, 0⟩) ∧
    (method ≠ bytes "OPTIONS" → method ≠ bytes "POST" → method ≠ bytes "GET" →
      method ≠ bytes "HEAD" →
      conn_handler_classify g c pd buf
        = some ⟨{ pd with rx_total := buf.length, status := .SEND_BAD }, http501, 0⟩) := by
  unfold request_method at hmethod
  unfold conn_handler_classify
  rcases hline : request_line buf with ⟨req, bufptr0⟩
  rw [hline] at hmethod hlog
  cases req with
  | none => simp at hmethod
  | some req =>
    simp only at hmethod hlog
    simp only [hlog]
    rcases htok : strtok req [32] with ⟨tok, save⟩
    rw [htok] at hmethod
    simp only at hmethod
    subst hmethod
    refine ⟨?_, ?_, ?_⟩
    · intro h; subst h
      simp [strcmp_eq]
    · intro h; subst h
      have h1 : strcmp_eq (bytes "HEAD") (bytes "OPTIONS") = false := by decide
      have h2 : strcmp_eq (bytes "HEAD") (bytes "POST") = false := by decide
      have h3 : strcmp_eq (bytes "HEAD") (bytes "GET") = false := by decide
      have h4 : strcmp_eq (bytes "HEAD") (bytes "HEAD") = true := by decide
      simp [h1, h2, h3, h4]
    · intro h1 h2 h3 h4
      simp [strcmp_eq, h1, h2, h3, h4]

theorem url_after_scan_headers (g : Global) (path url : List Nat)
    (hs : List (List Nat × List Nat)) (hok : ∀ h ∈ hs, header_ok h)
    (hdecode : wants_decode g path = true)
    (hfind : find_url (double_decode path) = some url) :
    url_after_scan g path (some (10 :: (render_headers hs ++ CRLF)))
      = if ∃ h ∈ hs, bytes "Referer" <:+: h.1 ∧ url <:+: h.2 then some none
        else some (some url) := by
  have hlen := render_headers_length hs
  simp only [url_after_scan, hdecode, if_true, hfind]
  exact referer_loop_headers url hs hok _
    (by simp only [List.length_cons, List.length_append]; omega)

theorem url_reserved_alnum :
    ∀ b, (48 ≤ b ∧ b ≤ 57) ∨ (65 ≤ b ∧ b ≤ 90) ∨ (97 ≤ b ∧ b ≤ 122) →
      url_reserved b = false := by
  intro b hb
  simp only [url_reserved, Bool.not_eq_false', Bool.or_eq_true, Bool.and_eq_true,
    decide_eq_true_eq]
  omega

theorem get_branch_undefined (g : Global) (c : Calls) (pd : response_struct)
    (path : List Nat) (bufptr : Option (List Nat)) (hrule : earlier_rule g path = false)
    (hurl : url_after_scan g path bufptr = none) :
    conn_handler_get g c pd (some path) bufptr = none := by
  simp only [earlier_rule, Bool.or_eq_false_iff] at hrule
  obtain ⟨⟨⟨h1, h2⟩, h3⟩, h4⟩ := hrule
  simp only [conn_handler_get, h1, h2, h3, h4, hurl, Bool.false_eq_true, if_false]

theorem path_after_decode_r (g : Global) (e : List Nat) :
    ∃ x, path_after_decode g (bytes "/r?u=" ++ e) = bytes "/r?u=" ++ x := by
  unfold path_after_decode
  split
  · exact ⟨_, double_decode_r e⟩
  · exact ⟨e, rfl⟩

theorem asprintf_redirect_inj (a b : List Nat)
    (h : asprintf_redirect a = asprintf_redirect b) : a = b := by
  unfold asprintf_redirect at h
  rw [List.append_assoc, List.append_assoc] at h
  exact List.append_cancel_right (List.append_cancel_left h)

theorem redirect_without_headers (g : Global) (c : Calls) (pd : response_struct)
    (e t : List Nat)
    (hrule : earlier_rule g (bytes "/r?u=" ++ e) = false)
    (hpath : path_ok (bytes "/r?u=" ++ e))
    (hplain : conn_handler_classify g c pd (http_get (bytes "/r?u=" ++ e) [])
      = some ⟨{ pd with rx_total := (http_get (bytes "/r?u=" ++ e) []).length,
                        status := .SEND_REDIRECT },
              asprintf_redirect t, 0⟩) :
    wants_decode g (bytes "/r?u=" ++ e) = true ∧
      find_url (double_decode (bytes "/r?u=" ++ e)) = some t := by
  obtain ⟨hline, hmethod, hreqpath⟩ := http_get_parse _ [] hpath (by simp)
  have hlog : access_log c (http_get (bytes "/r?u=" ++ e) [])
      (request_line (http_get (bytes "/r?u=" ++ e) [])).2 = some (some (10 :: CRLF)) := by
    cases hl : access_log c (http_get (bytes "/r?u=" ++ e) [])
        (request_line (http_get (bytes "/r?u=" ++ e) [])).2 with
    | none =>
      rw [classify_log_undefined g c pd _ hl] at hplain
      exact absurd hplain (by simp)
    | some r =>
      rw [hline] at hl
      have := access_log_headers c _ [] (by simp) r hl
      simpa [render_headers] using this
  rw [classify_get g c pd _ _ _ hmethod hreqpath hlog] at hplain
  have hscan : url_after_scan g (bytes "/r?u=" ++ e) (some (10 :: CRLF)) = some (some t) := by
    rcases hu : url_after_scan g (bytes "/r?u=" ++ e) (some (10 :: CRLF)) with _ | _ | url
    · rw [get_branch_undefined g c _ _ _ hrule hu] at hplain
      exact absurd hplain (by simp)
    · rw [get_branch_ext g c _ _ _ hrule hu] at hplain
      obtain ⟨x, hx⟩ := path_after_decode_r g e
      rw [hx, ext_classifier_r] at hplain
      simp at hplain
    · rw [get_branch_redirect g c _ _ _ url hrule hu] at hplain
      simp only [Option.some.injEq, Selection.mk.injEq] at hplain
      rw [asprintf_redirect_inj _ _ hplain.2.1]
  unfold url_after_scan at hscan
  by_cases hw : wants_decode g (bytes "/r?u=" ++ e) = true
  · refine ⟨hw, ?_⟩
    rw [if_pos hw] at hscan
    rcases hf : find_url (double_decode (bytes "/r?u=" ++ e)) with _ | url
    · rw [hf] at hscan; simp at hscan
    · rw [hf] at hscan
      simp only at hscan
      have hloop := referer_loop_headers url [] (by simp) ((10 :: CRLF).length + 1)
        (by simp)
      simp only [render_headers, List.nil_append, List.not_mem_nil, false_and, exists_false,
        if_false] at hloop
      rw [hloop] at hscan
      simpa using hscan
  · rw [if_neg hw] at hscan; simp at hscan

theorem count_ssl_nfe_ufe (st : Stats) (pd : response_struct) :
    (count_ssl st pd).nfe = st.nfe ∧ (count_ssl st pd).ufe = st.ufe := by
  unfold count_ssl
  cases pd.ssl <;> exact ⟨rfl, rfl⟩

theorem count_totals_nfe_ufe (st : Stats) (pd : response_struct) :
    (count_totals st pd).nfe = st.nfe ∧ (count_totals st pd).ufe = st.ufe := by
  unfold count_totals
  dsimp only
  split_ifs <;> exact ⟨rfl, rfl⟩

theorem collect_no_ext (st : Stats) (pd : response_struct) (rv : Int)
    (h : pd.status = .SEND_NO_EXT) :
    (main_collect st (conn_handler_reply pd (.sent rv))).nfe = st.nfe + 1 ∧
      (main_collect st (conn_handler_reply pd (.sent rv))).ufe = st.ufe := by
  have hr : conn_handler_reply pd (.sent rv) = pd := by
    simp [conn_handler_reply, h]
  rw [hr]
  unfold main_collect
  rw [(count_totals_nfe_ufe _ pd).1, (count_totals_nfe_ufe _ pd).2,
    (count_ssl_nfe_ufe _ pd).1, (count_ssl_nfe_ufe _ pd).2]
  simp [count_status, h]

theorem status_counter_count_ssl (st : Stats) (pd : response_struct) (s : response_enum) :
    status_counter (count_ssl st pd) s = status_counter st s := by
  unfold count_ssl
  split <;> cases s <;> rfl

theorem status_counter_count_totals (st : Stats) (pd : response_struct) (s : response_enum) :
    status_counter (count_totals st pd) s = status_counter st s := by
  unfold count_totals
  dsimp only
  split_ifs <;> cases s <;> rfl

theorem status_counter_count_status (st : Stats) (pd : response_struct) (s : response_enum)
    (h : pd.status.toNat < response_enum.ACTION_LOG_VERB.toNat) :
    status_counter (count_status st pd) s
      = status_counter st s + if s = pd.status then 1 else 0 := by
  obtain ⟨status, ssl, rx, krq, verb⟩ := pd
  cases status <;> cases s <;>
    simp [count_status, status_counter, response_enum.toNat] at h ⊢

theorem count_ssl_kcc_count (st : Stats) (pd : response_struct) :
    (count_ssl st pd).kcc = st.kcc ∧ (count_ssl st pd).count = st.count := by
  unfold count_ssl
  cases pd.ssl <;> exact ⟨rfl, rfl⟩

theorem count_totals_kcc (st : Stats) (pd : response_struct) :
    (count_totals st pd).kcc = st.kcc := by
  unfold count_totals
  dsimp only
  split_ifs <;> rfl

theorem count_totals_count (st : Stats) (pd : response_struct) :
    (count_totals st pd).count
      = if pd.status.toNat < response_enum.ACTION_LOG_VERB.toNat then st.count + 1
        else st.count := by
  unfold count_totals
  dsimp only
  split_ifs <;> rfl

theorem count_status_kcc_count (st : Stats) (pd : response_struct) :
    (count_status st pd).kcc = (if pd.status = .ACTION_DEC_KCC then st.kcc - 1 else st.kcc) ∧
      (count_status st pd).count = st.count := by
  obtain ⟨status, ssl, rx, krq, verb⟩ := pd
  cases status <;> simp [count_status]

theorem main_collect_kcc (st : Stats) (pd : response_struct) :
    (main_collect st pd).kcc = if pd.status = .ACTION_DEC_KCC then st.kcc - 1 else st.kcc := by
  unfold main_collect
  rw [count_totals_kcc, (count_ssl_kcc_count _ pd).1, (count_status_kcc_count st pd).1]

theorem main_step_kcc_le (USE_PTHREAD : Bool) (max_num_threads : Int) (d : Dispatcher)
    (w : wakeup) (h : d.stats.kcc ≤ max_num_threads) :
    (main_step USE_PTHREAD max_num_threads d w).1.stats.kcc ≤ max_num_threads := by
  cases w with
  | idle => exact h
  | pipe r =>
    cases r with
    | complete pd =>
      simp only [main_step, main_collect_kcc]
      split_ifs <;> omega
    | error => exact h
    | zero => exact h
    | short => exact h
  | listener a =>
    cases a with
    | refused again => cases again <;> exact h
    | connection handshake created =>
      by_cases hk : d.stats.kcc ≥ max_num_threads
      · simp only [main_step, if_pos hk]
        exact h
      · have hw : (count_worker d).stats.kcc ≤ max_num_threads := by
          show d.stats.kcc + 1 ≤ max_num_threads
          omega
        have hh : ∀ status, (count_handshake d status).stats.kcc ≤ max_num_threads := by
          intro status
          unfold count_handshake
          cases status <;> exact h
        rcases handshake with _ | ⟨ok, status⟩
        · cases created <;> cases USE_PTHREAD <;>
            simp only [main_step, if_neg hk, Bool.false_eq_true, if_false, if_true] <;>
            first | exact h | exact hw
        · cases ok <;> cases created <;> cases USE_PTHREAD <;>
            simp only [main_step, if_neg hk, Bool.false_eq_true, if_false, if_true] <;>
            first | exact h | exact hw | exact hh status

theorem main_loop_kcc_le (USE_PTHREAD : Bool) (max_num_threads : Int) (ws : List wakeup) :
    ∀ d : Dispatcher, d.stats.kcc ≤ max_num_threads →
      (main_loop USE_PTHREAD max_num_threads d ws).stats.kcc ≤ max_num_threads := by
  induction ws with
  | nil => intro d h; exact h
  | cons w ws ih =>
    intro d h
    exact ih _ (main_step_kcc_le USE_PTHREAD max_num_threads d w h)

theorem ext_classifier_status (path : List Nat) (s : response_enum) (r : List Nat)
    (h : ext_classifier path = some (s, r)) : request_status s = true := by
  unfold ext_classifier at h
  repeat' split at h
  all_goals first
    | (simp only [Option.some.injEq, Prod.mk.injEq] at h; obtain ⟨rfl, _⟩ := h; rfl)
    | simp at h

theorem post_status (g : Global) (c : Calls) (pd : response_struct) (bufptr : List Nat)
    (b : Bool) (n : Int) (sel : Selection)
    (h : conn_handler_post g c pd bufptr b n = some sel) :
    sel.pipedata.status = .SEND_POST := by
  unfold conn_handler_post at h
  dsimp only at h
  repeat' split at h
  all_goals first
    | (simp only [Option.some.injEq] at h; subst h; rfl)
    | simp at h

theorem get_status (g : Global) (c : Calls) (pd : response_struct) (path : Option (List Nat))
    (bufptr : Option (List Nat)) (sel : Selection)
    (h : conn_handler_get g c pd path bufptr = some sel) :
    request_status sel.pipedata.status = true := by
  unfold conn_handler_get at h
  dsimp only at h
  repeat' split at h
  all_goals first
    | (simp only [Option.some.injEq] at h; subst h; rfl)
    | (simp only [Option.some.injEq] at h; subst h; exact ext_classifier_status _ _ _ (by assumption))
    | simp at h

theorem classify_status (g : Global) (c : Calls) (pd : response_struct) (buf : List Nat)
    (sel : Selection) (h : conn_handler_classify g c pd buf = some sel)
    (hpd : request_status pd.status = true) :
    request_status sel.pipedata.status = true := by
  unfold conn_handler_classify at h
  dsimp only at h
  split at h
  · simp at h
  · split at h
    · simp at h
    · split at h
      · simp only [Option.some.injEq] at h; subst h; exact hpd
      · split_ifs at h
        · simp only [Option.some.injEq] at h; subst h; rfl
        · split at h
          · simp at h
          · rw [post_status _ _ _ _ _ _ _ h]; rfl
        · exact get_status _ _ _ _ _ _ h
        · simp only [Option.some.injEq] at h; subst h; rfl
        · simp only [Option.some.injEq] at h; subst h; rfl

theorem reply_status (pd : response_struct) (o : send_outcome)
    (hpd : request_status pd.status = true) :
    request_status (conn_handler_reply pd o).status = true := by
  unfold conn_handler_reply
  split_ifs
  · exact hpd
  · cases o <;> first | exact hpd | rfl
  · exact hpd

theorem event_loop_zero (g : Global) (ssl : Bool) (z : ssl_enum) (wait : Int)
    (rest : List read_result) (wait_cnt : Int) (pd : response_struct) (n : Int) :
    event_loop g ssl z wait (.zero :: rest) wait_cnt pd n = ⟨[last_message z n], .done⟩ := by
  cases ssl <;> rfl

theorem event_loop_empty (g : Global) (ssl : Bool) (z : ssl_enum) (wait : Int)
    (buf : List Nat) (c : Calls) (o : send_outcome)
    (rest : List read_result) (wait_cnt : Int) (pd : response_struct) (n : Int)
    (h : buf.length = 0) :
    event_loop g ssl z wait (.data buf c o :: rest) wait_cnt pd n
      = ⟨[last_message z n], .done⟩ := by
  unfold event_loop
  rw [if_pos h]
  cases ssl <;> rfl

theorem event_loop_undefined (g : Global) (ssl : Bool) (z : ssl_enum) (wait : Int)
    (buf : List Nat) (c : Calls) (o : send_outcome)
    (rest : List read_result) (wait_cnt : Int) (pd : response_struct) (n : Int)
    (h : buf.length ≠ 0) (hc : conn_handler_classify g c pd buf = none) :
    event_loop g ssl z wait (.data buf c o :: rest) wait_cnt pd n = ⟨[], .undefined⟩ := by
  unfold event_loop
  rw [if_neg h, hc]

theorem event_loop_request (g : Global) (ssl : Bool) (z : ssl_enum) (wait : Int)
    (buf : List Nat) (c : Calls) (o : send_outcome)
    (rest : List read_result) (wait_cnt : Int) (pd : response_struct) (n : Int)
    (sel : Selection)
    (h : buf.length ≠ 0) (hc : conn_handler_classify g c pd buf = some sel) :
    event_loop g ssl z wait (.data buf c o :: rest) wait_cnt pd n
      = ⟨conn_handler_reply sel.pipedata o ::
          (event_loop g ssl z wait rest wait (conn_handler_reply sel.pipedata o) (n + 1)).messages,
         (event_loop g ssl z wait rest wait (conn_handler_reply sel.pipedata o) (n + 1)).ending⟩ := by
  rw [event_loop, if_neg h, hc]

theorem event_loop_error (g : Global) (ssl : Bool) (z : ssl_enum) (wait : Int)
    (gone : Bool) (rest : List read_result) (wait_cnt : Int) (pd : response_struct) (n : Int) :
    event_loop g ssl z wait (.error gone :: rest) wait_cnt pd n
      = if gone = true ∨ wait_cnt = 1 then ⟨[last_message z n], .done⟩
        else event_loop g ssl z wait rest (wait_cnt - 1) pd n := by
  rw [event_loop]
  rfl

theorem last_message_status (z : ssl_enum) (n : Int) (m : response_struct)
    (hm : m ∈ [last_message z n]) :
    m.status ≠ .FAIL_CLOSED ∧ m.status ≠ .FAIL_TIMEOUT := by
  simp only [List.mem_singleton] at hm
  subst hm
  exact ⟨by simp [last_message], by simp [last_message]⟩

theorem event_loop_statuses (g : Global) (ssl : Bool) (z : ssl_enum) (wait : Int)
    (reads : List read_result) :
    ∀ (wait_cnt : Int) (pd : response_struct) (n : Int), request_status pd.status = true →
      ∀ m ∈ (event_loop g ssl z wait reads wait_cnt pd n).messages,
        m.status ≠ .FAIL_CLOSED ∧ m.status ≠ .FAIL_TIMEOUT := by
  induction reads with
  | nil => intro wait_cnt pd n _ m hm; simp [event_loop] at hm
  | cons r rest ih =>
    intro wait_cnt pd n hpd m hm
    cases r with
    | data buf c o =>
      by_cases hlen : buf.length = 0
      · rw [event_loop_empty g ssl z wait buf c o rest wait_cnt pd n hlen] at hm
        exact last_message_status z n m hm
      · cases hc : conn_handler_classify g c pd buf with
        | none =>
          rw [event_loop_undefined g ssl z wait buf c o rest wait_cnt pd n hlen hc] at hm
          simp at hm
        | some sel =>
          rw [event_loop_request g ssl z wait buf c o rest wait_cnt pd n sel hlen hc] at hm
          have hs := reply_status sel.pipedata o (classify_status g c pd buf sel hc hpd)
          simp only [List.mem_cons] at hm
          rcases hm with hm | hm
          · subst hm
            revert hs
            generalize (conn_handler_reply sel.pipedata o).status = s
            cases s <;> simp [request_status]
          · exact ih wait _ _ hs m hm
    | zero =>
      rw [event_loop_zero] at hm
      exact last_message_status z n m hm
    | error gone =>
      rw [event_loop_error] at hm
      split_ifs at hm
      · exact last_message_status z n m hm
      · exact ih _ pd n hpd m hm

theorem event_loop_accounting (g : Global) (ssl : Bool) (z : ssl_enum) (wait : Int)
    (init : List read_result) (last : read_result) :
    ∀ (wait_cnt : Int) (pd : response_struct) (n : Int), request_status pd.status = true →
      (event_loop g ssl z wait init wait_cnt pd n).ending = .reading →
      (event_loop g ssl z wait (init ++ [last]) wait_cnt pd n).ending = .done →
      ∃ reqs : List response_struct,
        (event_loop g ssl z wait (init ++ [last]) wait_cnt pd n).messages
          = reqs ++ [last_message z (n + init.countP is_request)] ∧
        reqs.length = init.countP is_request ∧
        ∀ m ∈ reqs, request_status m.status = true := by
  induction init with
  | nil =>
    intro wait_cnt pd n hpd _ hdone
    refine ⟨[], ?_, rfl, by simp⟩
    simp only [List.nil_append, List.countP_nil, Nat.cast_zero, add_zero] at hdone ⊢
    cases last with
    | data buf c o =>
      by_cases hlen : buf.length = 0
      · rw [event_loop_empty g ssl z wait buf c o [] wait_cnt pd n hlen]
      · cases hc : conn_handler_classify g c pd buf with
        | none =>
          rw [event_loop_undefined g ssl z wait buf c o [] wait_cnt pd n hlen hc] at hdone
          simp at hdone
        | some sel =>
          rw [event_loop_request g ssl z wait buf c o [] wait_cnt pd n sel hlen hc] at hdone
          simp [event_loop] at hdone
    | zero => rw [event_loop_zero]
    | error gone =>
      rw [event_loop_error] at hdone ⊢
      split_ifs at hdone ⊢
      · rfl
      · simp [event_loop] at hdone
  | cons r rest ih =>
    intro wait_cnt pd n hpd hread hdone
    cases r with
    | data buf c o =>
      by_cases hlen : buf.length = 0
      · rw [event_loop_empty g ssl z wait buf c o rest wait_cnt pd n hlen] at hread
        simp at hread
      · cases hc : conn_handler_classify g c pd buf with
        | none =>
          rw [event_loop_undefined g ssl z wait buf c o rest wait_cnt pd n hlen hc] at hread
          simp at hread
        | some sel =>
          rw [event_loop_request g ssl z wait buf c o rest wait_cnt pd n sel hlen hc] at hread
          rw [List.cons_append,
            event_loop_request g ssl z wait buf c o _ wait_cnt pd n sel hlen hc] at hdone ⊢
          have hs := reply_status sel.pipedata o (classify_status g c pd buf sel hc hpd)
          obtain ⟨reqs, hm, hl, hall⟩ := ih wait _ (n + 1) hs hread hdone
          have hreq : is_request (.data buf c o) = true := by simp [is_request, hlen]
          refine ⟨conn_handler_reply sel.pipedata o :: reqs, ?_, ?_, ?_⟩
          · simp only [hm, List.cons_append, List.countP_cons, hreq, if_true, Nat.cast_add,
              Nat.cast_one]
            rw [show n + 1 + (List.countP is_request rest : Int)
              = n + ((List.countP is_request rest : Int) + 1) by omega]
          · simp [List.countP_cons, hreq, hl]
          · intro m hmem
            simp only [List.mem_cons] at hmem
            rcases hmem with h | h
            · rw [h]; exact hs
            · exact hall m h
    | zero =>
      rw [event_loop_zero] at hread
      simp at hread
    | error gone =>
      rw [event_loop_error] at hread
      rw [List.cons_append, event_loop_error] at hdone ⊢
      by_cases hx : gone = true ∨ wait_cnt = 1
      · rw [if_pos hx] at hread
        simp at hread
      · rw [if_neg hx] at hread hdone ⊢
        obtain ⟨reqs, hm, hl, hall⟩ := ih _ pd n hpd hread hdone
        have hreq : is_request (.error gone) = false := rfl
        refine ⟨reqs, ?_, ?_, hall⟩
        · rw [hm]; simp [List.countP_cons, hreq]
        · simp [List.countP_cons, hreq, hl]

theorem main_step_kcc (max_num_threads : Int) (d : Dispatcher) (w : wakeup) :
    (main_step true max_num_threads d w).1.stats.kcc
      = d.stats.kcc + (if (main_step true max_num_threads d w).2 then 1 else 0)
        - (if is_dec_kcc w then 1 else 0) := by
  cases w with
  | idle => simp [main_step, is_dec_kcc]
  | pipe r =>
    cases r with
    | complete pd =>
      simp only [main_step, main_collect_kcc, is_dec_kcc]
      by_cases h : pd.status = .ACTION_DEC_KCC <;> simp [h]
    | error => simp [main_step, is_dec_kcc]
    | zero => simp [main_step, is_dec_kcc]
    | short => simp [main_step, is_dec_kcc]
  | listener a =>
    cases a with
    | refused again => cases again <;> simp [main_step, is_dec_kcc]
    | connection handshake created =>
      by_cases hk : d.stats.kcc ≥ max_num_threads
      · simp [main_step, if_pos hk, is_dec_kcc]
      · have hh : ∀ status, (count_handshake d status).stats.kcc = d.stats.kcc := by
          intro status
          unfold count_handshake
          cases status <;> rfl
        rcases handshake with _ | ⟨ok, status⟩
        · cases created <;> simp [main_step, if_neg hk, is_dec_kcc, count_worker]
        · cases ok <;> cases created <;>
            simp [main_step, if_neg hk, is_dec_kcc, count_worker, hh]

theorem main_loop_kcc (max_num_threads : Int) (ws : List wakeup) :
    ∀ d : Dispatcher,
      (main_loop true max_num_threads d ws).stats.kcc
        = d.stats.kcc + workers_created true max_num_threads d ws - ws.countP is_dec_kcc := by
  induction ws with
  | nil => intro d; simp [main_loop, workers_created]
  | cons w ws ih =>
    intro d
    rw [main_loop, ih, main_step_kcc, workers_created, List.countP_cons]
    by_cases h : is_dec_kcc w = true <;> simp [h] <;> omega

theorem main_step_kmx (USE_PTHREAD : Bool) (max_num_threads : Int) (d : Dispatcher)
    (w : wakeup) (h : d.stats.kcc ≤ d.kmx) :
    (main_step USE_PTHREAD max_num_threads d w).1.kmx
      = max d.kmx (main_step USE_PTHREAD max_num_threads d w).1.stats.kcc := by
  cases w with
  | idle => simp [main_step, h]
  | pipe r =>
    cases r with
    | complete pd =>
      simp only [main_step, main_collect_kcc]
      split_ifs <;> omega
    | error => simp [main_step, h]
    | zero => simp [main_step, h]
    | short => simp [main_step, h]
  | listener a =>
    cases a with
    | refused again => cases again <;> simp [main_step, h]
    | connection handshake created =>
      by_cases hk : d.stats.kcc ≥ max_num_threads
      · simp [main_step, if_pos hk, h]
      · have hh : ∀ status, (count_handshake d status).stats.kcc = d.stats.kcc ∧
            (count_handshake d status).kmx = d.kmx := by
          intro status
          unfold count_handshake
          cases status <;> exact ⟨rfl, rfl⟩
        have hw : (count_worker d).kmx = max d.kmx (count_worker d).stats.kcc := by
          simp only [count_worker]
          split_ifs <;> omega
        rcases handshake with _ | ⟨ok, status⟩
        · cases created <;> cases USE_PTHREAD <;>
            simp only [main_step, if_neg hk, Bool.false_eq_true, if_false, if_true] <;>
            first | exact hw | (simp [h])
        · cases ok <;> cases created <;> cases USE_PTHREAD <;>
            simp only [main_step, if_neg hk, Bool.false_eq_true, if_false, if_true] <;>
            first | exact hw | (simp [h]) | (simp [hh, h])

theorem main_loop_kmx (USE_PTHREAD : Bool) (max_num_threads : Int) (ws : List wakeup) :
    ∀ d : Dispatcher, d.stats.kcc ≤ d.kmx →
      (main_loop USE_PTHREAD max_num_threads d ws).kmx
        = max d.kmx (kcc_peak USE_PTHREAD max_num_threads d ws) := by
  induction ws with
  | nil => intro d h; simp [main_loop, kcc_peak, h]
  | cons w ws ih =>
    intro d h
    have hs := main_step_kmx USE_PTHREAD max_num_threads d w h
    rw [main_loop, ih _ (by rw [hs]; exact le_max_right _ _), hs, kcc_peak]
    have hp : (main_step USE_PTHREAD max_num_threads d w).1.stats.kcc
        ≤ kcc_peak USE_PTHREAD max_num_threads (main_step USE_PTHREAD max_num_threads d w).1 ws := by
      cases ws with
      | nil => exact le_refl _
      | cons w1 ws1 => exact le_max_left _ _
    omega

theorem conn_handler_statuses (g : Global) (ssl_zero : ssl_enum) (tls : Option ssl_enum)
    (reads : List read_result) :
    ∀ m ∈ (conn_handler g ssl_zero tls reads).messages,
      m.status ≠ .FAIL_CLOSED ∧ m.status ≠ .FAIL_TIMEOUT := by
  intro m hm
  cases hw : keepalive_wait g with
  | none => simp [conn_handler, hw] at hm
  | some wait =>
    simp only [conn_handler, hw] at hm
    refine event_loop_statuses g tls.isSome ssl_zero wait reads wait _ 0 ?_ m hm
    cases tls <;> rfl

theorem conn_handler_accounting (g : Global) (ssl_zero : ssl_enum) (tls : Option ssl_enum)
    (init : List read_result) (last : read_result)
    (hread : (conn_handler g ssl_zero tls init).ending = .reading)
    (hdone : (conn_handler g ssl_zero tls (init ++ [last])).ending = .done) :
    ∃ reqs : List response_struct,
      (conn_handler g ssl_zero tls (init ++ [last])).messages
        = reqs ++ [last_message ssl_zero (init.countP is_request)] ∧
      reqs.length = init.countP is_request ∧
      ∀ m ∈ reqs, request_status m.status = true := by
  cases hw : keepalive_wait g with
  | none => simp [conn_handler, hw] at hread
  | some wait =>
    simp only [conn_handler, hw] at hread hdone ⊢
    have h := event_loop_accounting g tls.isSome ssl_zero wait init last wait _ 0
      (by cases tls <;> rfl) hread hdone
    simpa using h

theorem has_header_line_append (a b line : List Nat)
    (h : has_header_line b line = true) : has_header_line (a ++ b) line = true := by
  unfold has_header_line at h ⊢
  rw [strstr_isSome_iff] at h ⊢
  exact h.trans (List.suffix_append a b).isInfix

theorem has_header_line_prepend (a b line : List Nat)
    (h : has_header_line a line = true) : has_header_line (a ++ b) line = true := by
  unfold has_header_line at h ⊢
  rw [strstr_isSome_iff] at h ⊢
  exact h.trans (List.prefix_append a b).isInfix

theorem urldecode_length_le : ∀ (n : Nat) (e : List Nat), e.length ≤ n →
    (urldecode e).length ≤ e.length := by
  intro n
  induction n with
  | zero =>
    intro e h
    have : e = [] := List.length_eq_zero.mp (by omega)
    subst this
    simp [urldecode]
  | succ n ih =>
    intro e h
    match e with
    | [] => simp [urldecode]
    | [c] =>
      by_cases hc : c = 37 <;> simp [urldecode, hc]
    | [c, a] =>
      have hn : [a].length ≤ n := by simp only [List.length_cons, List.length_nil] at h ⊢; omega
      have h1 := ih [a] hn
      by_cases hc : c = 37
      · subst hc
        have he : urldecode [37, a] = urldecode [a] := by simp [urldecode]
        rw [he]
        simp only [List.length_cons, List.length_nil] at h1 ⊢
        omega
      · rw [urldecode_cons_of_ne c [a] hc]
        simp only [List.length_cons, List.length_nil] at h1 ⊢
        omega
    | c :: a :: b :: rest =>
      by_cases hc : c = 37
      · subst hc
        rw [urldecode_escape]
        have := ih rest (by simp only [List.length_cons] at h; omega)
        simp only [List.length_cons]
        omega
      · rw [urldecode_cons_of_ne c _ hc]
        have := ih (a :: b :: rest) (by simp only [List.length_cons] at h ⊢; omega)
        simp only [List.length_cons] at this ⊢
        omega

theorem urldecode_plain (e : List Nat) (h : 37 ∉ e) : urldecode e = e := by
  induction e with
  | nil => simp [urldecode]
  | cons c rest ih =>
    have hc : c ≠ 37 := fun hc => h (by simp [hc])
    rw [urldecode_cons_of_ne c rest hc, ih (fun hm => h (List.mem_cons_of_mem _ hm))]

theorem cstr_length_le (l : List Nat) : (cstr l).length ≤ l.length := by
  unfold cstr
  exact (List.takeWhile_sublist _).length_le

theorem read_socket_loop_spec (CHAR_BUF_SIZE MAX_CHAR_BUF_LOTS : Int) (realloc_ok : Int → Bool)
    (recvs : List Int) :
    ∀ (i msg_len : Int) (r : Int × List Int), (∀ rv ∈ recvs, rv ≤ CHAR_BUF_SIZE) →
      i ≤ MAX_CHAR_BUF_LOTS + 1 →
      read_socket_loop CHAR_BUF_SIZE MAX_CHAR_BUF_LOTS realloc_ok recvs i msg_len = some r →
      (r.2.length : Int) ≤ MAX_CHAR_BUF_LOTS + 1 - i ∧
        (∀ rv ∈ r.2.dropLast, rv = CHAR_BUF_SIZE) ∧
        (r.1 = -1 ∨ r.1 ≤ msg_len + r.2.length * CHAR_BUF_SIZE) ∧
        r.2 <+: recvs := by
  induction recvs with
  | nil =>
    intro i msg_len r _ hi h
    unfold read_socket_loop at h
    split_ifs at h with hle
    simp only [Option.some.injEq] at h
    subst h
    simp
    omega
  | cons rv rest ih =>
    intro i msg_len r hrecv hi h
    have hrv : rv ≤ CHAR_BUF_SIZE := hrecv rv (by simp)
    have hrest : ∀ x ∈ rest, x ≤ CHAR_BUF_SIZE := fun x hx => hrecv x (by simp [hx])
    unfold read_socket_loop at h
    by_cases hle : i ≤ MAX_CHAR_BUF_LOTS
    · rw [if_pos hle] at h
      dsimp only at h
      by_cases hlt : rv < CHAR_BUF_SIZE
      · rw [if_pos hlt] at h
        simp only [Option.some.injEq] at h
        subst h
        refine ⟨by simp; omega, by simp, Or.inr (by simp; omega), by simp⟩
      · rw [if_neg hlt] at h
        by_cases hok : realloc_ok (i + 1) = true
        · rw [if_pos hok] at h
          cases hrec : read_socket_loop CHAR_BUF_SIZE MAX_CHAR_BUF_LOTS realloc_ok rest (i + 1)
              (msg_len + rv) with
          | none => rw [hrec] at h; simp at h
          | some r1 =>
            rw [hrec] at h
            simp only [Option.map_some', Option.some.injEq] at h
            subst h
            obtain ⟨h1, h2, h3, h4⟩ := ih (i + 1) (msg_len + rv) r1 hrest (by omega) hrec
            have hrveq : rv = CHAR_BUF_SIZE := by omega
            refine ⟨by simp only [List.length_cons, Nat.cast_add, Nat.cast_one]; omega, ?_, ?_, ?_⟩
            · intro x hx
              cases hr2 : r1.2 with
              | nil => simp [hr2] at hx
              | cons y ys =>
                rw [hr2, List.dropLast_cons₂] at hx
                simp only [List.mem_cons] at hx
                rcases hx with hx | hx
                · rw [hx]; exact hrveq
                · exact h2 x (by rw [hr2]; exact hx)
            · rcases h3 with h3 | h3
              · exact Or.inl h3
              · refine Or.inr ?_
                simp only [List.length_cons, Nat.cast_add, Nat.cast_one]
                have : ((r1.2.length : Int) + 1) * CHAR_BUF_SIZE
                    = r1.2.length * CHAR_BUF_SIZE + CHAR_BUF_SIZE := by ring
                rw [this]
                omega
            · exact List.cons_prefix_cons.mpr ⟨rfl, h4⟩
        · rw [if_neg hok] at h
          simp only [Option.some.injEq] at h
          subst h
          refine ⟨by simp; omega, by simp, Or.inl rfl, by simp⟩
    · rw [if_neg hle] at h
      simp only [Option.some.injEq] at h
      subst h
      refine ⟨by simp; omega, by simp, Or.inr (by simp), by simp⟩

theorem read_socket_loop_returns (CHAR_BUF_SIZE MAX_CHAR_BUF_LOTS : Int)
    (realloc_ok : Int → Bool) (recvs : List Int) :
    ∀ (i msg_len : Int), MAX_CHAR_BUF_LOTS + 1 - i ≤ recvs.length →
      (read_socket_loop CHAR_BUF_SIZE MAX_CHAR_BUF_LOTS realloc_ok recvs i msg_len).isSome
        = true := by
  induction recvs with
  | nil =>
    intro i msg_len h
    unfold read_socket_loop
    simp only [List.length_nil, Nat.cast_zero] at h
    rw [if_neg (by omega)]
    rfl
  | cons rv rest ih =>
    intro i msg_len h
    simp only [List.length_cons, Nat.cast_add, Nat.cast_one] at h
    unfold read_socket_loop
    dsimp only
    split_ifs
    · rfl
    · rw [Option.isSome_map']
      exact ih _ _ (by omega)
    · rfl
    · rfl

theorem post_step_data (g : Global) (s : post_state) (rv : Int) (h : rv > 0) :
    (post_step g s rv).length = s.length - rv ∧ (post_step g s rv).wait_cnt = s.wait_cnt := by
  unfold post_step
  rw [if_pos h]
  dsimp only
  split_ifs <;> exact ⟨rfl, rfl⟩

theorem post_step_empty (g : Global) (s : post_state) (rv : Int) (h : ¬ rv > 0) :
    (post_step g s rv).length = s.length ∧ (post_step g s rv).wait_cnt = s.wait_cnt - 1 := by
  unfold post_step
  rw [if_neg h]
  exact ⟨rfl, rfl⟩

theorem post_loop_calls_bounds (g : Global) (recvs : List Int) :
    ∀ s : post_state,
      (post_loop_calls g recvs s).countP (fun rv => decide (rv ≤ 0)) ≤ s.wait_cnt.toNat ∧
      (post_loop_calls g recvs s).length ≤ s.length.toNat + s.wait_cnt.toNat := by
  induction recvs with
  | nil => intro s; simp [post_loop_calls]
  | cons rv rest ih =>
    intro s
    unfold post_loop_calls
    by_cases hrun : s.length > 0 ∧ s.wait_cnt > 0
    · rw [if_pos hrun]
      obtain ⟨h1, h2⟩ := ih (post_step g s rv)
      by_cases hrv : rv > 0
      · obtain ⟨hl, hw⟩ := post_step_data g s rv hrv
        rw [hl, hw] at h2
        rw [hw] at h1
        have hnot : decide (rv ≤ 0) = false := by simp; omega
        refine ⟨?_, ?_⟩
        · rw [List.countP_cons]
          simp only [hnot, Bool.false_eq_true, if_false]
          omega
        · simp only [List.length_cons]
          omega
      · obtain ⟨hl, hw⟩ := post_step_empty g s rv hrv
        rw [hl, hw] at h2
        rw [hw] at h1
        have hyes : decide (rv ≤ 0) = true := by simp; omega
        refine ⟨?_, ?_⟩
        · rw [List.countP_cons]
          simp only [hyes, if_true]
          omega
        · simp only [List.length_cons]
          omega
    · rw [if_neg hrun]
      simp

theorem post_loop_returns (g : Global) (recvs : List Int) :
    ∀ s : post_state, s.length.toNat + s.wait_cnt.toNat ≤ recvs.length →
      (post_loop g recvs s).isSome = true := by
  induction recvs with
  | nil =>
    intro s h
    unfold post_loop
    simp only [List.length_nil] at h
    rw [if_neg (by omega)]
    rfl
  | cons rv rest ih =>
    intro s h
    simp only [List.length_cons] at h
    unfold post_loop
    by_cases hrun : s.length > 0 ∧ s.wait_cnt > 0
    · rw [if_pos hrun]
      apply ih
      by_cases hrv : rv > 0
      · obtain ⟨hl, hw⟩ := post_step_data g s rv hrv
        rw [hl, hw]
        omega
      · obtain ⟨hl, hw⟩ := post_step_empty g s rv hrv
        rw [hl, hw]
        omega
    · rw [if_neg hrun]
      rfl

theorem post_setup_wait (g : Global) (pd : response_struct) (bufptr : List Nat)
    (has_body : Bool) (body_len : Int) (size : Int) (s : post_state)
    (h : post_setup g pd bufptr has_body body_len = some (size, s)) :
    s.wait_cnt = max 1 (Int.tdiv g.MAX_HTTP_POST_WAIT g.select_timeout) := by
  unfold post_setup at h
  cases h1 : strstr bufptr (bytes "Content-Length: ") with
  | none => rw [h1] at h; simp at h
  | some hd =>
    rw [h1] at h
    dsimp only at h
    cases h2 : (strtok (hd.drop 16) CRLF).1 with
    | none => rw [h2] at h; simp at h
    | some tok =>
      rw [h2] at h
      dsimp only at h
      cases h3 : atoi tok with
      | none => rw [h3] at h; simp at h
      | some length =>
        rw [h3] at h
        dsimp only at h
        by_cases h4 : g.select_timeout = 0
        · rw [if_pos h4] at h; simp at h
        · rw [if_neg h4] at h
          simp only [Option.some.injEq, Prod.mk.injEq] at h
          obtain ⟨_, hs⟩ := h
          rw [← hs]
          dsimp only
          generalize Int.tdiv g.MAX_HTTP_POST_WAIT g.select_timeout = w
          split_ifs <;> omega

theorem digitChar_toNat (m : Nat) (h : m < 10) : (Nat.digitChar m).toNat = 48 + m := by
  interval_cases m <;> rfl

theorem digits_value_append (l : List Nat) (d : Nat) :
    ∀ acc : Int, digits_value (l ++ [d]) acc = digits_value l acc * 10 + ((d : Int) - 48) := by
  induction l with
  | nil => intro acc; rfl
  | cons c cs ih =>
    intro acc
    rw [List.cons_append, digits_value, digits_value, ih]

theorem atoi_digits_append (l : List Nat) (hl : ∀ c ∈ l, isdigit c = true) (rest : List Nat) :
    ∀ acc : Int, atoi_digits (l ++ rest) acc = atoi_digits rest (digits_value l acc) := by
  induction l with
  | nil => intro acc; rfl
  | cons c cs ih =>
    intro acc
    have hc : isdigit c = true := hl c (by simp)
    simp only [List.cons_append, atoi_digits, hc, if_true, digits_value]
    exact ih (fun x hx => hl x (by simp [hx])) _

theorem toDigitsCore_spec : ∀ (fuel n : Nat) (ds : List Char), n < fuel →
    ∃ l : List Char, Nat.toDigitsCore 10 fuel n ds = l ++ ds ∧ l ≠ [] ∧
      (∀ c ∈ l, isdigit c.toNat = true) ∧
      ∀ acc : Int, digits_value (l.map Char.toNat) acc = acc * 10 ^ l.length + n := by
  intro fuel
  induction fuel with
  | zero => intro n ds h; omega
  | succ fuel ih =>
    intro n ds h
    have hlt : n % 10 < 10 := Nat.mod_lt _ (by decide)
    have hd : (Nat.digitChar (n % 10)).toNat = 48 + n % 10 := digitChar_toNat _ hlt
    have hdig : isdigit (Nat.digitChar (n % 10)).toNat = true := by
      rw [hd]
      simp only [isdigit, Bool.and_eq_true, decide_eq_true_eq]
      omega
    unfold Nat.toDigitsCore
    dsimp only
    by_cases h0 : n / 10 = 0
    · rw [if_pos h0]
      refine ⟨[Nat.digitChar (n % 10)], rfl, by simp, ?_, ?_⟩
      · intro c hc
        simp only [List.mem_singleton] at hc
        rw [hc]; exact hdig
      · intro acc
        simp only [digits_value, List.map_cons, List.map_nil, List.length_singleton, pow_one, hd]
        have : n % 10 = n := by omega
        push_cast
        omega
    · rw [if_neg h0]
      obtain ⟨l, hl, _, hall, hval⟩ := ih (n / 10) (Nat.digitChar (n % 10) :: ds) (by omega)
      refine ⟨l ++ [Nat.digitChar (n % 10)], by rw [hl]; simp, by simp, ?_, ?_⟩
      · intro c hc
        simp only [List.mem_append, List.mem_singleton] at hc
        rcases hc with hc | hc
        · exact hall c hc
        · rw [hc]; exact hdig
      · intro acc
        rw [List.map_append, List.map_cons, List.map_nil, digits_value_append, hval acc, hd,
          List.length_append, List.length_singleton, pow_succ]
        have h1 : (n : Int) = ((n / 10 : Nat) : Int) * 10 + ((n % 10 : Nat) : Int) := by
          have := Nat.div_add_mod n 10
          omega
        push_cast
        push_cast at h1
        linarith

theorem fmt_u_spec (n : Nat) :
    ∃ l : List Nat, fmt_u n = l ∧ l ≠ [] ∧ (∀ c ∈ l, isdigit c = true) ∧
      digits_value l 0 = (n % 4294967296 : Nat) := by
  obtain ⟨l, hl, hne, hall, hval⟩ :=
    toDigitsCore_spec (n % 4294967296 + 1) (n % 4294967296) [] (Nat.lt_succ_self _)
  refine ⟨l.map Char.toNat, ?_, by simpa using hne, ?_, ?_⟩
  · unfold fmt_u bytes Nat.repr Nat.toDigits
    rw [hl]
    simp [List.asString]
  · intro c hc
    simp only [List.mem_map] at hc
    obtain ⟨d, hd, rfl⟩ := hc
    exact hall d hd
  · rw [hval 0]
    simp

theorem strstr_cons_ne (x p : Nat) (l ps : List Nat) (h : x ≠ p) :
    strstr (x :: l) (p :: ps) = strstr l (p :: ps) := by
  have : (p :: ps).isPrefixOf (x :: l) = false := by
    simp [List.isPrefixOf, Ne.symm h]
  simp [strstr, this]

theorem strstr_line_end (y : Nat) (l : List Nat) (h : y ≠ 13) :
    strstr (13 :: 10 :: y :: l) [13, 10, 13, 10] = strstr (y :: l) [13, 10, 13, 10] := by
  have h1 : [13, 10, 13, 10].isPrefixOf (13 :: 10 :: y :: l) = false := by
    simp [List.isPrefixOf, Ne.symm h]
  rw [strstr, if_neg (by simp [h1]), strstr_cons_ne 10 13 _ _ (by decide)]

theorem strstr_digits (l : List Nat) (hl : ∀ c ∈ l, isdigit c = true) (rest ps : List Nat) :
    strstr (l ++ rest) (13 :: ps) = strstr rest (13 :: ps) := by
  induction l with
  | nil => rfl
  | cons c cs ih =>
    have hc : isdigit c = true := hl c (by simp)
    have hne : c ≠ 13 := by
      simp only [isdigit, Bool.and_eq_true, decide_eq_true_eq] at hc
      omega
    rw [List.cons_append, strstr_cons_ne c 13 _ _ hne]
    exact ih (fun x hx => hl x (by simp [hx]))

theorem strstr_append_some (l pat suf R : List Nat) (h : strstr l pat = some suf) :
    strstr (l ++ R) pat = some (suf ++ R) := by
  induction l with
  | nil =>
    cases pat with
    | nil =>
      simp only [strstr, List.isEmpty_nil, if_true, Option.some.injEq] at h
      subst h
      cases R with
      | nil => simp [strstr]
      | cons x xs => simp [strstr, List.isPrefixOf]
    | cons p ps => simp [strstr] at h
  | cons x xs ih =>
    unfold strstr at h
    by_cases hp : pat.isPrefixOf (x :: xs) = true
    · rw [if_pos hp] at h
      simp only [Option.some.injEq] at h
      subst h
      have hp2 : pat.isPrefixOf (x :: xs ++ R) = true :=
        List.isPrefixOf_iff_prefix.mpr
          ((List.isPrefixOf_iff_prefix.mp hp).trans (List.prefix_append _ _))
      rw [List.cons_append] at hp2 ⊢
      rw [strstr, if_pos hp2]
    · rw [if_neg hp] at h
      have hlen : pat.length ≤ xs.length := by
        have : (strstr xs pat).isSome = true := by rw [h]; rfl
        exact ((strstr_isSome_iff xs pat).mp this).length_le
      have hp2 : ¬ pat.isPrefixOf (x :: (xs ++ R)) = true := by
        intro hc
        apply hp
        have h1 : pat <+: (x :: xs) ++ R := List.isPrefixOf_iff_prefix.mp hc
        have h2 : (x :: xs) <+: (x :: xs) ++ R := List.prefix_append _ _
        exact List.isPrefixOf_iff_prefix.mpr
          (List.prefix_of_prefix_length_le h1 h2 (by simp only [List.length_cons]; omega))
      rw [List.cons_append, strstr, if_neg hp2]
      exact ih h

theorem atoi_of_digits (l rest : List Nat) (hne : l ≠ []) (hl : ∀ c ∈ l, isdigit c = true)
    (hnn : 0 ≤ digits_value l 0) (hmax : digits_value l 0 ≤ INT_MAX) :
    atoi (l ++ 13 :: rest) = some (digits_value l 0) := by
  cases l with
  | nil => exact absurd rfl hne
  | cons d ds =>
    have hd : isdigit d = true := hl d (by simp)
    have hd2 : 48 ≤ d ∧ d ≤ 57 := by
      simpa only [isdigit, Bool.and_eq_true, decide_eq_true_eq] using hd
    have hsp : isspace d = false := by
      simp only [isspace, Bool.or_eq_false_iff, Bool.and_eq_false_iff, decide_eq_false_iff_not]
      omega
    have hval : atoi_digits ((d :: ds) ++ 13 :: rest) 0 = digits_value (d :: ds) 0 := by
      rw [atoi_digits_append (d :: ds) hl]
      simp [atoi_digits, isdigit]
    unfold atoi
    have hdrop : List.dropWhile isspace (d :: ds ++ 13 :: rest) = d :: ds ++ 13 :: rest := by
      rw [List.cons_append, List.dropWhile_cons_of_neg (by simp [hsp])]
    rw [hdrop]
    have hmin : INT_MIN ≤ digits_value (d :: ds) 0 := by
      unfold INT_MIN; omega
    have h45 : d ≠ 45 := by omega
    have h43 : d ≠ 43 := by omega
    simp only [List.cons_append]
    have hval2 : atoi_digits (d :: (ds ++ 13 :: rest)) 0 = digits_value (d :: ds) 0 := hval
    split
    · split
      · rename_i heq; simp only [List.cons.injEq] at heq; exact absurd heq.1 h45
      · rename_i heq; simp only [List.cons.injEq] at heq; exact absurd heq.1 h43
      · rw [hval2]
    · rename_i hnot
      exfalso
      apply hnot
      split
      · rename_i heq; simp only [List.cons.injEq] at heq; exact absurd heq.1 h45
      · rename_i heq; simp only [List.cons.injEq] at heq; exact absurd heq.1 h43
      · rw [hval2]; exact ⟨hmin, hmax⟩

theorem strstr_found (ps rest : List Nat) (p : Nat) :
    strstr ((p :: ps) ++ rest) (p :: ps) = some ((p :: ps) ++ rest) := by
  have : (p :: ps).isPrefixOf ((p :: ps) ++ rest) = true :=
    List.isPrefixOf_iff_prefix.mpr (List.prefix_append _ _)
  rw [List.cons_append] at this ⊢
  simp [strstr, this]

theorem strstr_stats1_blank (rest : List Nat) :
    strstr (httpstats1 ++ rest) [13, 10, 13, 10] = strstr rest [13, 10, 13, 10] := by
  have h : httpstats1 = [72, 84, 84, 80, 47, 49, 46, 49, 32, 50, 48, 48, 32, 79, 75, 13, 10, 67,
      111, 110, 116, 101, 110, 116, 45, 116, 121, 112, 101, 58, 32, 116, 101, 120, 116, 47, 104,
      116, 109, 108, 13, 10, 67, 111, 110, 116, 101, 110, 116, 45, 108, 101, 110, 103, 116, 104,
      58, 32] := by decide
  rw [h]
  simp only [List.cons_append, List.nil_append]
  repeat (first | rw [strstr_line_end _ _ (by decide)] | rw [strstr_cons_ne _ 13 _ _ (by decide)])

theorem strstr_txtstats1_blank (rest : List Nat) :
    strstr (txtstats1 ++ rest) [13, 10, 13, 10] = strstr rest [13, 10, 13, 10] := by
  have h : txtstats1 = [72, 84, 84, 80, 47, 49, 46, 49, 32, 50, 48, 48, 32, 79, 75, 13, 10, 67,
      111, 110, 116, 101, 110, 116, 45, 116, 121, 112, 101, 58, 32, 116, 101, 120, 116, 47, 112,
      108, 97, 105, 110, 13, 10, 67, 111, 110, 116, 101, 110, 116, 45, 108, 101, 110, 103, 116,
      104, 58, 32] := by decide
  rw [h]
  simp only [List.cons_append, List.nil_append]
  repeat (first | rw [strstr_line_end _ _ (by decide)] | rw [strstr_cons_ne _ 13 _ _ (by decide)])

theorem strstr_stats2_blank (body : List Nat) :
    strstr (httpstats2 ++ body) [13, 10, 13, 10] = some ([13, 10, 13, 10] ++ body) := by
  have h : httpstats2 = [13, 10, 67, 111, 110, 110, 101, 99, 116, 105, 111, 110, 58, 32, 107,
      101, 101, 112, 45, 97, 108, 105, 118, 101] ++ [13, 10, 13, 10] := by decide
  rw [h]
  simp only [List.cons_append, List.nil_append, List.append_assoc]
  repeat (first | rw [strstr_line_end _ _ (by decide)] | rw [strstr_cons_ne _ 13 _ _ (by decide)])
  exact strstr_found [10, 13, 10] body 13

theorem stats_response (v s : List Nat) (hfit : (asprintf_stats v s).length ≤ 2147483647) :
    payload (asprintf_stats v s) = some (httpstats3 ++ v ++ bytes "<br>" ++ s ++ httpstats4) ∧
      content_length (asprintf_stats v s)
        = some ((httpstats3 ++ v ++ bytes "<br>" ++ s ++ httpstats4).length : Int) := by
  obtain ⟨D, hD, hne, hall, hval⟩ := fmt_u_spec (statsbaselen + v.length + 4 + s.length)
  have hform : asprintf_stats v s
      = httpstats1 ++ (D ++ (httpstats2 ++ (httpstats3 ++ v ++ bytes "<br>" ++ s ++ httpstats4))) := by
    unfold asprintf_stats
    rw [hD]
    simp only [List.append_assoc]
  have hlen : (httpstats3 ++ v ++ bytes "<br>" ++ s ++ httpstats4).length
      = statsbaselen + v.length + 4 + s.length := by
    have h4 : (bytes "<br>").length = 4 := by decide
    simp only [List.length_append, statsbaselen, h4]
    omega
  have hsmall : statsbaselen + v.length + 4 + s.length ≤ 2147483647 := by
    rw [hform] at hfit
    simp only [List.length_append] at hfit hlen
    omega
  rw [Nat.mod_eq_of_lt (by omega)] at hval
  rw [hform]
  constructor
  · unfold payload
    have hpat : bytes "\r\n\r\n" = [13, 10, 13, 10] := by decide
    rw [hpat, strstr_stats1_blank, strstr_digits D hall, strstr_stats2_blank]
    rfl
  · unfold content_length
    have hfind : strstr httpstats1 (bytes "Content-length: ") = some (bytes "Content-length: ") := by
      decide
    rw [strstr_append_some _ _ _ _ hfind]
    have hdrop : (bytes "Content-length: " ++ (D ++ (httpstats2 ++ (httpstats3 ++ v ++ bytes "<br>" ++ s ++ httpstats4)))).drop 16
        = D ++ (httpstats2 ++ (httpstats3 ++ v ++ bytes "<br>" ++ s ++ httpstats4)) := by
      have h16 : (bytes "Content-length: ").length = 16 := by decide
      rw [← h16, List.drop_left]
    have h2 : httpstats2 = 13 :: bytes "\nConnection: keep-alive\r\n\r\n" := by decide
    simp only [hdrop]
    rw [h2, List.cons_append, atoi_of_digits D _ hne hall (by rw [hval]; omega)
      (by rw [hval]; unfold INT_MAX; omega), hval, hlen]

theorem statstext_response (v s : List Nat)
    (hfit : (asprintf_statstext v s).length ≤ 2147483647) :
    payload (asprintf_statstext v s) = some (v ++ bytes "\n" ++ s ++ bytes "\r\n") ∧
      content_length (asprintf_statstext v s)
        = some ((v ++ bytes "\n" ++ s ++ bytes "\r\n").length : Int) := by
  obtain ⟨D, hD, hne, hall, hval⟩ := fmt_u_spec (v.length + 1 + s.length + 2)
  have h3 : txtstats3 = bytes "\r\n" := by decide
  have h2 : txtstats2 = httpstats2 := by decide
  have hform : asprintf_statstext v s
      = txtstats1 ++ (D ++ (httpstats2 ++ (v ++ bytes "\n" ++ s ++ bytes "\r\n"))) := by
    unfold asprintf_statstext
    rw [hD, h3, h2]
    simp only [List.append_assoc]
  have hlen : (v ++ bytes "\n" ++ s ++ bytes "\r\n").length = v.length + 1 + s.length + 2 := by
    have h1 : (bytes "\n").length = 1 := by decide
    have h4 : (bytes "\r\n").length = 2 := by decide
    simp only [List.length_append, h1, h4]
  have hsmall : v.length + 1 + s.length + 2 ≤ 2147483647 := by
    rw [hform] at hfit
    simp only [List.length_append] at hfit hlen
    omega
  rw [Nat.mod_eq_of_lt (by omega)] at hval
  rw [hform]
  constructor
  · unfold payload
    have hpat : bytes "\r\n\r\n" = [13, 10, 13, 10] := by decide
    rw [hpat, strstr_txtstats1_blank, strstr_digits D hall, strstr_stats2_blank]
    rfl
  · unfold content_length
    have hfind : strstr txtstats1 (bytes "Content-length: ") = some (bytes "Content-length: ") := by
      decide
    rw [strstr_append_some _ _ _ _ hfind]
    have hdrop : (bytes "Content-length: " ++ (D ++ (httpstats2 ++ (v ++ bytes "\n" ++ s ++ bytes "\r\n")))).drop 16
        = D ++ (httpstats2 ++ (v ++ bytes "\n" ++ s ++ bytes "\r\n")) := by
      have h16 : (bytes "Content-length: ").length = 16 := by decide
      rw [← h16, List.drop_left]
    have h2 : httpstats2 = 13 :: bytes "\nConnection: keep-alive\r\n\r\n" := by decide
    simp only [hdrop]
    rw [h2, List.cons_append, atoi_of_digits D _ hne hall (by rw [hval]; omega)
      (by rw [hval]; unfold INT_MAX; omega), hval, hlen]

theorem after_last_skip (c : Nat) (first rest : List Nat) (h : c ∉ first) :
    after_last c (first ++ c :: rest) = after_last c (c :: rest) := by
  induction first with
  | nil => rfl
  | cons x xs ih =>
    have hxs : c ∉ xs := fun e => h (by simp [e])
    have hmem : c ∈ xs ++ c :: rest := by simp
    rw [List.cons_append, after_last, if_pos hmem]
    exact ih hxs

theorem pem_file_name_plain (s : List Nat) (h : 46 ∉ s) : pem_file_name s = some s := by
  unfold pem_file_name
  rw [dot_loop_spec _ _ 0 none (Nat.lt_succ_self _)]
  have hc : s.count 46 = 0 := List.count_eq_zero_of_not_mem h
  simp [h, hc, wildcard_test]

theorem pem_file_name_dotted (first rest : List Nat) (hfirst : first ≠ []) (hlabel : 46 ∉ first) :
    pem_file_name (first ++ 46 :: rest)
      = (wildcard_test (1 + rest.count 46) (some (after_last 46 (46 :: rest)))).map
          (fun b => if b then 95 :: 46 :: rest else first ++ 46 :: rest) := by
  have hmem : 46 ∈ first ++ 46 :: rest := by simp
  have hlen : 0 < first.length := List.length_pos.mpr hfirst
  have hcount : (first ++ 46 :: rest).count 46 = 1 + rest.count 46 := by
    rw [List.count_append, List.count_eq_zero_of_not_mem hlabel, List.count_cons_self]
    omega
  have hoff : ¬ ((first ++ 46 :: rest).length - (46 :: rest).length = 0) := by
    simp only [List.length_append, List.length_cons]; omega
  unfold pem_file_name
  rw [dot_loop_spec _ _ 0 none (Nat.lt_succ_self _)]
  simp only [hmem, if_true, Nat.zero_add, hcount, after_last_skip 46 first rest hlabel,
    strchr_append first rest 46 hlabel]
  cases ht : wildcard_test (1 + rest.count 46) (some (after_last 46 (46 :: rest))) with
  | none => rfl
  | some b =>
    cases b with
    | true => simp only [if_neg hoff, Option.map_some', if_true]
    | false => simp

theorem pem_file_name_idem (s k : List Nat) (hs : s.head? ≠ some 46)
    (hk : pem_file_name s = some k) : pem_file_name k = some k := by
  by_cases hdot : 46 ∈ s
  · obtain ⟨first, rest, hsplit, hlabel⟩ := List.eq_append_cons_of_mem hdot
    have hfirst : first ≠ [] := by
      intro hnil
      apply hs
      rw [hsplit, hnil]
      rfl
    rw [hsplit, pem_file_name_dotted first rest hfirst hlabel] at hk
    cases ht : wildcard_test (1 + rest.count 46) (some (after_last 46 (46 :: rest))) with
    | none => rw [ht] at hk; simp at hk
    | some b =>
      rw [ht] at hk
      simp only [Option.map_some', Option.some.injEq] at hk
      cases b with
      | true =>
        simp only [if_true] at hk
        subst hk
        have h := pem_file_name_dotted [95] rest (by simp) (by decide)
        rw [ht] at h
        simpa using h
      | false =>
        simp only [Bool.false_eq_true, if_false] at hk
        subst hk
        rw [pem_file_name_dotted first rest hfirst hlabel, ht]
        simp
  · rw [pem_file_name_plain s hdot] at hk
    simp only [Option.some.injEq] at hk
    subst hk
    exact pem_file_name_plain s hdot

theorem pem_file_name_shared (first rest : List Nat) (hfirst : first ≠ []) (hlabel : 46 ∉ first)
    (hdots : 1 ≤ rest.count 46)
    (hip : rest.count 46 = 2 → ∃ v, atoi (after_last 46 rest) = some v ∧ v < 0) :
    pem_file_name (first ++ 46 :: rest) = some (95 :: 46 :: rest) := by
  rw [pem_file_name_dotted first rest hfirst hlabel]
  have hmem : 46 ∈ rest := List.count_pos_iff.mp (by omega)
  have hal : after_last 46 (46 :: rest) = after_last 46 rest := by
    rw [after_last, if_pos hmem]
  rw [hal]
  unfold wildcard_test
  rw [if_pos (by omega)]
  by_cases h3 : 1 + rest.count 46 = 3
  · obtain ⟨v, hv, hneg⟩ := hip (by omega)
    have hnn : ¬ (v ≥ 0) := by omega
    simp [h3, hv, hnn]
  · simp [h3]

theorem conn_handler_post_setup (g : Global) (c : Calls) (pd : response_struct)
    (bufptr : List Nat) (has_body : Bool) (body_len : Int) (hm : c.malloc_ok = true) :
    conn_handler_post g c pd bufptr has_body body_len
      = (post_setup g pd bufptr has_body body_len).bind (fun r =>
          (post_loop g c.recvs r.2).map (fun s =>
            ⟨{ pd with status := .SEND_POST, rx_total := s.rx_total }, http204, s.recv_len⟩)) := by
  unfold conn_handler_post post_setup
  cases h1 : strstr bufptr (bytes "Content-Length: ") with
  | none => rfl
  | some hd =>
    dsimp only
    cases h2 : (strtok (hd.drop 16) CRLF).1 with
    | none => rfl
    | some tok =>
      dsimp only
      cases h3 : atoi tok with
      | none => rfl
      | some length =>
        dsimp only
        simp only [hm, Bool.not_true, Bool.false_eq_true, if_false]
        by_cases h4 : g.select_timeout = 0
        · simp [h4]
        · simp only [if_neg h4, Option.some_bind]
          cases post_loop g c.recvs _ <;> rfl

/-! ## The claims -/

/-- C1 (as amended). For every GET request whose path is not taken by an earlier rule
(`/log=`, the two stats URLs, `/generate_204`), on which neither the access-log block (lines
731 to 754, run at verbosity `LGG_INFO` and above) nor the header scan of redirect decoding
(lines 914 to 922) meets undefined behaviour, and that does not end in a redirect: let `p` be
the path as the classifier finds it, which is the request path when redirect decoding did not
run and the twice-decoded path when it ran; let `seg` be `p` cut at the first of the
characters `? # ; =` and `ext` the part of `seg` from the last `.` that follows the last `/`.
Then `conn_handler` selects, ignoring letter case, `SEND_GIF` with `httpnullpixel` when `ext`
is `.gif`, `SEND_PNG` with `httpnull_png` when it is `.png`, `SEND_JPG` with `httpnull_jpg`
when it starts with `.jp`, `SEND_SWF` with `httpnull_swf` when it is `.swf`, `SEND_ICO` with
`httpnull_ico` when it is `.ico`, and `SEND_TXT` with `httpnulltext` when it starts with
`.js`. -/
theorem C1_extension_rules (g : Global) (c : Calls) (pd : response_struct)
    (buf path ext : List Nat) (bufptr : Option (List Nat))
    (hmethod : request_method buf = some (bytes "GET"))
    (hpath : request_path buf = some path)
    (hrule : earlier_rule g path = false)
    (hlog : access_log c buf (request_line buf).2 = some bufptr)
    (hurl : url_after_scan g path bufptr = some none)
    (hext : extension (cut_path (path_after_decode g path)) = some ext) :
    (ext.map tolower = bytes ".gif" →
      conn_handler_classify g c pd buf
        = some ⟨{ pd with rx_total := buf.length, status := .SEND_GIF }, httpnullpixel, 0⟩) ∧
    (ext.map tolower = bytes ".png" →
      conn_handler_classify g c pd buf
        = some ⟨{ pd with rx_total := buf.length, status := .SEND_PNG }, httpnull_png, 0⟩) ∧
    ((ext.take 3).map tolower = bytes ".jp" →
      conn_handler_classify g c pd buf
        = some ⟨{ pd with rx_total := buf.length, status := .SEND_JPG }, httpnull_jpg, 0⟩) ∧
    (ext.map tolower = bytes ".swf" →
      conn_handler_classify g c pd buf
        = some ⟨{ pd with rx_total := buf.length, status := .SEND_SWF }, httpnull_swf, 0⟩) ∧
    (ext.map tolower = bytes ".ico" →
      conn_handler_classify g c pd buf
        = some ⟨{ pd with rx_total := buf.length, status := .SEND_ICO }, httpnull_ico, 0⟩) ∧
    ((ext.take 3).map tolower = bytes ".js" →
      conn_handler_classify g c pd buf
        = some ⟨{ pd with rx_total := buf.length, status := .SEND_TXT }, httpnulltext, 0⟩) := by
  have hcut : cut_path (path_after_decode g path) ≠ [] := by
    intro h; rw [h] at hext; simp [extension] at hext
  rw [← first_segment_of_cut _ hcut] at hext
  rw [classify_ext g c pd buf path bufptr hmethod hpath hlog hrule hurl,
    ext_classifier_ext _ ext hext]
  simp only [map_tolower_take]
  generalize ext.map tolower = e
  refine ⟨?_, ?_, ?_, ?_, ?_, ?_⟩ <;> intro h
  · subst h; rfl
  · subst h; rfl
  · have h1 : e ≠ bytes ".gif" := by intro he; rw [he] at h; revert h; decide
    have h2 : e ≠ bytes ".png" := by intro he; rw [he] at h; revert h; decide
    simp [h, h1, h2]
  · subst h; rfl
  · subst h; rfl
  · have h1 : e ≠ bytes ".gif" := by intro he; rw [he] at h; revert h; decide
    have h2 : e ≠ bytes ".png" := by intro he; rw [he] at h; revert h; decide
    have h3 : e.take 3 ≠ bytes ".jp" := by rw [h]; decide
    have h4 : e ≠ bytes ".swf" := by intro he; rw [he] at h; revert h; decide
    have h5 : e ≠ bytes ".ico" := by intro he; rw [he] at h; revert h; decide
    have h6 : ¬ bytes ".js" = bytes ".jp" := by decide
    simp [h, h1, h2, h4, h5, h6]

/-- C1, witness: at verbosity `LGG_INFO`, `GET /track/pixel.gif` with the header `Host: x`
passes the access-log block, which leaves the header section as it was, and gives `SEND_GIF`
and the GIF response, whose body behind the blank line has 42 bytes. -/
theorem C1_extension_rules_witness :
    access_log info_calls (bytes "GET /track/pixel.gif HTTP/1.1\r\nHost: x\r\n\r\n")
        (request_line (bytes "GET /track/pixel.gif HTTP/1.1\r\nHost: x\r\n\r\n")).2
      = some (some (bytes "\nHost: x\r\n\r\n")) ∧
    conn_handler_classify default_global info_calls fresh_pipedata
        (bytes "GET /track/pixel.gif HTTP/1.1\r\nHost: x\r\n\r\n")
      = some ⟨{ fresh_pipedata with rx_total := 42, status := .SEND_GIF },
              httpnullpixel, 0⟩ ∧
    (strstr httpnullpixel (bytes "\r\n\r\n")).map (fun body => body.length - 4) = some 42 :=
  ⟨by decide,
   (C1_extension_rules default_global info_calls fresh_pipedata
      (bytes "GET /track/pixel.gif HTTP/1.1\r\nHost: x\r\n\r\n") (bytes "/track/pixel.gif")
      (bytes ".gif") (some (bytes "\nHost: x\r\n\r\n"))
      (by decide) (by decide) (by decide) (by decide) (by decide) (by decide)).1
      (by decide),
   by set_option maxRecDepth 100000 in decide⟩

/-- C1, counterexample: for `GET /a%3Fb.gif?u=http` no earlier rule applies, the access-log
block does not run, no redirect is sent, the request path cut at the first of `? # ; =` is
`/a%3Fb.gif` with the extension `.gif`, yet the status is `SEND_NO_EXT` with `httpnulltext`:
redirect decoding has turned the path into `/a?b.gif?u=http` before the classifier cuts
it. -/
theorem C1_counterexample :
    request_method (bytes "GET /a%3Fb.gif?u=http HTTP/1.1\r\n\r\n") = some (bytes "GET") ∧
    request_path (bytes "GET /a%3Fb.gif?u=http HTTP/1.1\r\n\r\n")
      = some (bytes "/a%3Fb.gif?u=http") ∧
    earlier_rule default_global (bytes "/a%3Fb.gif?u=http") = false ∧
    access_log no_calls (bytes "GET /a%3Fb.gif?u=http HTTP/1.1\r\n\r\n")
        (request_line (bytes "GET /a%3Fb.gif?u=http HTTP/1.1\r\n\r\n")).2
      = some (some (bytes "\n\r\n")) ∧
    url_after_scan default_global (bytes "/a%3Fb.gif?u=http") (some (bytes "\n\r\n"))
      = some none ∧
    extension (cut_path (bytes "/a%3Fb.gif?u=http")) = some (bytes ".gif") ∧
    conn_handler_classify default_global no_calls fresh_pipedata
        (bytes "GET /a%3Fb.gif?u=http HTTP/1.1\r\n\r\n")
      = some ⟨{ fresh_pipedata with rx_total := 34, status := .SEND_NO_EXT },
              httpnulltext, 0⟩ := by
  set_option maxRecDepth 100000 in decide

/-- C2 (as amended). For every GET request that reaches the extension classifier (no earlier
rule takes its path, neither the access-log block of lines 731 to 754 nor the header scan of
lines 914 to 922 meets undefined behaviour, and no redirect is sent), with `p` the path as
the classifier finds it (the request path, or the twice-decoded path when redirect decoding
ran) and `seg` the first run of characters of `p` that are not among `? # ; =` (leading
characters of that set are skipped, and `p` has a character outside the set): if `seg`
contains no `/` the status is `SEND_BAD_PATH`; otherwise if its last `/`-segment contains no
`.` the status is `SEND_NO_EXT`; otherwise if the extension matches none of the six rules the
status is `SEND_UNK_EXT`; in all three cases the response is `httpnulltext`. -/
theorem C2_no_known_extension (g : Global) (c : Calls) (pd : response_struct)
    (buf path : List Nat) (bufptr : Option (List Nat))
    (hmethod : request_method buf = some (bytes "GET"))
    (hpath : request_path buf = some path)
    (hrule : earlier_rule g path = false)
    (hlog : access_log c buf (request_line buf).2 = some bufptr)
    (hurl : url_after_scan g path bufptr = some none)
    (hseg : first_segment (path_after_decode g path) ≠ []) :
    (47 ∉ first_segment (path_after_decode g path) →
      conn_handler_classify g c pd buf
        = some ⟨{ pd with rx_total := buf.length, status := .SEND_BAD_PATH },
                httpnulltext, 0⟩) ∧
    (47 ∈ first_segment (path_after_decode g path) →
      46 ∉ after_last 47 (first_segment (path_after_decode g path)) →
      conn_handler_classify g c pd buf
        = some ⟨{ pd with rx_total := buf.length, status := .SEND_NO_EXT },
                httpnulltext, 0⟩) ∧
    (∀ ext, extension (first_segment (path_after_decode g path)) = some ext →
      ¬ known_extension ext →
      conn_handler_classify g c pd buf
        = some ⟨{ pd with rx_total := buf.length, status := .SEND_UNK_EXT },
                httpnulltext, 0⟩) := by
  rw [classify_ext g c pd buf path bufptr hmethod hpath hlog hrule hurl]
  refine ⟨?_, ?_, ?_⟩
  · intro h
    rw [ext_classifier_segment _ hseg, strrchr_spec, if_neg h]
    rfl
  · intro h1 h2
    rw [ext_classifier_segment _ hseg, strrchr_spec, if_pos h1]
    have : strrchr (47 :: after_last 47 (first_segment (path_after_decode g path))) 46
        = none := by
      rw [strrchr_spec, if_neg (by simp [h2])]
    simp only [this]
    rfl
  · intro ext hext hunk
    rw [ext_classifier_ext _ ext hext]
    simp only [known_extension, map_tolower_take, not_or] at hunk
    obtain ⟨h1, h2, h3, h4, h5, h6⟩ := hunk
    simp [h1, h2, h3, h4, h5, h6]

/-- C2, witness: `GET nopath` gives `SEND_BAD_PATH`, `GET /dir/file` gives `SEND_NO_EXT`, and
`GET /a/b.html?x=1`, sent with the header `Host: x` to a worker at verbosity `LGG_INFO`, gives
`SEND_UNK_EXT`, each with `httpnulltext`. -/
theorem C2_no_known_extension_witness :
    conn_handler_classify default_global no_calls fresh_pipedata (bytes "GET nopath HTTP/1.1\r\n\r\n")
      = some ⟨{ fresh_pipedata with rx_total := 23, status := .SEND_BAD_PATH },
              httpnulltext, 0⟩ ∧
    conn_handler_classify default_global no_calls fresh_pipedata (bytes "GET /dir/file HTTP/1.1\r\n\r\n")
      = some ⟨{ fresh_pipedata with rx_total := 26, status := .SEND_NO_EXT },
              httpnulltext, 0⟩ ∧
    conn_handler_classify default_global info_calls fresh_pipedata
        (bytes "GET /a/b.html?x=1 HTTP/1.1\r\nHost: x\r\n\r\n")
      = some ⟨{ fresh_pipedata with rx_total := 39, status := .SEND_UNK_EXT },
              httpnulltext, 0⟩ :=
  ⟨(C2_no_known_extension default_global no_calls fresh_pipedata
      (bytes "GET nopath HTTP/1.1\r\n\r\n") (bytes "nopath") (some (bytes "\n\r\n"))
      (by decide) (by decide) (by decide) (by decide) (by decide) (by decide)).1 (by decide),
   (C2_no_known_extension default_global no_calls fresh_pipedata
      (bytes "GET /dir/file HTTP/1.1\r\n\r\n") (bytes "/dir/file") (some (bytes "\n\r\n"))
      (by decide) (by decide) (by decide) (by decide) (by decide) (by decide)).2.1
      (by decide) (by decide),
   (C2_no_known_extension default_global info_calls fresh_pipedata
      (bytes "GET /a/b.html?x=1 HTTP/1.1\r\nHost: x\r\n\r\n") (bytes "/a/b.html?x=1")
      (some (bytes "\nHost: x\r\n\r\n"))
      (by decide) (by decide) (by decide) (by decide) (by decide) (by decide)).2.2
      (bytes ".html") (by decide) (by unfold known_extension; decide)⟩

/-- C2, counterexample: `GET ?/a.gif` has a path that, cut at the first of `? # ; =`, is
empty and so contains no `/`, yet the status is `SEND_GIF` with the GIF response, because
the classifier skips leading characters of the set; and `GET /a%2Egif?u=http` has the cut
path `/a%2Egif` with a `/` and no `.`, yet the status is `SEND_GIF` as well, because
redirect decoding has turned the path into `/a.gif?u=http`. -/
theorem C2_counterexample :
    (cut_path (bytes "?/a.gif") = [] ∧
      conn_handler_classify default_global no_calls fresh_pipedata (bytes "GET ?/a.gif HTTP/1.1\r\n\r\n")
        = some ⟨{ fresh_pipedata with rx_total := 24, status := .SEND_GIF },
                httpnullpixel, 0⟩) ∧
    (cut_path (bytes "/a%2Egif?u=http") = bytes "/a%2Egif" ∧
      46 ∉ bytes "/a%2Egif" ∧
      url_after_scan default_global (bytes "/a%2Egif?u=http")
        (some (request_line (bytes "GET /a%2Egif?u=http HTTP/1.1\r\n\r\n")).2) = some none ∧
      conn_handler_classify default_global no_calls fresh_pipedata
          (bytes "GET /a%2Egif?u=http HTTP/1.1\r\n\r\n")
        = some ⟨{ fresh_pipedata with rx_total := 32, status := .SEND_GIF },
                httpnullpixel, 0⟩) := by
  set_option maxRecDepth 100000 in decide

/-- C3, the failing input: the request `OPTIONS * HTTP/1.1` with the header line `Host: ` and
no value, read by a worker at verbosity `LGG_INFO` or above. Its method token is `OPTIONS`,
but the request has no defined classification: in the access-log block `strtok` (line 745)
finds no token behind `Host: ` and returns `NULL`, which line 747 hands to `strlen`, before
the method is read. Below `LGG_INFO` the same request gets `SEND_OPTIONS` with `httpoptions`,
and so does the request with the header `Host: x` at `LGG_INFO`. -/
theorem C3_empty_host_value :
    request_method (bytes "OPTIONS * HTTP/1.1\r\nHost: \r\n\r\n") = some (bytes "OPTIONS") ∧
    access_log info_calls (bytes "OPTIONS * HTTP/1.1\r\nHost: \r\n\r\n")
        (request_line (bytes "OPTIONS * HTTP/1.1\r\nHost: \r\n\r\n")).2 = none ∧
    conn_handler_classify default_global info_calls fresh_pipedata
        (bytes "OPTIONS * HTTP/1.1\r\nHost: \r\n\r\n") = none ∧
    conn_handler_classify default_global no_calls fresh_pipedata
        (bytes "OPTIONS * HTTP/1.1\r\nHost: \r\n\r\n")
      = some ⟨{ fresh_pipedata with rx_total := 30, status := .SEND_OPTIONS },
              httpoptions, 0⟩ ∧
    conn_handler_classify default_global info_calls fresh_pipedata
        (bytes "OPTIONS * HTTP/1.1\r\nHost: x\r\n\r\n")
      = some ⟨{ fresh_pipedata with rx_total := 31, status := .SEND_OPTIONS },
              httpoptions, 0⟩ := by
  set_option maxRecDepth 100000 in decide

/-- C4 (as amended). For every server name `first ++ "." ++ rest` whose first label `first`
is not empty, that has more than one dot, and that the test of line 440 does not exclude
(it does not have exactly three dots, or its trailing label `tld` has `atoi tld < 0`), the
key derived by `tls_servername_cb` is `_` followed by the name from its first dot on, the
dot included: `_.<rest-after-first-label>`. -/
theorem C4_wildcard_key_keeps_the_dot (first rest : List Nat)
    (hfirst : first ≠ []) (hlabel : 46 ∉ first)
    (hdots : 1 < (first ++ 46 :: rest).count 46)
    (hip : (first ++ 46 :: rest).count 46 = 3 →
      ∃ pre tld v, first ++ 46 :: rest = pre ++ 46 :: tld ∧ 46 ∉ tld ∧
        atoi tld = some v ∧ v < 0) :
    pem_file_name (first ++ 46 :: rest) = some (95 :: 46 :: rest) := by
  have hmem : 46 ∈ first ++ 46 :: rest := by simp
  have hlen : 0 < first.length := List.length_pos.mpr hfirst
  unfold pem_file_name
  rw [dot_loop_spec _ _ 0 none (Nat.lt_succ_self _)]
  simp only [hmem, if_true, Nat.zero_add, wildcard_test, gt_iff_lt, if_pos hdots,
    strchr_append first rest 46 hlabel]
  have hoff : ¬ ((first ++ 46 :: rest).length - (46 :: rest).length = 0) := by
    simp only [List.length_append, List.length_cons]; omega
  by_cases h3 : (first ++ 46 :: rest).count 46 = 3
  · obtain ⟨pre, tld, v, hs, htld, hv, hneg⟩ := hip h3
    have ht : after_last 46 (first ++ 46 :: rest) = tld := by
      rw [hs]; exact after_last_append 46 pre tld htld
    have hnn : ¬ (v ≥ 0) := by omega
    simp only [if_pos h3, ht, hv, Option.map_some', hnn, decide_False, Bool.not_false,
      if_neg hoff]
  · simp only [if_neg h3, if_neg hoff]

/-- C4, witness: `ads.example.com` has the key `_.example.com`. -/
theorem C4_wildcard_key_witness :
    pem_file_name (bytes "ads" ++ 46 :: bytes "example.com") = some (bytes "_.example.com") :=
  C4_wildcard_key_keeps_the_dot (bytes "ads") (bytes "example.com") (by decide) (by decide)
    (by decide) (fun h => absurd h (by decide))

/-- C4, counterexample: the key of `ads.example.com` is `_.example.com`, not `_example.com`. -/
theorem C4_counterexample :
    pem_file_name (bytes "ads.example.com") = some (bytes "_.example.com") ∧
      pem_file_name (bytes "ads.example.com") ≠ some (bytes "_example.com") := by
  decide

/-- C5, the failing input: `www.ads.example.com` has exactly three dots and the trailing
label `com`, which is not a number; `atoi` gives 0 for it, the test `atoi(tld) >= 0`
succeeds, and the name is kept unchanged instead of being rewritten to the wildcard form. -/
theorem C5_three_dots_never_wildcard :
    atoi (bytes "com") = some 0 ∧
      pem_file_name (bytes "www.ads.example.com") = some (bytes "www.ads.example.com") ∧
      pem_file_name (bytes "a.b.c.1") = some (bytes "a.b.c.1") ∧
      pem_file_name (bytes "example.com") = some (bytes "example.com") := by
  decide

/-- C6 (as amended). For every server name (the SNI name, or the local address when the
client sent none) and PEM directory such that `pem_dir ++ "/" ++ key` and its NUL fit the
`PIXELSERV_MAX_PATH` bytes of `full_pem_path`, where `key` is the key derived from the name
as `strncpy` copied it, and such that the name is shorter than `PIXELSERV_MAX_SERVER_NAME`
bytes or the miss pipe cannot be opened: `tls_servername_cb` passes `pem_dir ++ "/" ++ key`
to `stat`; when that file does not exist it sets the outcome to `SSL_MISS` and returns the
fatal alert result; it writes `key` followed by one `:` to the miss pipe when the pipe can be
opened, and writes nothing when it cannot. -/
theorem C6_miss_report (w : tls_world) (pem_dir : List Nat) (sni : Option (List Nat))
    (server_ip key : List Nat)
    (hkey : pem_file_name ((sni.getD server_ip).take w.PIXELSERV_MAX_SERVER_NAME) = some key)
    (hpath : (pem_dir ++ bytes "/" ++ key).length < w.PIXELSERV_MAX_PATH)
    (hname : (sni.getD server_ip).length < w.PIXELSERV_MAX_SERVER_NAME ∨ w.open_ok = false)
    (habsent : w.stat_ok (pem_dir ++ bytes "/" ++ key) = false) :
    tls_servername_cb w pem_dir sni server_ip
      = some { rv := .SSL_TLSEXT_ERR_ALERT_FATAL, status := .SSL_MISS,
               full_pem_path := pem_dir ++ bytes "/" ++ key,
               pipe_write := if w.open_ok then some (key ++ bytes ":") else none } := by
  have h2 : w.stat_ok (pem_dir ++ 47 :: key) = false := by simpa [bytes] using habsent
  have h3 : pem_dir.length + (key.length + 1) + 1 ≤ w.PIXELSERV_MAX_PATH := by
    simp only [bytes, List.length_append] at hpath
    simp at hpath
    omega
  cases sni with
  | none =>
    simp only [Option.getD_none] at hkey hname
    cases ho : w.open_ok with
    | true =>
      have h4 : min w.PIXELSERV_MAX_SERVER_NAME server_ip.length + 1
          ≤ w.PIXELSERV_MAX_SERVER_NAME := by
        rcases hname with hn | hn
        · omega
        · rw [hn] at ho; exact absurd ho (by simp)
      simp [tls_servername_cb, hkey, h2, h3, h4, ho, bytes]
    | false => simp [tls_servername_cb, hkey, h2, h3, ho, bytes]
  | some name =>
    simp only [Option.getD_some] at hkey hname
    cases ho : w.open_ok with
    | true =>
      have h4 : min w.PIXELSERV_MAX_SERVER_NAME name.length + 1
          ≤ w.PIXELSERV_MAX_SERVER_NAME := by
        rcases hname with hn | hn
        · omega
        · rw [hn] at ho; exact absurd ho (by simp)
      simp [tls_servername_cb, hkey, h2, h3, h4, ho, bytes]
    | false => simp [tls_servername_cb, hkey, h2, h3, ho, bytes]

/-- C6, witness: the first connection for `ads.example.com` with an empty store and a miss
pipe that opens writes the record `_.example.com:`. -/
theorem C6_miss_report_witness :
    tls_servername_cb (empty_store true) (bytes "/opt/var/cache/pixelserv")
        (some (bytes "ads.example.com")) (bytes "192.168.1.1")
      = some { rv := .SSL_TLSEXT_ERR_ALERT_FATAL, status := .SSL_MISS,
               full_pem_path := bytes "/opt/var/cache/pixelserv/_.example.com",
               pipe_write := some (bytes "_.example.com:") } :=
  C6_miss_report (empty_store true) (bytes "/opt/var/cache/pixelserv")
    (some (bytes "ads.example.com")) (bytes "192.168.1.1") (bytes "_.example.com")
    (by decide) (by decide) (Or.inl (by decide)) (by decide)

/-- C6, counterexample: when the miss pipe cannot be opened, the PEM file being absent,
nothing is written to the miss channel (the outcome is still `SSL_MISS` with a fatal
alert). -/
theorem C6_counterexample :
    tls_servername_cb (empty_store false) (bytes "/opt/var/cache/pixelserv")
        (some (bytes "ads.example.com")) (bytes "192.168.1.1")
      = some { rv := .SSL_TLSEXT_ERR_ALERT_FATAL, status := .SSL_MISS,
               full_pem_path := bytes "/opt/var/cache/pixelserv/_.example.com",
               pipe_write := none } := by
  decide

/-- C7 (as amended). For every GET path that reaches redirect decoding, with `p` its
twice-decoded form: if `http://` begins at some position of `p` behind the first byte, the URL
chosen is the suffix of `p` at the last position where `http://` begins, also when an
`https://` begins further right; if `http://` begins nowhere in `p` and `https://` begins at
some position behind the first byte, the URL chosen is the suffix of `p` at the last position
where `https://` begins. -/
theorem C7_url_is_last_http_else_last_https (path : List Nat) :
    (∀ j, 1 ≤ j → bytes "http://" <+: (double_decode path).drop j →
      ∃ i, last_inner_occurrence (bytes "http://") (double_decode path) i ∧
        find_url (double_decode path) = some ((double_decode path).drop i)) ∧
    ((∀ j, ¬ bytes "http://" <+: (double_decode path).drop j) →
      ∀ j, 1 ≤ j → bytes "https://" <+: (double_decode path).drop j →
      ∃ i, last_inner_occurrence (bytes "https://") (double_decode path) i ∧
        find_url (double_decode path) = some ((double_decode path).drop i)) := by
  generalize double_decode path = p
  have hH : bytes "http://" ≠ [] := by decide
  have hS : bytes "https://" ≠ [] := by decide
  constructor
  · intro j hj hocc
    rcases strstr_last_spec p (bytes "http://") hH with ⟨_, hnone⟩ | ⟨i, hi, hres, hp, hlast⟩
    · exact absurd hocc (hnone j hj)
    · exact ⟨i, ⟨hi, hp, hlast⟩, by simp only [find_url, hres]⟩
  · intro hno j hj hocc
    rcases strstr_last_spec p (bytes "http://") hH with ⟨hnone, _⟩ | ⟨i, _, _, hp, _⟩
    · rcases strstr_last_spec p (bytes "https://") hS with ⟨_, hn2⟩ | ⟨i, hi, hres, hp, hlast⟩
      · exact absurd hocc (hn2 j hj)
      · exact ⟨i, ⟨hi, hp, hlast⟩, by simp only [find_url, hnone, hres]⟩
    · exact absurd hp (hno i)

/-- C7, witness: in `/click?u=http://ad/r?dest=http://target` (given twice encoded) the last
`http://` begins at position 26, and the URL chosen is `http://target`. -/
theorem C7_url_witness :
    ∃ i, last_inner_occurrence (bytes "http://")
          (double_decode (bytes "/click?u=http%253A%252F%252Fad%252Fr?dest=http%253A%252F%252Ftarget")) i ∧
      find_url (double_decode (bytes "/click?u=http%253A%252F%252Fad%252Fr?dest=http%253A%252F%252Ftarget"))
        = some ((double_decode
            (bytes "/click?u=http%253A%252F%252Fad%252Fr?dest=http%253A%252F%252Ftarget")).drop i) :=
  (C7_url_is_last_http_else_last_https
    (bytes "/click?u=http%253A%252F%252Fad%252Fr?dest=http%253A%252F%252Ftarget")).1 26
    (by decide) (by decide)

/-- C7, counterexample: the path `/c?a=http://x/?b=https://y` (given twice encoded) reaches
redirect decoding; the last protocol marker of its decoded form is the `https://` of
`https://y`, but the URL chosen starts at the last `http://`, and the redirect goes to
`http://x/?b=https://y`. -/
theorem C7_counterexample :
    wants_decode default_global
        (bytes "/c?a=http%253A%252F%252Fx%252F%253Fb%253Dhttps%253A%252F%252Fy") = true ∧
      double_decode (bytes "/c?a=http%253A%252F%252Fx%252F%253Fb%253Dhttps%253A%252F%252Fy")
        = bytes "/c?a=http://x/?b=https://y" ∧
      last_marker_suffix (bytes "/c?a=http://x/?b=https://y") = some (bytes "https://y") ∧
      find_url (bytes "/c?a=http://x/?b=https://y") = some (bytes "http://x/?b=https://y") ∧
      (conn_handler_classify default_global no_calls fresh_pipedata
          (bytes ("GET /c?a=http%253A%252F%252Fx%252F%253Fb%253Dhttps%253A%252F%252Fy"
            ++ " HTTP/1.1\r\n\r\n"))).map (fun s => (s.pipedata.status, s.response))
        = some (.SEND_REDIRECT, asprintf_redirect (bytes "http://x/?b=https://y")) := by
  set_option maxRecDepth 100000 in decide

/-- C8 (as amended). For every URL `u` that starts with `http://` or `https://`, has no
further occurrence of either marker and no space, CR, LF or NUL byte: a GET request with
redirect decoding enabled, whose path is `/r?u=` followed by `u` percent-encoded twice
(letters and digits left as they are, `%` always encoded), whose path is not one of the two
configured stats URLs, whose headers are well formed (each has a name that is not empty and
has no `:`, neither name nor value contains CR, LF or NUL, and the value is not empty when
the name contains `Referer`), among them none with a name that contains `Referer` and a
value that contains `u`, and on which the access-log block (lines 731 to 754, run at
verbosity `LGG_INFO` and above) meets no undefined behaviour, gets the status `SEND_REDIRECT`
and the response `httpredirect` with `u` in the place of `%s`. -/
theorem C8_redirect_of_encoded_url (g : Global) (c : Calls) (pd : response_struct)
    (upper : Bool) (reserved : Nat → Bool) (u : List Nat)
    (headers : List (List Nat × List Nat))
    (hdo : g.do_redirect = true)
    (hstats : g.stats_url ≠ redirect_path upper reserved u)
    (hstats2 : g.stats_text_url ≠ redirect_path upper reserved u)
    (hpct : reserved 37 = true)
    (halnum : ∀ b, (48 ≤ b ∧ b ≤ 57) ∨ (65 ≤ b ∧ b ≤ 90) ∨ (97 ≤ b ∧ b ≤ 122) →
      reserved b = false)
    (hbytes : ∀ b ∈ u, b < 256)
    (hclean : ∀ b ∈ u, b ≠ 32 ∧ b ≠ 13 ∧ b ≠ 10 ∧ b ≠ 0)
    (hmarker : bytes "http://" <+: u ∨ bytes "https://" <+: u)
    (hsingle : single_marker u)
    (hok : ∀ h ∈ headers, header_ok h)
    (hnoref : ∀ h ∈ headers, ¬ (bytes "Referer" <:+: h.1 ∧ u <:+: h.2))
    (hlog : access_log c (http_get (redirect_path upper reserved u) headers)
      (request_line (http_get (redirect_path upper reserved u) headers)).2 ≠ none) :
    conn_handler_classify g c pd (http_get (redirect_path upper reserved u) headers)
      = some ⟨{ pd with rx_total := (http_get (redirect_path upper reserved u) headers).length,
                        status := .SEND_REDIRECT },
              asprintf_redirect u, 0⟩ := by
  obtain ⟨hpath, hdecode, hdd⟩ :=
    redirect_path_facts g upper reserved u hdo hpct halnum hbytes hclean hmarker
  obtain ⟨hline, hmethod, hreqpath⟩ := http_get_parse _ headers hpath hok
  obtain ⟨bufptr, hbufptr⟩ := Option.ne_none_iff_exists'.mp hlog
  have hsame : bufptr = some (10 :: (render_headers headers ++ CRLF)) := by
    have h := hbufptr
    rw [hline] at h
    exact access_log_headers c _ headers hok bufptr h
  have hfind : find_url (double_decode (redirect_path upper reserved u)) = some u := by
    rw [hdd]; exact find_url_r u hmarker hsingle
  have hurl : url_after_scan g (redirect_path upper reserved u) bufptr = some (some u) := by
    rw [hsame, url_after_scan_headers g _ u headers hok hdecode hfind]
    have hno : ¬ ∃ h ∈ headers, bytes "Referer" <:+: h.1 ∧ u <:+: h.2 :=
      fun ⟨h, hm, hh⟩ => hnoref h hm hh
    rw [if_neg hno]
  have hrule : earlier_rule g (redirect_path upper reserved u) = false :=
    earlier_rule_r g _ hstats hstats2
  rw [classify_get g c pd _ _ bufptr hmethod hreqpath hbufptr]
  exact get_branch_redirect g c _ _ _ u hrule hurl

/-- C8, witness: `GET /r?u=http%253A%252F%252Fexample.com%252Fnext` with the header
`Host: x`, read by a worker at verbosity `LGG_INFO`, is redirected to
`http://example.com/next`. -/
theorem C8_redirect_witness :
    http_get (redirect_path true url_reserved (bytes "http://example.com/next"))
        [(bytes "Host", bytes " x")]
      = bytes ("GET /r?u=http%253A%252F%252Fexample.com%252Fnext HTTP/1.1\r\n"
          ++ "Host: x\r\n\r\n") ∧
    conn_handler_classify default_global info_calls fresh_pipedata
        (http_get (redirect_path true url_reserved (bytes "http://example.com/next"))
          [(bytes "Host", bytes " x")])
      = some ⟨{ fresh_pipedata with rx_total := 70, status := .SEND_REDIRECT },
              bytes "HTTP/1.1 307 Temporary Redirect\r\nLocation: http://example.com/next\r\n"
                ++ bytes "Content-type: text/plain\r\nContent-length: 0\r\n"
                ++ bytes "Connection: keep-alive\r\n\r\n", 0⟩ :=
  ⟨by decide,
   C8_redirect_of_encoded_url default_global info_calls fresh_pipedata true url_reserved
     (bytes "http://example.com/next") [(bytes "Host", bytes " x")]
     rfl (by decide) (by decide) rfl url_reserved_alnum
     (by decide) (by decide) (Or.inl (by decide)) (single_marker_of_check _ (by decide))
     (by intro h hh; rw [List.mem_singleton] at hh; subst hh; unfold header_ok; decide)
     (by intro h hh; rw [List.mem_singleton] at hh; subst hh; decide)
     (by set_option maxRecDepth 100000 in decide)⟩

/-- C8, counterexample: the request for `/r?u=http%253A%252F%252Fexample.com%252Fnext` gets
`SEND_STATS` when that path is the configured stats URL, and it gets `SEND_NO_EXT` with
`httpnulltext` when it carries the header `X-Referer: http://example.com/next`, which is not
a Referer header. -/
theorem C8_counterexample :
    (conn_handler_classify { default_global with
                  stats_url := bytes "/r?u=http%253A%252F%252Fexample.com%252Fnext" }
        no_calls fresh_pipedata
        (bytes "GET /r?u=http%253A%252F%252Fexample.com%252Fnext HTTP/1.1\r\n\r\n")).map
        (fun s => s.pipedata.status) = some .SEND_STATS ∧
    conn_handler_classify default_global no_calls fresh_pipedata
        (bytes ("GET /r?u=http%253A%252F%252Fexample.com%252Fnext HTTP/1.1\r\n"
          ++ "X-Referer: http://example.com/next\r\n\r\n"))
      = some ⟨{ fresh_pipedata with rx_total := 97, status := .SEND_NO_EXT },
              httpnulltext, 0⟩ := by
  set_option maxRecDepth 100000 in decide

/-- C9. The round trip of `urldecode`: for every byte string `u` without NUL bytes,
decoding twice what percent-encoding twice made of `u` gives `u` back, for every choice of
the set of encoded bytes that contains `%` and for both cases of the hexadecimal digits.
This holds for the plain composition of the two `urldecode` calls and for the double decode
as `conn_handler` performs it, where each result is read back as a C string. -/
theorem C9_urldecode_round_trip (upper : Bool) (reserved : Nat → Bool)
    (hpct : reserved 37 = true) (u : List Nat) (hbytes : ∀ b ∈ u, b < 256)
    (hnul : ∀ b ∈ u, b ≠ 0) :
    urldecode (urldecode (encode_twice upper reserved u)) = u ∧
      double_decode (encode_twice upper reserved u) = u :=
  round_trip upper reserved hpct u hbytes hnul

/-- C9, witness: `http://example.com/next` encoded twice is
`http%253A%252F%252Fexample.com%252Fnext`, and decoding that twice gives the URL back. -/
theorem C9_urldecode_round_trip_witness :
    encode_twice true url_reserved (bytes "http://example.com/next")
        = bytes "http%253A%252F%252Fexample.com%252Fnext" ∧
      urldecode (urldecode (encode_twice true url_reserved (bytes "http://example.com/next")))
        = bytes "http://example.com/next" ∧
      double_decode (encode_twice true url_reserved (bytes "http://example.com/next"))
        = bytes "http://example.com/next" :=
  ⟨by decide,
   C9_urldecode_round_trip true url_reserved (by decide) (bytes "http://example.com/next")
     (by decide) (by decide)⟩

/-- C10 (as amended). For every GET request whose path is `/r?u=` followed by an encoded URL,
is not one of the two configured stats URLs, and is redirected to the URL `t` when the
request is sent without headers, whose headers are well formed (each has a name that is not
empty and has no `:`, neither name nor value contains CR, LF or NUL, and the value is not
empty when the name contains `Referer`), and on which the access-log block (lines 731 to 754,
run at verbosity `LGG_INFO` and above) meets no undefined behaviour: if the request carries a
header whose name contains `Referer` and whose value contains `t`, no redirect is sent; the
extension classifier gives `SEND_NO_EXT` with `httpnulltext`, and once that reply is written
without error the stats collector counts the request under the `nfe` counter, leaving `ufe`
as it was. -/
theorem C10_self_referer_suppression (g : Global) (c : Calls) (pd : response_struct)
    (st : Stats) (e t : List Nat) (headers : List (List Nat × List Nat)) (rv : Int)
    (hstats : g.stats_url ≠ bytes "/r?u=" ++ e)
    (hstats2 : g.stats_text_url ≠ bytes "/r?u=" ++ e)
    (hpath : path_ok (bytes "/r?u=" ++ e))
    (hplain : conn_handler_classify g c pd (http_get (bytes "/r?u=" ++ e) [])
      = some ⟨{ pd with rx_total := (http_get (bytes "/r?u=" ++ e) []).length,
                        status := .SEND_REDIRECT },
              asprintf_redirect t, 0⟩)
    (hok : ∀ h ∈ headers, header_ok h)
    (hlog : access_log c (http_get (bytes "/r?u=" ++ e) headers)
      (request_line (http_get (bytes "/r?u=" ++ e) headers)).2 ≠ none)
    (href : ∃ h ∈ headers, bytes "Referer" <:+: h.1 ∧ t <:+: h.2) :
    ∃ sel, conn_handler_classify g c pd (http_get (bytes "/r?u=" ++ e) headers) = some sel ∧
      sel.pipedata.status = .SEND_NO_EXT ∧ sel.response = httpnulltext ∧
      (main_collect st (conn_handler_reply sel.pipedata (.sent rv))).nfe = st.nfe + 1 ∧
      (main_collect st (conn_handler_reply sel.pipedata (.sent rv))).ufe = st.ufe := by
  have hrule : earlier_rule g (bytes "/r?u=" ++ e) = false := earlier_rule_r g e hstats hstats2
  obtain ⟨hdecode, hfind⟩ := redirect_without_headers g c pd e t hrule hpath hplain
  obtain ⟨hline, hmethod, hreqpath⟩ := http_get_parse _ headers hpath hok
  obtain ⟨bufptr, hbufptr⟩ := Option.ne_none_iff_exists'.mp hlog
  have hsame : bufptr = some (10 :: (render_headers headers ++ CRLF)) := by
    have h := hbufptr
    rw [hline] at h
    exact access_log_headers c _ headers hok bufptr h
  have hurl : url_after_scan g (bytes "/r?u=" ++ e) bufptr = some none := by
    rw [hsame, url_after_scan_headers g _ t headers hok hdecode hfind, if_pos href]
  have hsel : conn_handler_classify g c pd (http_get (bytes "/r?u=" ++ e) headers)
      = some ⟨{ pd with rx_total := (http_get (bytes "/r?u=" ++ e) headers).length,
                        status := .SEND_NO_EXT },
              httpnulltext, 0⟩ := by
    rw [classify_get g c pd _ _ bufptr hmethod hreqpath hbufptr,
      get_branch_ext g c _ _ _ hrule hurl]
    obtain ⟨x, hx⟩ := path_after_decode_r g e
    rw [hx, ext_classifier_r]
    rfl
  refine ⟨_, hsel, rfl, rfl, ?_, ?_⟩
  · exact (collect_no_ext st _ rv rfl).1
  · exact (collect_no_ext st _ rv rfl).2

/-- C10, witness: the request for `/r?u=http%253A%252F%252Fexample.com%252Fnext` with the
header `Referer: http://example.com/next`, read by a worker at verbosity `LGG_INFO`, is not
redirected; it gets `SEND_NO_EXT`, and when the 151 bytes of the reply are written the
collector counts it under `nfe`. -/
theorem C10_self_referer_witness :
    http_get (bytes "/r?u=" ++ bytes "http%253A%252F%252Fexample.com%252Fnext")
        [(bytes "Referer", bytes " http://example.com/next")]
      = bytes ("GET /r?u=http%253A%252F%252Fexample.com%252Fnext HTTP/1.1\r\n"
          ++ "Referer: http://example.com/next\r\n\r\n") ∧
    ∃ sel, conn_handler_classify default_global info_calls fresh_pipedata
        (http_get (bytes "/r?u=" ++ bytes "http%253A%252F%252Fexample.com%252Fnext")
          [(bytes "Referer", bytes " http://example.com/next")]) = some sel ∧
      sel.pipedata.status = .SEND_NO_EXT ∧ sel.response = httpnulltext ∧
      (main_collect zero_stats (conn_handler_reply sel.pipedata (.sent 151))).nfe
        = zero_stats.nfe + 1 ∧
      (main_collect zero_stats (conn_handler_reply sel.pipedata (.sent 151))).ufe
        = zero_stats.ufe :=
  ⟨by decide,
   C10_self_referer_suppression default_global info_calls fresh_pipedata zero_stats
     (bytes "http%253A%252F%252Fexample.com%252Fnext") (bytes "http://example.com/next")
     [(bytes "Referer", bytes " http://example.com/next")] 151
     (by decide) (by decide) (by unfold path_ok; decide)
     (by set_option maxRecDepth 100000 in decide)
     (by intro h hh; rw [List.mem_singleton] at hh; subst hh; unfold header_ok; decide)
     (by set_option maxRecDepth 100000 in decide)
     ⟨(bytes "Referer", bytes " http://example.com/next"), by simp, by decide, by decide⟩⟩

/-- C10, counterexample: for the request with the header `Referer: http://example.com/next`
the status is `SEND_NO_EXT`; when the reply is written the collector adds one to `nfe` and
leaves `ufe` at zero, and `ufe` stays at zero as well when the write fails. -/
theorem C10_counterexample :
    (conn_handler_classify default_global no_calls fresh_pipedata
        (bytes ("GET /r?u=http%253A%252F%252Fexample.com%252Fnext HTTP/1.1\r\n"
          ++ "Referer: http://example.com/next\r\n\r\n"))).map
      (fun s => (s.pipedata.status,
        (main_collect zero_stats (conn_handler_reply s.pipedata (.sent 151))).nfe,
        (main_collect zero_stats (conn_handler_reply s.pipedata (.sent 151))).ufe,
        (main_collect zero_stats (conn_handler_reply s.pipedata .peer_gone)).ufe,
        (main_collect zero_stats (conn_handler_reply s.pipedata .failed)).ufe))
      = some (.SEND_NO_EXT, 1, 0, 0, 0) := by
  set_option maxRecDepth 100000 in decide

/-- C11. A complete pipe message whose status is below `ACTION_LOG_VERB` makes
the collector add one to the counter of that status and one to `count`, and leave the
counter of every other status and `kcc` as they were. -/
theorem C11_status_counters (st : Stats) (pd : response_struct)
    (h : pd.status.toNat < response_enum.ACTION_LOG_VERB.toNat) :
    (∀ s, status_counter (main_collect st pd) s
        = status_counter st s + if s = pd.status then 1 else 0) ∧
      (main_collect st pd).count = st.count + 1 ∧ (main_collect st pd).kcc = st.kcc := by
  refine ⟨?_, ?_, ?_⟩
  · intro s
    unfold main_collect
    rw [status_counter_count_totals, status_counter_count_ssl,
      status_counter_count_status st pd s h]
  · unfold main_collect
    rw [count_totals_count, if_pos h, (count_ssl_kcc_count _ pd).2,
      (count_status_kcc_count st pd).2]
  · rw [main_collect_kcc, if_neg]
    intro hs
    rw [hs] at h
    exact absurd h (by decide)

/-- C11, witness: a `SEND_OPTIONS` message of a TLS connection takes `opt` and `count` from
0 to 1 and leaves `gif`, `err` and `kcc` at 0. -/
theorem C11_status_counters_witness :
    (main_collect zero_stats
        { status := .SEND_OPTIONS, ssl := .SSL_HIT, rx_total := 22, krq := 0, verb := 0 }).opt = 1 ∧
      (main_collect zero_stats
        { status := .SEND_OPTIONS, ssl := .SSL_HIT, rx_total := 22, krq := 0, verb := 0 }).gif = 0 ∧
      (main_collect zero_stats
        { status := .SEND_OPTIONS, ssl := .SSL_HIT, rx_total := 22, krq := 0, verb := 0 }).err = 0 ∧
      (main_collect zero_stats
        { status := .SEND_OPTIONS, ssl := .SSL_HIT, rx_total := 22, krq := 0, verb := 0 }).count = 1 ∧
      (main_collect zero_stats
        { status := .SEND_OPTIONS, ssl := .SSL_HIT, rx_total := 22, krq := 0, verb := 0 }).kcc = 0 :=
  have h := C11_status_counters zero_stats
    { status := .SEND_OPTIONS, ssl := .SSL_HIT, rx_total := 22, krq := 0, verb := 0 } (by decide)
  ⟨h.1 .SEND_OPTIONS, h.1 .SEND_GIF, h.1 .FAIL_GENERAL, h.2.1, h.2.2⟩

/-- C12. With `max_num_threads > 0` and `kcc = 0` at the start, `kcc` is at most
`max_num_threads` after every sequence of passes of the dispatcher loop, whatever they
service; and a connection accepted while `kcc >= max_num_threads` creates no worker, adds
one to `clt` and changes no other counter, `kcc` included. -/
theorem C12_admission_control (USE_PTHREAD : Bool) (max_num_threads : Int) (d : Dispatcher)
    (hmax : 0 < max_num_threads) (hkcc : d.stats.kcc = 0) :
    (∀ ws, (main_loop USE_PTHREAD max_num_threads d ws).stats.kcc ≤ max_num_threads) ∧
      (∀ (d1 : Dispatcher) (handshake : Option (Bool × ssl_enum)) (created : Bool),
        d1.stats.kcc ≥ max_num_threads →
        main_step USE_PTHREAD max_num_threads d1 (.listener (.connection handshake created))
          = ({ d1 with clt := d1.clt + 1 }, false)) := by
  refine ⟨?_, ?_⟩
  · intro ws
    exact main_loop_kcc_le USE_PTHREAD max_num_threads ws d (by omega)
  · intro d1 handshake created h
    simp only [main_step, if_pos h]

/-- C12, witness: with room for two workers, three connections in a row leave `kcc` at 2,
and the third one is turned away with `clt` going from 0 to 1. -/
theorem C12_admission_control_witness :
    (main_loop true 2 zero_dispatcher
        [.listener (.connection none true), .listener (.connection none true),
         .listener (.connection none true)]).stats.kcc ≤ 2 ∧
      main_step true 2 (main_loop true 2 zero_dispatcher
          [.listener (.connection none true), .listener (.connection none true)])
          (.listener (.connection none true))
        = ({ main_loop true 2 zero_dispatcher
              [.listener (.connection none true), .listener (.connection none true)]
            with clt := 1 }, false) :=
  ⟨(C12_admission_control true 2 zero_dispatcher (by decide) rfl).1 _,
   (C12_admission_control true 2 zero_dispatcher (by decide) rfl).2 _ none true (by decide)⟩

/-- C13, the failing input: in the build without `USE_PTHREAD`, a pass that accepts a connection
and whose `fork` fails creates no worker and still adds one to `kcc` (and to `kmx`): no
`ACTION_DEC_KCC` message will take it back. The build with `USE_PTHREAD` leaves `kcc` as it
was when `pthread_create` fails. -/
theorem C13_failed_fork_is_counted :
    main_step false 8 zero_dispatcher (.listener (.connection none false))
        = ({ zero_dispatcher with stats := { zero_stats with kcc := 1 }, kmx := 1 }, false) ∧
      main_step true 8 zero_dispatcher (.listener (.connection none false))
        = (zero_dispatcher, false) := by
  constructor <;> decide

/-- C14, the failing input: a worker whose first request is `POST / HTTP/1.1` without a
`Content-Length` header meets undefined behaviour while it classifies the request (line 773
hands `strtok` the pointer `NULL + 16`): one request was received and the worker writes no
message, neither the one of the request nor the final `ACTION_DEC_KCC`. -/
theorem C14_no_message_after_bad_post :
    conn_handler default_global .SSL_UNKNOWN none
        [.data (bare_request "POST / HTTP/1.1") no_calls (.sent 86), .zero]
      = ⟨[], .undefined⟩ := by
  set_option maxRecDepth 100000 in decide

/-- C15, the failing inputs: a worker whose read fails with `ECONNRESET`, and a worker whose reads
time out until `wait_cnt` is 1 (six times with the default settings), write the final
`ACTION_DEC_KCC` message and nothing before it; after a served request nothing stands
between the message of the request and `ACTION_DEC_KCC` either. No message has the status
`FAIL_CLOSED` or `FAIL_TIMEOUT`. -/
theorem C15_no_status_for_reset_or_timeout :
    statuses (conn_handler default_global .SSL_UNKNOWN none [.error true])
        = [.ACTION_DEC_KCC] ∧
      statuses (conn_handler default_global .SSL_UNKNOWN none (List.replicate 6 (.error false)))
        = [.ACTION_DEC_KCC] ∧
      statuses (conn_handler default_global .SSL_UNKNOWN none
          [.data (bare_request "GET /a.gif HTTP/1.1") no_calls (.sent 130), .error true])
        = [.SEND_GIF, .ACTION_DEC_KCC] := by
  set_option maxRecDepth 100000 in decide

/-- C16, the failing input: on a TLS connection whose handshake ended with `SSL_HIT` and whose
first read returns zero, the worker writes one message, the final `ACTION_DEC_KCC`, and its
TLS outcome is the zero value that `memset` left, not the `SSL_HIT_CLS` stored at line 698:
the collector adds to `slc` only if that zero value is itself `SSL_HIT_CLS`. -/
theorem C16_hit_cls_is_wiped (ssl_zero : ssl_enum) :
    conn_handler default_global ssl_zero (some .SSL_HIT) [.zero]
        = ⟨[{ status := .ACTION_DEC_KCC, ssl := ssl_zero, rx_total := 0, krq := 0, verb := 0 }],
            .done⟩ ∧
      (main_collect zero_stats
          { status := .ACTION_DEC_KCC, ssl := ssl_zero, rx_total := 0, krq := 0, verb := 0 }).slc
        = if ssl_zero = .SSL_HIT_CLS then 1 else 0 := by
  cases ssl_zero <;> decide

/-- C17, the failing input: the request `POST / HTTP/1.1` without a `Content-Length` header has no
defined classification: `strstr` returns `NULL`, and line 773 hands `strtok` the pointer
`NULL + 16`. With the header `Content-Length: 0` the same request gets `SEND_POST` and the
`http204` response. -/
theorem C17_post_without_content_length :
    conn_handler_classify default_global no_calls fresh_pipedata
        (bare_request "POST / HTTP/1.1") = none ∧
      conn_handler_classify default_global no_calls fresh_pipedata
          (bytes "POST / HTTP/1.1\r\nContent-Length: 0\r\n\r\n")
        = some ⟨{ fresh_pipedata with rx_total := 38, status := .SEND_POST }, http204, 0⟩ := by
  set_option maxRecDepth 100000 in decide

/-- C18 (as amended). For every GET request whose path starts with `/log=` and on which the
access-log block (lines 731 to 754, run at verbosity `LGG_INFO` and above) meets no undefined
behaviour, let `v` be the value `atoi` gives for the text after `/log=` (white space skipped,
an optional sign, then the leading decimal digits; 0 when the text does not start with a
number), within the range of `int`. The status is `ACTION_LOG_VERB` with verbosity `v`
exactly when `0 ≤ v ≤ LGG_DEBUG`; in every other case the status is `SEND_BAD`. -/
theorem C18_log_verbosity (g : Global) (c : Calls) (pd : response_struct)
    (buf text : List Nat) (v : Int) (bufptr : Option (List Nat))
    (hmethod : request_method buf = some (bytes "GET"))
    (hpath : request_path buf = some (bytes "/log=" ++ text))
    (hlog : access_log c buf (request_line buf).2 = some bufptr)
    (hv : atoi text = some v) :
    (0 ≤ v ∧ v ≤ g.LGG_DEBUG →
      conn_handler_classify g c pd buf
        = some ⟨{ pd with rx_total := buf.length, status := .ACTION_LOG_VERB, verb := v },
                httpnulltext, 0⟩) ∧
    (¬ (0 ≤ v ∧ v ≤ g.LGG_DEBUG) →
      conn_handler_classify g c pd buf
        = some ⟨{ pd with rx_total := buf.length, status := .SEND_BAD }, httpnulltext, 0⟩) := by
  have hdrop : (bytes "/log=" ++ text).drop 5 = text := by
    simp [bytes]
  have hstart : strncmp_eq (bytes "/log=" ++ text) (bytes "/log=") 5 = true := by
    simp [strncmp_eq, bytes]
  rw [classify_get g c pd buf _ bufptr hmethod hpath hlog]
  unfold conn_handler_get
  simp only [hstart, if_true, hdrop, hv]
  constructor
  · intro h
    rw [if_neg (by omega)]
  · intro h
    rw [if_pos (by omega)]

/-- C18, witness: with `LGG_DEBUG` 5, `GET /log=3` sets the verbosity 3, and `GET /log=6`,
sent with the header `Host: x` to a worker at verbosity `LGG_INFO`, is answered with
`SEND_BAD`. -/
theorem C18_log_verbosity_witness :
    conn_handler_classify default_global no_calls fresh_pipedata
        (bare_request "GET /log=3 HTTP/1.1")
      = some ⟨{ fresh_pipedata with rx_total := 23, status := .ACTION_LOG_VERB, verb := 3 },
              httpnulltext, 0⟩ ∧
    conn_handler_classify default_global info_calls fresh_pipedata
        (bytes "GET /log=6 HTTP/1.1\r\nHost: x\r\n\r\n")
      = some ⟨{ fresh_pipedata with rx_total := 32, status := .SEND_BAD }, httpnulltext, 0⟩ :=
  ⟨(C18_log_verbosity default_global no_calls fresh_pipedata
      (bare_request "GET /log=3 HTTP/1.1") (bytes "3") 3 (some (bytes "\n\r\n"))
      (by decide) (by decide) (by decide) (by decide)).1 (by decide),
   (C18_log_verbosity default_global info_calls fresh_pipedata
      (bytes "GET /log=6 HTTP/1.1\r\nHost: x\r\n\r\n") (bytes "6") 6
      (some (bytes "\nHost: x\r\n\r\n"))
      (by decide) (by decide) (by decide) (by decide)).2 (by decide)⟩

/-- C18, counterexample: the texts `abc` and the empty text are no integers, and `2x` is
none either; `GET /log=abc` and `GET /log=` set the verbosity 0 and `GET /log=2x` sets the
verbosity 2, each with the status `ACTION_LOG_VERB`. -/
theorem C18_counterexample :
    (conn_handler_classify default_global no_calls fresh_pipedata
        (bare_request "GET /log=abc HTTP/1.1")).map (fun s => (s.pipedata.status, s.pipedata.verb))
      = some (.ACTION_LOG_VERB, 0) ∧
    (conn_handler_classify default_global no_calls fresh_pipedata
        (bare_request "GET /log= HTTP/1.1")).map (fun s => (s.pipedata.status, s.pipedata.verb))
      = some (.ACTION_LOG_VERB, 0) ∧
    (conn_handler_classify default_global no_calls fresh_pipedata
        (bare_request "GET /log=2x HTTP/1.1")).map (fun s => (s.pipedata.status, s.pipedata.verb))
      = some (.ACTION_LOG_VERB, 2) := by
  set_option maxRecDepth 100000 in decide

/-- C19, the failing input: on a kept-alive connection a request line made only of spaces, sent
after `GET /a.gif`, is reported with the status `SEND_GIF` that the first request left in
`pipedata`: the status is not reset at the start of a pass through the event loop. As the
first request of a connection the same line is reported with `FAIL_GENERAL`. -/
theorem C19_stale_status_without_method :
    statuses (conn_handler default_global .SSL_UNKNOWN none
        [.data (bare_request "GET /a.gif HTTP/1.1") no_calls (.sent 130),
         .data (bare_request "   ") no_calls (.sent 151), .zero])
      = [.SEND_GIF, .SEND_GIF, .ACTION_DEC_KCC] ∧
    statuses (conn_handler default_global .SSL_UNKNOWN none
        [.data (bare_request "   ") no_calls (.sent 151), .zero])
      = [.FAIL_GENERAL, .ACTION_DEC_KCC] := by
  set_option maxRecDepth 100000 in decide

/-- C20. The payload of each canned media response, the bytes behind its first
`\r\n\r\n`, has the size its own `Content-length` header states: 42 bytes for
`httpnullpixel`, 67 for `httpnull_png`, 159 for `httpnull_jpg`, 25 for `httpnull_swf`, 70 for
`httpnull_ico`, and the 11 bytes `GET,OPTIONS` for `httpoptions`. -/
theorem C20_payload_sizes :
    ((payload httpnullpixel).map List.length = some 42 ∧
        content_length httpnullpixel = some 42) ∧
      ((payload httpnull_png).map List.length = some 67 ∧
        content_length httpnull_png = some 67) ∧
      ((payload httpnull_jpg).map List.length = some 159 ∧
        content_length httpnull_jpg = some 159) ∧
      ((payload httpnull_swf).map List.length = some 25 ∧
        content_length httpnull_swf = some 25) ∧
      ((payload httpnull_ico).map List.length = some 70 ∧
        content_length httpnull_ico = some 70) ∧
      (payload httpoptions = some (bytes "GET,OPTIONS") ∧
        (bytes "GET,OPTIONS").length = 11 ∧ content_length httpoptions = some 11) := by
  set_option maxRecDepth 100000 in decide

/-- C21 (as amended). Every canned response other than `http204` contains the header line
`Connection: keep-alive`: `http501`, `httpoptions`, `httpnulltext`, `httpnullpixel`,
`httpnull_png`, `httpnull_swf`, `httpnull_ico`, the redirect for every URL and both stats
responses for every version and stats string; `httpnull_jpg` contains `Connection: close`
instead, and no other response or template does; `http204` contains neither line. -/
theorem C21_connection_headers :
    (has_header_line http501 (bytes "Connection: keep-alive") = true ∧
      has_header_line httpoptions (bytes "Connection: keep-alive") = true ∧
      has_header_line httpnulltext (bytes "Connection: keep-alive") = true ∧
      has_header_line httpnullpixel (bytes "Connection: keep-alive") = true ∧
      has_header_line httpnull_png (bytes "Connection: keep-alive") = true ∧
      has_header_line httpnull_swf (bytes "Connection: keep-alive") = true ∧
      has_header_line httpnull_ico (bytes "Connection: keep-alive") = true) ∧
    ((∀ url, has_header_line (asprintf_redirect url) (bytes "Connection: keep-alive") = true) ∧
      (∀ version_string stat_string, has_header_line
        (asprintf_stats version_string stat_string) (bytes "Connection: keep-alive") = true) ∧
      (∀ version_string stat_string, has_header_line
        (asprintf_statstext version_string stat_string) (bytes "Connection: keep-alive")
          = true)) ∧
    (has_header_line httpnull_jpg (bytes "Connection: close") = true ∧
      has_header_line httpnull_jpg (bytes "Connection: keep-alive") = false) ∧
    (has_header_line http204 (bytes "Connection: keep-alive") = false ∧
      has_header_line http204 (bytes "Connection: close") = false) ∧
    (has_header_line http501 (bytes "Connection: close") = false ∧
      has_header_line httpoptions (bytes "Connection: close") = false ∧
      has_header_line httpnulltext (bytes "Connection: close") = false ∧
      has_header_line httpnullpixel (bytes "Connection: close") = false ∧
      has_header_line httpnull_png (bytes "Connection: close") = false ∧
      has_header_line httpnull_swf (bytes "Connection: close") = false ∧
      has_header_line httpnull_ico (bytes "Connection: close") = false ∧
      has_header_line (asprintf_redirect []) (bytes "Connection: close") = false ∧
      has_header_line (asprintf_stats [] []) (bytes "Connection: close") = false ∧
      has_header_line (asprintf_statstext [] []) (bytes "Connection: close") = false) := by
  refine ⟨by set_option maxRecDepth 100000 in decide, ⟨?_, ?_, ?_⟩,
    by set_option maxRecDepth 100000 in decide, by set_option maxRecDepth 100000 in decide,
    by set_option maxRecDepth 100000 in decide⟩
  · intro url
    unfold asprintf_redirect
    exact has_header_line_append _ _ _ (by decide)
  · intro v s
    unfold asprintf_stats
    simp only [List.append_assoc]
    refine has_header_line_append _ _ _ (has_header_line_append _ _ _ ?_)
    exact has_header_line_prepend _ _ _ (by decide)
  · intro v s
    unfold asprintf_statstext
    simp only [List.append_assoc]
    refine has_header_line_append _ _ _ (has_header_line_append _ _ _ ?_)
    exact has_header_line_prepend _ _ _ (by decide)

/-- C21, counterexample: `http204` does not contain the header line `Connection: keep-alive`;
the word `Connection` does not occur in it at all. -/
theorem C21_counterexample :
    has_header_line http204 (bytes "Connection: keep-alive") = false ∧
      (strstr http204 (bytes "Connection")).isSome = false := by
  decide

/-- C22. For every list of receive results, each at most `CHAR_BUF_SIZE` as a receive of
`CHAR_BUF_SIZE` bytes returns it: `read_socket` returns once it has `MAX_CHAR_BUF_LOTS`
results to take; the receive calls it makes take the first results of the list, they are at
most `MAX_CHAR_BUF_LOTS`, every one but the last returned exactly `CHAR_BUF_SIZE`, and the
value returned is at most `MAX_CHAR_BUF_LOTS * CHAR_BUF_SIZE`. -/
theorem C22_read_socket_bounds (CHAR_BUF_SIZE MAX_CHAR_BUF_LOTS : Int) (malloc_ok : Bool)
    (realloc_ok : Int → Bool) (recvs : List Int)
    (hsize : 0 ≤ CHAR_BUF_SIZE) (hlots : 0 ≤ MAX_CHAR_BUF_LOTS)
    (hrecv : ∀ rv ∈ recvs, rv ≤ CHAR_BUF_SIZE) :
    (MAX_CHAR_BUF_LOTS ≤ recvs.length →
      (read_socket CHAR_BUF_SIZE MAX_CHAR_BUF_LOTS malloc_ok realloc_ok recvs).isSome = true) ∧
    (∀ r, read_socket CHAR_BUF_SIZE MAX_CHAR_BUF_LOTS malloc_ok realloc_ok recvs = some r →
      r.2 <+: recvs ∧ (r.2.length : Int) ≤ MAX_CHAR_BUF_LOTS ∧
        (∀ rv ∈ r.2.dropLast, rv = CHAR_BUF_SIZE) ∧
        r.1 ≤ MAX_CHAR_BUF_LOTS * CHAR_BUF_SIZE) := by
  unfold read_socket
  cases malloc_ok with
  | false =>
    refine ⟨fun _ => rfl, ?_⟩
    intro r h
    simp only [Bool.not_false, if_true, Option.some.injEq] at h
    subst h
    refine ⟨by simp, by simpa using hlots, by simp, ?_⟩
    have := mul_nonneg hlots hsize
    show (-1 : Int) ≤ _
    omega
  | true =>
    simp only [Bool.not_true, Bool.false_eq_true, if_false]
    refine ⟨fun h => read_socket_loop_returns _ _ _ recvs 1 0 (by omega), ?_⟩
    intro r h
    obtain ⟨h1, h2, h3, h4⟩ :=
      read_socket_loop_spec CHAR_BUF_SIZE MAX_CHAR_BUF_LOTS realloc_ok recvs 1 0 r hrecv
        (by omega) h
    refine ⟨h4, by omega, h2, ?_⟩
    have hmul : (r.2.length : Int) * CHAR_BUF_SIZE ≤ MAX_CHAR_BUF_LOTS * CHAR_BUF_SIZE :=
      mul_le_mul_of_nonneg_right (by omega) hsize
    have := mul_nonneg hlots hsize
    rcases h3 with h3 | h3 <;> omega

/-- C22, witness: with 32 lots of 4096 bytes, two full receives and one of 100 bytes give
the length 8292 after three receive calls; the fourth result is not taken. -/
theorem C22_read_socket_bounds_witness :
    read_socket 4096 32 true (fun _ => true) [4096, 4096, 100, 7] = some (8292, [4096, 4096, 100]) ∧
      ([4096, 4096, 100] : List Int) <+: [4096, 4096, 100, 7] ∧
      (([4096, 4096, 100] : List Int).length : Int) ≤ 32 ∧
      (∀ rv ∈ ([4096, 4096, 100] : List Int).dropLast, rv = 4096) ∧
      (8292 : Int) ≤ 32 * 4096 :=
  ⟨by decide,
   ((C22_read_socket_bounds 4096 32 true (fun _ => true) [4096, 4096, 100, 7] (by decide)
      (by decide) (by decide)).2 (8292, [4096, 4096, 100]) (by decide))⟩

/-- C23. For every POST request that reaches the receive loop and every list of receive
results: the loop ends once it has `length + wait_cnt` results to take, it never makes more
receive calls than that, and at most `max 1 (MAX_HTTP_POST_WAIT / select_timeout)` of its
receive calls return no data (a result `≤ 0`). -/
theorem C23_post_loop_terminates (g : Global) (pd : response_struct) (bufptr : List Nat)
    (has_body : Bool) (body_len size : Int) (s : post_state) (recvs : List Int)
    (hsetup : post_setup g pd bufptr has_body body_len = some (size, s)) :
    (s.length.toNat + s.wait_cnt.toNat ≤ recvs.length →
      (post_loop g recvs s).isSome = true) ∧
    (post_loop_calls g recvs s).length ≤ s.length.toNat + s.wait_cnt.toNat ∧
    (((post_loop_calls g recvs s).countP (fun rv => decide (rv ≤ 0)) : Nat) : Int)
      ≤ max 1 (Int.tdiv g.MAX_HTTP_POST_WAIT g.select_timeout) := by
  have hw := post_setup_wait g pd bufptr has_body body_len size s hsetup
  obtain ⟨h1, h2⟩ := post_loop_calls_bounds g recvs s
  refine ⟨post_loop_returns g recvs s, h2, ?_⟩
  rw [← hw]
  have : (1 : Int) ≤ s.wait_cnt := by rw [hw]; exact le_max_left _ _
  omega

/-- C23, witness: with `Content-Length: 5` and a wait budget of 20 / 10 = 2, the results
0, 3, -1 end the loop after two receives without data. -/
theorem C23_post_loop_terminates_witness :
    (post_loop default_global [0, 3, -1, 9, 9, 9, 9] ⟨0, 5, 5, 2, 0⟩).isSome = true ∧
      (post_loop_calls default_global [0, 3, -1, 9, 9, 9, 9] ⟨0, 5, 5, 2, 0⟩).length ≤ 7 ∧
      (((post_loop_calls default_global [0, 3, -1, 9, 9, 9, 9] ⟨0, 5, 5, 2, 0⟩).countP
          (fun rv => decide (rv ≤ 0)) : Nat) : Int) ≤ 2 :=
  have h := C23_post_loop_terminates default_global fresh_pipedata
    (bytes "\nContent-Length: 5\r\n\r\n") true 4 5 ⟨0, 5, 5, 2, 0⟩ [0, 3, -1, 9, 9, 9, 9]
    (by decide)
  ⟨h.1 (by decide), h.2.1, h.2.2⟩

/-- C24, the failing input: the path `/a?u=http://x/%0d%0aX-Injected:1` is decoded to a URL that
contains CR LF; the request gets `SEND_REDIRECT`, the URL is copied into the `Location`
header as it is, and the response has the additional header line `X-Injected:1`. -/
theorem C24_redirect_header_injection :
    conn_handler_classify default_global no_calls fresh_pipedata
        (bare_request "GET /a?u=http://x/%0d%0aX-Injected:1 HTTP/1.1")
      = some ⟨{ fresh_pipedata with rx_total := 49, status := .SEND_REDIRECT },
              asprintf_redirect (bytes "http://x/\r\nX-Injected:1"), 0⟩ ∧
    has_header_line (asprintf_redirect (bytes "http://x/\r\nX-Injected:1"))
        (bytes "X-Injected:1") = true := by
  set_option maxRecDepth 100000 in decide

/-- C25. For every version string and stats string whose response fits the `int` that
`asprintf` returns: the bytes behind the first blank line of the HTML stats response are
`httpstats3`, the version, `<br>`, the stats and `httpstats4`, those of the text stats
response are the version, `\n`, the stats and `\r\n`, and in both the number in the
`Content-length` header is the number of these bytes. -/
theorem C25_stats_content_length (version_string stat_string : List Nat) :
    ((asprintf_stats version_string stat_string).length ≤ 2147483647 →
      payload (asprintf_stats version_string stat_string)
          = some (httpstats3 ++ version_string ++ bytes "<br>" ++ stat_string ++ httpstats4) ∧
        content_length (asprintf_stats version_string stat_string)
          = some ((httpstats3 ++ version_string ++ bytes "<br>" ++ stat_string
                    ++ httpstats4).length : Int)) ∧
    ((asprintf_statstext version_string stat_string).length ≤ 2147483647 →
      payload (asprintf_statstext version_string stat_string)
          = some (version_string ++ bytes "\n" ++ stat_string ++ bytes "\r\n") ∧
        content_length (asprintf_statstext version_string stat_string)
          = some ((version_string ++ bytes "\n" ++ stat_string ++ bytes "\r\n").length : Int)) :=
  ⟨stats_response version_string stat_string, statstext_response version_string stat_string⟩

/-- C25, witness: for the version `v2.0` the HTML response with the stats `<table></table>`
announces and carries 400 bytes, the text response with the stats `req 7` 12 bytes. -/
theorem C25_stats_content_length_witness :
    content_length (asprintf_stats (bytes "v2.0") (bytes "<table></table>")) = some 400 ∧
      (payload (asprintf_stats (bytes "v2.0") (bytes "<table></table>"))).map List.length
        = some 400 ∧
      content_length (asprintf_statstext (bytes "v2.0") (bytes "req 7")) = some 12 ∧
      payload (asprintf_statstext (bytes "v2.0") (bytes "req 7")) = some (bytes "v2.0\nreq 7\r\n") :=
  have h1 := (C25_stats_content_length (bytes "v2.0") (bytes "<table></table>")).1
    (by set_option maxRecDepth 100000 in decide)
  have h2 := (C25_stats_content_length (bytes "v2.0") (bytes "req 7")).2
    (by set_option maxRecDepth 100000 in decide)
  ⟨h1.2.trans (by set_option maxRecDepth 100000 in decide),
   (congrArg (Option.map List.length) h1.1).trans (by set_option maxRecDepth 100000 in decide),
   h2.2.trans (by decide), h2.1.trans (by decide)⟩

/-- C26, the failing input: the request `POST / HTTP/1.1` with `Content-Length: 1` and the eight
body bytes `AAAAAAAA` in the same read. `post_buf_size` is 1 at the `malloc` of line 781, so
`post_buf` has 2 bytes; `body_len` is 46 - 34 = 12, and line 791 copies `recv_len = 8` bytes
into it; `post_buf_size` is -7 afterwards. The request ends with `post_buf_len = 8`. -/
theorem C26_post_copy_overruns_buffer :
    post_setup default_global { fresh_pipedata with rx_total := 46 }
        (request_line (bytes "POST / HTTP/1.1\r\nContent-Length: 1\r\n\r\nAAAAAAAA")).2 true 12
      = some (1, ⟨8, -7, -7, 2, 46⟩) ∧
    conn_handler_classify default_global no_calls fresh_pipedata
        (bytes "POST / HTTP/1.1\r\nContent-Length: 1\r\n\r\nAAAAAAAA")
      = some ⟨{ fresh_pipedata with rx_total := 46, status := .SEND_POST }, http204, 8⟩ := by
  set_option maxRecDepth 100000 in decide

/-- C27 (as amended). The key derivation of `tls_servername_cb` is idempotent: for every
server name `s` that does not start with a dot, the key of the key of `s` is the key of `s`.
Two names that differ only in a first label that is not empty, and whose common remainder
has a further dot and is not kept by the test of line 440 (it does not make exactly three
dots, or `atoi` of its last label is negative), have the same key `_.<remainder>`. -/
theorem C27_key_is_idempotent :
    (∀ s k : List Nat, s.head? ≠ some 46 → pem_file_name s = some k →
      pem_file_name k = some k) ∧
    (∀ first1 first2 rest : List Nat, first1 ≠ [] → 46 ∉ first1 → first2 ≠ [] → 46 ∉ first2 →
      1 ≤ rest.count 46 →
      (rest.count 46 = 2 → ∃ v, atoi (after_last 46 rest) = some v ∧ v < 0) →
      pem_file_name (first1 ++ 46 :: rest) = some (95 :: 46 :: rest) ∧
        pem_file_name (first2 ++ 46 :: rest) = some (95 :: 46 :: rest)) :=
  ⟨pem_file_name_idem, fun first1 first2 rest h1 l1 h2 l2 hd hip =>
    ⟨pem_file_name_shared first1 rest h1 l1 hd hip, pem_file_name_shared first2 rest h2 l2 hd hip⟩⟩

/-- C27, witness: `_.example.com`, the key of `ads.example.com`, is its own key, and
`ads.example.com` and `cdn.example.com` have the same key. -/
theorem C27_key_witness :
    pem_file_name (bytes "_.example.com") = some (bytes "_.example.com") ∧
      (pem_file_name (bytes "ads" ++ 46 :: bytes "example.com") = some (95 :: 46 :: bytes "example.com") ∧
        pem_file_name (bytes "cdn" ++ 46 :: bytes "example.com")
          = some (95 :: 46 :: bytes "example.com")) :=
  ⟨C27_key_is_idempotent.1 (bytes "ads.example.com") (bytes "_.example.com") (by decide)
      (by decide),
   C27_key_is_idempotent.2 (bytes "ads") (bytes "cdn") (bytes "example.com") (by decide)
      (by decide) (by decide) (by decide) (by decide) (fun h => absurd h (by decide))⟩

/-- C27, counterexample: `a.com` and `b.com` differ only in their first label and have the
same remainder, and each is its own key. -/
theorem C27_counterexample :
    pem_file_name (bytes "a" ++ 46 :: bytes "com") = some (bytes "a.com") ∧
      pem_file_name (bytes "b" ++ 46 :: bytes "com") = some (bytes "b.com") ∧
      pem_file_name (bytes "a" ++ 46 :: bytes "com")
        ≠ pem_file_name (bytes "b" ++ 46 :: bytes "com") := by
  decide

/-- C28, the failing input: a first receive that fills 4096 bytes followed by a receive that
returns -1 makes `read_socket` return 4095, one less than the 4096 bytes stored; when the
`realloc` after the full receive fails it returns -1. A single receive of 100 bytes gives
100. -/
theorem C28_read_socket_miscounts :
    read_socket 4096 32 true (fun _ => true) [4096, -1] = some (4095, [4096, -1]) ∧
      stored_bytes [4096, -1] = 4096 ∧
      read_socket 4096 32 true (fun _ => false) [4096] = some (-1, [4096]) ∧
      stored_bytes [4096] = 4096 ∧
      read_socket 4096 32 true (fun _ => true) [100] = some (100, [100]) ∧
      stored_bytes [100] = 100 := by
  decide

/-- C29. For every input string, `urldecode` writes at most as many bytes in front of the
final NUL as the input has, in the first pass and in the second pass on the C string the
first pass left, so that neither pass writes more than `strlen(path) + 1` bytes; and on an
input without `%` the output is the input. -/
theorem C29_urldecode_fits (e : List Nat) :
    (urldecode e).length ≤ e.length ∧
      (urldecode (cstr (urldecode e))).length ≤ e.length ∧
      (double_decode e).length ≤ e.length ∧
      (37 ∉ e → urldecode e = e) := by
  have h1 := urldecode_length_le e.length e (le_refl _)
  have h2 := cstr_length_le (urldecode e)
  have h3 := urldecode_length_le _ (cstr (urldecode e)) (le_refl _)
  have h4 := cstr_length_le (urldecode (cstr (urldecode e)))
  refine ⟨h1, by omega, ?_, urldecode_plain e⟩
  unfold double_decode
  omega

/-- C29, witness: `/r?u=x` has no `%` and is decoded to itself. -/
theorem C29_urldecode_fits_witness :
    urldecode (bytes "/r?u=x") = bytes "/r?u=x" :=
  (C29_urldecode_fits (bytes "/r?u=x")).2.2.2 (by decide)

/-- C30, the failing input: `strstr_last("http://x", "http://")` and `strstr_last("abc", "abc")`
are `NULL` although the needle occurs at the start of the string; an occurrence behind the
first byte is found. -/
theorem C30_strstr_last_misses_start :
    strstr_last (bytes "http://x") (bytes "http://") = none ∧
      strstr_last (bytes "abc") (bytes "abc") = none ∧
      strstr_last (bytes "abcabc") (bytes "abc") = some (bytes "abc") ∧
      strstr_last (bytes "/http://x") (bytes "http://") = some (bytes "http://x") := by
  decide

end Pixelserv
